import Mathlib

/-!
gamequery: the Minecraft UDP ("full stat") query protocol

A shallow embedding of `src/protocols/minecraft_udp.go` and a verification of
its specification.

* Bytes are natural numbers (a well-formed byte is `< 256`); a Go `string` and a
  datagram are both `List Nat`.
* `int32`, `int64` values are `Int`; `uint16`, `uint64` values are `Nat`; each
  conversion between widths is an explicit `%`.
* The transport (`NetworkHelper`) is a state machine passed explicitly; `Execute`
  returns the pair `(Response, error)` of the Go function together with the
  trace of the transport operations it performed.
-/

namespace GameQuery

/-- The bytes of an ASCII string literal of the source. -/
def str (s : String) : List Nat := s.toList.map Char.toNat

/-! ## Go standard library: `strconv`, `encoding/binary`, `errors` -/

/-- The two sentinel errors of `strconv`: `ErrSyntax` and `ErrRange`. -/
inductive StrconvErr where
  | ErrSyntax
  | ErrRange
  deriving DecidableEq, Repr

/-- `*strconv.NumError`. -/
structure NumError where
  Func : String
  Num : List Nat
  Err : StrconvErr
  deriving DecidableEq, Repr

/-- The values of Go's `error` interface that occur in a run: an `errors.New`
value, a `*strconv.NumError`, or whatever value the transport returned. -/
inductive GoError where
  | errorsNew (msg : String)
  | numError (e : NumError)
  | transport (code : Nat)
  deriving DecidableEq, Repr

/-- `lower(c)` of `strconv`: `c | ('x' - 'X')`. -/
def lower (c : Nat) : Nat := c ||| 0x20

/-- `maxUint64/10 + 1`, the `cutoff` of `strconv.ParseUint` in base 10. -/
def cutoff10 : Nat := (2 ^ 64 - 1) / 10 + 1

/-- The `switch` of the digit loop of `strconv.ParseUint` in base 10 (so
`base0` is false and the case `c == '_' && base0` cannot fire): the digit value
`d` of the byte `c`, or `none` in the `default` case. -/
def digitOf (c : Nat) : Option Nat :=
  if 48 ≤ c ∧ c ≤ 57 then some ((c - 48) % 256)
  else if 97 ≤ lower c ∧ lower c ≤ 122 then some ((lower c - 97 + 10) % 256)
  else none

/-- The digit loop of `strconv.ParseUint(s, 10, bitSize)`; `n` is the `uint64`
accumulator and `maxVal = 1<<bitSize - 1`. The `*NumError` of the source is
built by the caller from the returned kind. -/
def parseUintLoop (maxVal : Nat) : List Nat → Nat → Nat × Option StrconvErr
  | [], n => (n, none)
  | c :: cs, n =>
    match digitOf c with
    | none => (0, some .ErrSyntax)
    | some d =>
      if d ≥ 10 then (0, some .ErrSyntax)
      else if n ≥ cutoff10 then (maxVal, some .ErrRange)
      else
        let n10 := (n * 10) % 2 ^ 64
        let n1 := (n10 + d) % 2 ^ 64
        if n1 < n10 ∨ n1 > maxVal then (maxVal, some .ErrRange)
        else parseUintLoop maxVal cs n1

/-- `strconv.ParseUint(s, 10, bitSize)` for `1 ≤ bitSize ≤ 64`: the value and
the kind of the error, if any. -/
def ParseUint (s : List Nat) (bitSize : Nat) : Nat × Option StrconvErr :=
  if s = [] then (0, some .ErrSyntax)
  else parseUintLoop (2 ^ bitSize - 1) s 0

/-- The conversion `int64(v)`: the two's complement value of `v` in 64 bits. -/
def toInt64 (v : Int) : Int := (v + 2 ^ 63) % 2 ^ 64 - 2 ^ 63

/-- `strconv.ParseInt` from the comment "Convert unsigned and check range" on:
`s0` is the whole text, `neg` the sign picked off and `s` the text after it. An
error of `ParseUint` other than `ErrRange` is `ErrSyntax` here, the base and the
bit size being valid; it is returned with `Func` and `Num` replaced. -/
def parseIntBody (s0 : List Nat) (neg : Bool) (s : List Nat) (bitSize : Nat) :
    Int × Option NumError :=
  let (un, err) := ParseUint s bitSize
  if err ≠ none ∧ err ≠ some .ErrRange then (0, some ⟨"ParseInt", s0, .ErrSyntax⟩)
  else
    let cutoff := 2 ^ (bitSize - 1)
    if neg = false ∧ un ≥ cutoff then
      (toInt64 ((cutoff - 1 : Nat) : Int), some ⟨"ParseInt", s0, .ErrRange⟩)
    else if neg = true ∧ un > cutoff then
      (toInt64 (-toInt64 ((cutoff : Nat) : Int)), some ⟨"ParseInt", s0, .ErrRange⟩)
    else
      let n := toInt64 (un : Int)
      (if neg then toInt64 (-n) else n, none)

/-- `strconv.ParseInt(s, 10, bitSize)` for `1 ≤ bitSize ≤ 64`: the `int64`
result and the error. -/
def ParseInt (s : List Nat) (bitSize : Nat) : Int × Option NumError :=
  match s with
  | [] => (0, some ⟨"ParseInt", s, .ErrSyntax⟩)
  | c0 :: t =>
    if c0 = 43 then parseIntBody s false t bitSize
    else if c0 = 45 then parseIntBody s true t bitSize
    else parseIntBody s false s bitSize

/-- The four bytes of a 32-bit value in big-endian order (`int32` values are
taken modulo `2^32`, their two's complement). -/
def be32 (v : Int) : List Nat :=
  let u := (v % 2 ^ 32).toNat
  [u / 2 ^ 24 % 256, u / 2 ^ 16 % 256, u / 2 ^ 8 % 256, u % 256]

/-- The eight bytes `binary.Write(buf, binary.BigEndian, v)` appends for an
`int64` `v`. -/
def be64 (v : Int) : List Nat :=
  let u := (v % 2 ^ 64).toNat
  [u / 2 ^ 56 % 256, u / 2 ^ 48 % 256, u / 2 ^ 40 % 256, u / 2 ^ 32 % 256,
   u / 2 ^ 24 % 256, u / 2 ^ 16 % 256, u / 2 ^ 8 % 256, u % 256]

/-- The conversion `int32(u)` of a `uint32`. -/
def toInt32 (u : Nat) : Int :=
  if u % 2 ^ 32 ≥ 2 ^ 31 then ((u % 2 ^ 32 : Nat) : Int) - 2 ^ 32 else ((u % 2 ^ 32 : Nat) : Int)

/-- The conversion `uint16(v)` of an `int64`. -/
def toUint16 (v : Int) : Nat := (v % 2 ^ 16).toNat

/-! ## The binary buffer (`Packet`), the transport and the response

These three types of the repository are declared outside
`protocols/minecraft_udp.go`; they are modelled here from the contracts the
specification gives for them. -/

/-- Modelled from the spec: the type `Packet` and its methods (the "binary
buffer collaborator": an append-only buffer for writing, a buffer with a cursor
for reading). `buffer` is the content, `pos` the read cursor. -/
structure Packet where
  buffer : List Nat
  pos : Nat
  deriving DecidableEq, Repr

namespace Packet

/-- Modelled from the spec: the zero value `Packet{}`, an empty buffer. -/
def empty : Packet := ⟨[], 0⟩

/-- Modelled from the spec: "wrap a received byte sequence for reading". -/
def ofBytes (data : List Nat) : Packet := ⟨data, 0⟩

/-- The bytes from the cursor to the end of the buffer. -/
def rest (p : Packet) : List Nat := p.buffer.drop p.pos

/-- Modelled from the spec: `Packet.WriteRaw`, "append raw bytes". -/
def WriteRaw (p : Packet) (bs : List Nat) : Packet := { p with buffer := p.buffer ++ bs }

/-- Modelled from the spec: `Packet.WriteInt32`, "append ... 32-bit integers in
the selected order", the order being big-endian throughout `Execute`. -/
def WriteInt32 (p : Packet) (v : Int) : Packet := { p with buffer := p.buffer ++ be32 v }

/-- Modelled from the spec: `Packet.Clear`, which empties the buffer. -/
def Clear (_p : Packet) : Packet := ⟨[], 0⟩

/-- Modelled from the spec: `Packet.GetBuffer`, "report the underlying buffer
for transmission". -/
def GetBuffer (p : Packet) : List Nat := p.buffer

/-- Modelled from the spec: `Packet.ReadUint8`, "read 8-bit ... integers": the
byte under the cursor, the cursor moving one byte on. The spec is silent on a
read at the end of the buffer; the model returns 0 there. -/
def ReadUint8 (p : Packet) : Nat × Packet :=
  match p.rest with
  | b :: _ => (b, { p with pos := p.pos + 1 })
  | [] => (0, p)

/-- Modelled from the spec: `Packet.ReadInt32`, "read ... 32-bit integers" in
big-endian order, as an `int32`, the cursor moving four bytes on. The spec is
silent on a read with fewer than four bytes left; the model returns 0 there and
moves the cursor to the end. -/
def ReadInt32 (p : Packet) : Int × Packet :=
  match p.rest with
  | b0 :: b1 :: b2 :: b3 :: _ =>
    (toInt32 (b0 * 2 ^ 24 + b1 * 2 ^ 16 + b2 * 2 ^ 8 + b3), { p with pos := p.pos + 4 })
  | _ => (0, { p with pos := p.pos + p.rest.length })

/-- Modelled from the spec: `Packet.ReadString`, "read a null-terminated
string": the bytes from the cursor up to the next null byte, the cursor moving
past that null byte. At the end of the buffer the result is the empty string
("empty string marks end-of-section", and an entry may land "exactly at the end
of the datagram"); a string that the end of the buffer cuts short is returned as
far as it goes. -/
def ReadString (p : Packet) : List Nat × Packet :=
  let s := p.rest.takeWhile (fun b => b ≠ 0)
  (s, { p with pos := p.pos + s.length + 1 })

/-- Modelled from the spec: `Packet.Forward`, "advance the cursor by N bytes
without interpreting them". -/
def Forward (p : Packet) (n : Nat) : Packet := { p with pos := p.pos + n }

end Packet

/-- The struct `MinecraftUDPRaw`; the three `uint16` fields are naturals below
`2^16`. -/
structure MinecraftUDPRaw where
  Hostname : List Nat
  GameType : List Nat
  GameID : List Nat
  Version : List Nat
  Plugins : List Nat
  Map : List Nat
  NumPlayers : Nat
  MaxPlayers : Nat
  HostPort : Nat
  HostIP : List Nat
  Players : List (List Nat)
  deriving DecidableEq, Repr

/-- The zero value `MinecraftUDPRaw{}`. -/
def MinecraftUDPRaw.zero : MinecraftUDPRaw := ⟨[], [], [], [], [], [], 0, 0, 0, [], []⟩

/-- Modelled from the spec: the type `Response`, of which `Execute` sets only
the field `Raw`; the zero value `Response{}` has a nil `Raw`. -/
structure Response where
  Raw : Option MinecraftUDPRaw
  deriving DecidableEq, Repr

/-- The zero value `Response{}`. -/
def Response.zero : Response := ⟨none⟩

/-- Modelled from the spec: the interface `NetworkHelper` (the "transport
collaborator"), a state machine over states `σ`: `Send` transmits one datagram
and returns an error or nil, `Receive` returns one reply datagram or an
error. -/
structure NetworkHelper (σ : Type) where
  Send : σ → List Nat → Option GoError × σ
  Receive : σ → Except GoError (List Nat) × σ

/-- One call of a transport operation: `Send` with the datagram it was given,
or `Receive`. -/
inductive TransportOp where
  | send (datagram : List Nat)
  | receive
  deriving DecidableEq, Repr

/-- The datagrams given to `Send`, in order. -/
def sentDatagrams : List TransportOp → List (List Nat)
  | [] => []
  | .send d :: ops => d :: sentDatagrams ops
  | .receive :: ops => sentDatagrams ops

/-- What a call of `Execute` produces: the two values the Go function returns
and the transport operations it performed, in order. -/
structure Run where
  resp : Response
  err : Option GoError
  ops : List TransportOp
  deriving DecidableEq, Repr

/-! ## `protocols/minecraft_udp.go` -/

/-- `generateSessionID`, as a function of the value `rnd` that `rand.Int31()`
returns (the seeding has no other effect on the result). -/
def generateSessionID (rnd : Nat) : Int := ((rnd &&& 0x0F0F0F0F : Nat) : Int)

/-- `parseChallengeToken`: the returned slice and the returned error.
`binary.Write` of an `int64` into a `bytes.Buffer` does not fail, so its error
branch is dead; the buffer then holds eight bytes, of which the last four are
returned. -/
def parseChallengeToken (challengeToken : List Nat) : List Nat × Option GoError :=
  match ParseInt challengeToken 32 with
  | (_, some err) => ([], some (.numError err))
  | (parsedInt, none) =>
    let buf := be64 parsedInt
    (buf.drop (buf.length - 4), none)

/-- The body of the `switch key` statement of `Execute`: the record after the
pair `(key, val)` has been routed into it. -/
def routeKV (raw : MinecraftUDPRaw) (key val : List Nat) : MinecraftUDPRaw :=
  if key = str "hostname" then { raw with Hostname := val }
  else if key = str "gametype" then { raw with GameType := val }
  else if key = str "game_id" then { raw with GameID := val }
  else if key = str "version" then { raw with Version := val }
  else if key = str "plugins" then { raw with Plugins := val }
  else if key = str "map" then { raw with Map := val }
  else if key = str "numplayers" then { raw with NumPlayers := toUint16 (ParseInt val 16).1 }
  else if key = str "maxplayers" then { raw with MaxPlayers := toUint16 (ParseInt val 16).1 }
  else if key = str "hostport" then { raw with HostPort := toUint16 (ParseInt val 16).1 }
  else if key = str "hostip" then { raw with HostIP := val }
  else raw

/-- The first `for` loop of `Execute` (the key/value pass), one iteration per
unit of fuel; `none` when the fuel runs out before the loop breaks. -/
def kvLoop : Nat → Packet → MinecraftUDPRaw → Option (Packet × MinecraftUDPRaw)
  | 0, _, _ => none
  | fuel + 1, p, raw =>
    let (key, p1) := p.ReadString
    if key = [] then some (p1, raw)
    else
      let (val, p2) := p1.ReadString
      kvLoop fuel p2 (routeKV raw key val)

/-- The second `for` loop of `Execute` (the player-list pass), one iteration
per unit of fuel; `none` when the fuel runs out before the loop breaks. -/
def playerLoop : Nat → Packet → MinecraftUDPRaw → Option (Packet × MinecraftUDPRaw)
  | 0, _, _ => none
  | fuel + 1, p, raw =>
    let (playerName, p1) := p.ReadString
    if playerName = [] then some (p1, raw)
    else playerLoop fuel p1 { raw with Players := raw.Players ++ [playerName] }

/-- Lines 125 to 172 of `Execute`: the decoding of the full-stat response once
its type tag and session identifier have been read. Each loop gets one unit of
fuel per byte of the buffer and one more, which is more than it can use. -/
def decodeStat (p : Packet) : Option MinecraftUDPRaw :=
  let p1 := p.Forward 11
  match kvLoop (p.buffer.length + 1) p1 MinecraftUDPRaw.zero with
  | none => none
  | some (p2, raw) =>
    let p3 := p2.Forward 10
    match playerLoop (p.buffer.length + 1) p3 raw with
    | none => none
    | some (_, raw1) => some raw1

/-- The first datagram of a run: `0xFE 0xFD 0x09` and the session identifier. -/
def handshakeRequest (sessionId : Int) : List Nat :=
  ((Packet.empty.WriteRaw [0xFE, 0xFD, 0x09]).WriteInt32 sessionId).GetBuffer

/-- The second datagram of a run, built in the packet of the first one after
`packet.Clear()`. -/
def fullStatRequest (sessionId : Int) (challengeToken : List Nat) : List Nat :=
  let packet := (Packet.empty.WriteRaw [0xFE, 0xFD, 0x09]).WriteInt32 sessionId
  ((((packet.Clear.WriteRaw [0xFE, 0xFD, 0x00]).WriteInt32 sessionId).WriteRaw
    challengeToken).WriteRaw [0x00, 0x00, 0x00, 0x00]).GetBuffer

/-- The message of the error of line 88. -/
def msgNoHandshake : String := "sent a handshake, but didn't receive handshake response back"

/-- The message of the errors of lines 92 and 122. -/
def msgWrongSession : String := "received handshake for wrong session id"

/-- The message of the error of line 118. -/
def msgNoStat : String := "sent a full stat request, but didn't receive stat response back"

/-- Lines 100 to 176 of `Execute`: the full-stat exchange, entered once the
handshake response has been checked and the challenge token parsed. `st2` is
the state of the transport after the first `Receive`. -/
def fullStatExchange {σ : Type} (helper : NetworkHelper σ) (st2 : σ) (sessionId : Int)
    (challengeToken : List Nat) : Option Run :=
  let d1 := handshakeRequest sessionId
  let d2 := fullStatRequest sessionId challengeToken
  match helper.Send st2 d2 with
  | (some err, _) => some ⟨Response.zero, some err, [.send d1, .receive, .send d2]⟩
  | (none, st3) =>
    match helper.Receive st3 with
    | (.error err, _) =>
      some ⟨Response.zero, some err, [.send d1, .receive, .send d2, .receive]⟩
    | (.ok data2, _) =>
      let responsePacket := Packet.ofBytes data2
      let (tag2, rp1) := responsePacket.ReadUint8
      if tag2 ≠ 0x00 then
        some ⟨Response.zero, some (.errorsNew msgNoStat),
          [.send d1, .receive, .send d2, .receive]⟩
      else
        let (sid2, rp2) := rp1.ReadInt32
        if sid2 ≠ sessionId then
          some ⟨Response.zero, some (.errorsNew msgWrongSession),
            [.send d1, .receive, .send d2, .receive]⟩
        else
          match decodeStat rp2 with
          | none => none
          | some raw =>
            some ⟨⟨some raw⟩, none, [.send d1, .receive, .send d2, .receive]⟩

/-- `MinecraftUDP.Execute`, run on the transport `helper` in state `st`, with
`rnd` the value `rand.Int31()` returns: lines 69 to 98, followed by
`fullStatExchange`. The result is `none` only if a decoding loop runs out of
fuel. -/
def Execute {σ : Type} (helper : NetworkHelper σ) (st : σ) (rnd : Nat) : Option Run :=
  let sessionId := generateSessionID rnd
  let d1 := handshakeRequest sessionId
  match helper.Send st d1 with
  | (some err, _) => some ⟨Response.zero, some err, [.send d1]⟩
  | (none, st1) =>
    match helper.Receive st1 with
    | (.error err, _) => some ⟨Response.zero, some err, [.send d1, .receive]⟩
    | (.ok data, st2) =>
      let handshakePacket := Packet.ofBytes data
      let (tag, hp1) := handshakePacket.ReadUint8
      if tag ≠ 0x09 then
        some ⟨Response.zero, some (.errorsNew msgNoHandshake), [.send d1, .receive]⟩
      else
        let (sid, hp2) := hp1.ReadInt32
        if sid ≠ sessionId then
          some ⟨Response.zero, some (.errorsNew msgWrongSession), [.send d1, .receive]⟩
        else
          match parseChallengeToken hp2.ReadString.1 with
          | (_, some err) => some ⟨Response.zero, some err, [.send d1, .receive]⟩
          | (challengeToken, none) => fullStatExchange helper st2 sessionId challengeToken

/-! ## Wire format used to state the theorems -/

/-- The key/value section a server sends for `pairs`: each key and each value
followed by a null byte. -/
def encodeKV : List (List Nat × List Nat) → List Nat
  | [] => []
  | (k, v) :: ps => k ++ 0 :: (v ++ 0 :: encodeKV ps)

/-- The player section a server sends for `names`: each name followed by a null
byte. -/
def encodeNames : List (List Nat) → List Nat
  | [] => []
  | n :: ns => n ++ 0 :: encodeNames ns

/-- A byte string that can be sent null-terminated: it has no null byte. -/
def NullFree (s : List Nat) : Prop := ∀ b ∈ s, b ≠ 0

instance (s : List Nat) : Decidable (NullFree s) :=
  inferInstanceAs (Decidable (∀ b ∈ s, b ≠ 0))

/-- The pairs of a key/value section that `Execute` reads back as sent: keys
are non-empty and neither keys nor values hold a null byte. -/
def WellFormedKV (pairs : List (List Nat × List Nat)) : Prop :=
  ∀ kv ∈ pairs, kv.1 ≠ [] ∧ NullFree kv.1 ∧ NullFree kv.2

instance (pairs : List (List Nat × List Nat)) : Decidable (WellFormedKV pairs) :=
  inferInstanceAs (Decidable (∀ kv ∈ pairs, kv.1 ≠ [] ∧ NullFree kv.1 ∧ NullFree kv.2))

/-- The value of the last pair of `pairs` whose key is `k`, if there is one. -/
def lastValue : List (List Nat × List Nat) → List Nat → Option (List Nat)
  | [], _ => none
  | (k1, v) :: ps, k =>
    match lastValue ps k with
    | some w => some w
    | none => if k1 = k then some v else none

/-- The strings between the null bytes of `bs`: `bs` cut at each null byte. -/
def splitNull : List Nat → List (List Nat)
  | [] => [[]]
  | b :: bs =>
    if b = 0 then [] :: splitNull bs
    else
      match splitNull bs with
      | [] => [[b]]
      | s :: ss => (b :: s) :: ss

/-- A full-stat response of a server: the tag `0x00`, the echoed session
identifier, eleven bytes of padding and the body. -/
def statResponse (sessionId : Int) (pad11 body : List Nat) : List Nat :=
  0 :: (be32 sessionId ++ (pad11 ++ body))

/-- The transport carries the run of `Execute` through the handshake: the first
`Send` succeeds, the first `Receive` returns a datagram that passes the checks
of lines 87 to 93 (type tag `0x09`, echoed session identifier), and `token` is
the challenge text read from it; `st2` is the state of the transport then. -/
def ReceivesHandshake {σ : Type} (helper : NetworkHelper σ) (st : σ) (rnd : Nat)
    (token : List Nat) (st2 : σ) : Prop :=
  ∃ (st1 : σ) (data : List Nat),
    helper.Send st (handshakeRequest (generateSessionID rnd)) = (none, st1) ∧
    helper.Receive st1 = (.ok data, st2) ∧
    (Packet.ofBytes data).ReadUint8.1 = 0x09 ∧
    (Packet.ofBytes data).ReadUint8.2.ReadInt32.1 = generateSessionID rnd ∧
    (Packet.ofBytes data).ReadUint8.2.ReadInt32.2.ReadString.1 = token

/-- The transport carries the run of `Execute` up to the second `Receive`,
which returns the datagram `data2`: the handshake goes through, the challenge
text parses, and the second `Send` succeeds. -/
def ReceivesStat {σ : Type} (helper : NetworkHelper σ) (st : σ) (rnd : Nat)
    (data2 : List Nat) : Prop :=
  ∃ (st2 st3 st4 : σ) (token challengeToken : List Nat),
    ReceivesHandshake helper st rnd token st2 ∧
    parseChallengeToken token = (challengeToken, none) ∧
    helper.Send st2 (fullStatRequest (generateSessionID rnd) challengeToken) = (none, st3) ∧
    helper.Receive st3 = (.ok data2, st4)

/-- A transport for worked examples: every `Send` succeeds, the first `Receive`
returns `reply1` and every later one `reply2`. The state counts the operations
performed. -/
def scriptedHelper (reply1 reply2 : List Nat) : NetworkHelper Nat where
  Send := fun n _ => (none, n + 1)
  Receive := fun n => (.ok (if n ≤ 1 then reply1 else reply2), n + 1)

/-- A transport for worked examples of failures: as `scriptedHelper`, but the
operation performed in state `failAt` fails with the error `e`. -/
def failingHelper (failAt : Nat) (e : GoError) (reply1 reply2 : List Nat) : NetworkHelper Nat where
  Send := fun n _ => (if n = failAt then some e else none, n + 1)
  Receive := fun n =>
    (if n = failAt then .error e else .ok (if n ≤ 1 then reply1 else reply2), n + 1)

/-- The value of `rand.Int31()` in the worked examples; the session identifier
it gives is `0x02040608`. -/
def exampleRnd : Nat := 0x12345678

/-- A handshake response for the examples: the tag `0x09`, the session
identifier and the null-terminated challenge text `token`. -/
def exampleHandshake (token : List Nat) : List Nat :=
  0x09 :: (be32 (generateSessionID exampleRnd) ++ (token ++ [0]))

/-- The eleven bytes a Minecraft server puts before the key/value section:
`splitnum`, a null byte, `0x80` and a null byte. -/
def examplePad11 : List Nat := str "splitnum" ++ [0, 0x80, 0]

/-- The ten bytes a Minecraft server puts before the player list: `0x01`,
`player_` and two null bytes. -/
def examplePad10 : List Nat := 1 :: (str "player_" ++ [0, 0])

/-- A full-stat response for the examples, with the body `body`. -/
def exampleStat (body : List Nat) : List Nat :=
  statResponse (generateSessionID exampleRnd) examplePad11 body

/-- The recognised key set of the key/value pass: the `case` labels of the
`switch key` statement. -/
def recognisedKeys : List (List Nat) :=
  [str "hostname", str "gametype", str "game_id", str "version", str "plugins", str "map",
   str "numplayers", str "maxplayers", str "hostport", str "hostip"]

/-- The record after the pairs `pairs` have been routed into `raw` in order. -/
def routeAll (raw : MinecraftUDPRaw) (pairs : List (List Nat × List Nat)) : MinecraftUDPRaw :=
  pairs.foldl (fun r kv => routeKV r kv.1 kv.2) raw

/-- A decimal digit, `'0'` to `'9'`. -/
def IsDigit (c : Nat) : Prop := 48 ≤ c ∧ c ≤ 57

instance : DecidablePred IsDigit := fun c => inferInstanceAs (Decidable (48 ≤ c ∧ c ≤ 57))

/-- The number read in base 10 when the digits `ds` follow a number `n`. -/
def decimalFrom (n : Nat) (ds : List Nat) : Nat := ds.foldl (fun a c => 10 * a + (c - 48)) n

/-- The number a string of decimal digits denotes. -/
def decimalValue (ds : List Nat) : Nat := decimalFrom 0 ds

/-- The text `s` is a base-10 signed integer denoting `c`: one or more decimal
digits, with or without a sign `+` or `-` in front. -/
def DecimalInt (s : List Nat) (c : Int) : Prop :=
  ∃ ds : List Nat, ds ≠ [] ∧ (∀ d ∈ ds, IsDigit d) ∧
    ((s = ds ∧ c = (decimalValue ds : Int)) ∨ (s = 43 :: ds ∧ c = (decimalValue ds : Int)) ∨
      (s = 45 :: ds ∧ c = -(decimalValue ds : Int)))

/-- The text that goes to `ParseUint`: `s` without its sign, if it has one. -/
def unsignedPart : List Nat → List Nat
  | [] => []
  | c :: t => if c = 43 then t else if c = 45 then t else c :: t

/-- The decimal digits at the head of `s`, up to its first other character. -/
def leadingDigits (s : List Nat) : List Nat := s.takeWhile (fun c => decide (IsDigit c))


/-! ## Reading from a packet -/

theorem takeWhile_nullFree (s t : List Nat) (hs : NullFree s) :
    (s ++ 0 :: t).takeWhile (fun b => b ≠ 0) = s := by
  induction s with
  | nil => simp
  | cons a s ih =>
    have ha : a ≠ 0 := hs a (by simp)
    have hs1 : NullFree s := fun b hb => hs b (by simp [hb])
    have h := ih hs1
    simp only [ne_eq, decide_not] at h
    simp [List.takeWhile_cons, ha, h]

theorem Packet.rest_Forward (p : Packet) (n : Nat) : (p.Forward n).rest = p.rest.drop n := by
  simp [Packet.rest, Packet.Forward, List.drop_drop, Nat.add_comm]

theorem Packet.buffer_Forward (p : Packet) (n : Nat) : (p.Forward n).buffer = p.buffer := rfl

theorem Packet.buffer_ReadString (p : Packet) : p.ReadString.2.buffer = p.buffer := rfl

theorem Packet.rest_ReadString (p : Packet) :
    p.ReadString.2.rest = p.rest.drop ((p.rest.takeWhile (fun b => b ≠ 0)).length + 1) := by
  simp [Packet.rest, Packet.ReadString, List.drop_drop, Nat.add_assoc]

theorem Packet.ReadString_of_rest (p : Packet) (s t : List Nat) (hs : NullFree s)
    (h : p.rest = s ++ 0 :: t) : p.ReadString.1 = s ∧ p.ReadString.2.rest = t := by
  refine ⟨?_, ?_⟩
  · show p.rest.takeWhile (fun b => b ≠ 0) = s
    rw [h, takeWhile_nullFree s t hs]
  · rw [Packet.rest_ReadString, h, takeWhile_nullFree s t hs]
    simp

theorem splitNull_eq (bs : List Nat) :
    splitNull bs = bs.takeWhile (fun b => b ≠ 0) ::
      (if (bs.takeWhile (fun b => b ≠ 0)).length < bs.length
        then splitNull (bs.drop ((bs.takeWhile (fun b => b ≠ 0)).length + 1)) else []) := by
  induction bs with
  | nil => simp [splitNull]
  | cons b bs ih =>
    by_cases hb : b = 0
    · simp [splitNull, hb]
    · rw [splitNull, if_neg hb, ih]
      simp [List.takeWhile_cons, hb]

theorem Packet.length_rest_ReadString (p : Packet) :
    p.ReadString.2.rest.length ≤ p.rest.length - 1 := by
  rw [Packet.rest_ReadString]
  simp
  omega

theorem Packet.ReadString_nil_of_rest_nil (p : Packet) (h : p.rest = []) :
    p.ReadString.1 = [] := by
  show p.rest.takeWhile (fun b => b ≠ 0) = []
  rw [h]; rfl

theorem kvLoop_isSome : ∀ (fuel : Nat) (p : Packet) (raw : MinecraftUDPRaw),
    p.rest.length < fuel → ∃ r, kvLoop fuel p raw = some r := by
  intro fuel
  induction fuel with
  | zero => intro p raw h; omega
  | succ fuel ih =>
    intro p raw h
    rw [kvLoop]
    by_cases hk : p.ReadString.1 = []
    · simp [hk]
    · simp only [hk, if_false]
      apply ih
      have h1 := Packet.length_rest_ReadString p
      have h2 := Packet.length_rest_ReadString p.ReadString.2
      have h3 : p.rest ≠ [] := fun h0 => hk (Packet.ReadString_nil_of_rest_nil p h0)
      have h4 : 0 < p.rest.length := List.length_pos.mpr h3
      omega

theorem takeWhile_splitNull (bs : List Nat) :
    (splitNull bs).takeWhile (fun s => s ≠ []) =
      if bs.takeWhile (fun b => b ≠ 0) = [] then []
      else bs.takeWhile (fun b => b ≠ 0) ::
        (splitNull (bs.drop ((bs.takeWhile (fun b => b ≠ 0)).length + 1))).takeWhile
          (fun s => s ≠ []) := by
  conv_lhs => rw [splitNull_eq bs]
  generalize bs.takeWhile (fun b => b ≠ 0) = s
  by_cases hs : s = []
  · simp [hs]
  · by_cases hl : s.length < bs.length
    · simp [hs, hl, List.takeWhile_cons]
    · have hd : bs.drop (s.length + 1) = [] := List.drop_eq_nil_of_le (by omega)
      simp [hs, hl, hd, List.takeWhile_cons, splitNull]

theorem playerLoop_eq : ∀ (fuel : Nat) (p : Packet) (raw : MinecraftUDPRaw),
    p.rest.length < fuel → ∃ p1, playerLoop fuel p raw =
      some (p1, { raw with Players := raw.Players ++
        (splitNull p.rest).takeWhile (fun s => s ≠ []) }) := by
  intro fuel
  induction fuel with
  | zero => intro p raw h; omega
  | succ fuel ih =>
    intro p raw h
    have hs : p.ReadString.1 = p.rest.takeWhile (fun b => b ≠ 0) := rfl
    rw [playerLoop, takeWhile_splitNull, ← hs]
    by_cases hk : p.ReadString.1 = []
    · exact ⟨p.ReadString.2, by simp [hk]⟩
    · simp only [hk, if_false]
      have h1 := Packet.length_rest_ReadString p
      have h3 : p.rest ≠ [] := fun h0 => hk (Packet.ReadString_nil_of_rest_nil p h0)
      have h4 : 0 < p.rest.length := List.length_pos.mpr h3
      obtain ⟨p1, hp1⟩ := ih p.ReadString.2 { raw with Players := raw.Players ++ [p.ReadString.1] }
        (by omega)
      refine ⟨p1, ?_⟩
      rw [hp1, Packet.rest_ReadString, ← hs]
      simp

/-- Cutting the player section sent for `names` gives `names` back, up to the
empty string that ends the section. -/
theorem takeWhile_splitNull_encodeNames (names : List (List Nat)) (trailing : List Nat)
    (hn : ∀ n ∈ names, n ≠ [] ∧ NullFree n) :
    (splitNull (encodeNames names ++ 0 :: trailing)).takeWhile (fun s => s ≠ []) = names := by
  induction names with
  | nil =>
    rw [takeWhile_splitNull]
    simp [encodeNames]
  | cons n ns ih =>
    have h1 := hn n (by simp)
    have h2 : ∀ m ∈ ns, m ≠ [] ∧ NullFree m := fun m hm => hn m (by simp [hm])
    have e : encodeNames (n :: ns) ++ 0 :: trailing = n ++ 0 :: (encodeNames ns ++ 0 :: trailing) := by
      simp [encodeNames]
    rw [takeWhile_splitNull, e, takeWhile_nullFree n _ h1.2, if_neg h1.1]
    have e2 : (n ++ 0 :: (encodeNames ns ++ 0 :: trailing)).drop (n.length + 1) =
        encodeNames ns ++ 0 :: trailing := by
      rw [← List.drop_drop]
      simp
    rw [e2, ih h2]

/-! ## The `switch` on the key and the two loops -/

theorem char_toNat_inj (x y : Char) (h : x.toNat = y.toNat) : x = y := by
  apply Char.ext
  apply UInt32.ext
  exact h

theorem str_inj (a b : String) : str a = str b ↔ a = b := by
  constructor
  · intro h
    have h1 : a.toList = b.toList :=
      List.map_injective_iff.mpr (fun x y hxy => char_toNat_inj x y hxy) h
    exact String.ext h1
  · intro h; rw [h]

example (k : List Nat) (h1 : k = str "hostname") (h2 : k = str "gametype") : False := by
  simp_all [str_inj]

theorem routeKV_Hostname (raw : MinecraftUDPRaw) (k v : List Nat) :
    (routeKV raw k v).Hostname = if k = str "hostname" then v else raw.Hostname := by
  simp only [routeKV, apply_ite MinecraftUDPRaw.Hostname, ite_self]

theorem routeKV_GameType (raw : MinecraftUDPRaw) (k v : List Nat) :
    (routeKV raw k v).GameType = if k = str "gametype" then v else raw.GameType := by
  simp only [routeKV, apply_ite MinecraftUDPRaw.GameType, ite_self]
  by_cases h : k = str "gametype"
  · subst h; simp [str_inj]
  · simp [h]

theorem routeKV_GameID (raw : MinecraftUDPRaw) (k v : List Nat) :
    (routeKV raw k v).GameID = if k = str "game_id" then v else raw.GameID := by
  simp only [routeKV, apply_ite MinecraftUDPRaw.GameID, ite_self]
  by_cases h : k = str "game_id"
  · subst h; simp [str_inj]
  · simp [h]

theorem routeKV_Version (raw : MinecraftUDPRaw) (k v : List Nat) :
    (routeKV raw k v).Version = if k = str "version" then v else raw.Version := by
  simp only [routeKV, apply_ite MinecraftUDPRaw.Version, ite_self]
  by_cases h : k = str "version"
  · subst h; simp [str_inj]
  · simp [h]

theorem routeKV_Plugins (raw : MinecraftUDPRaw) (k v : List Nat) :
    (routeKV raw k v).Plugins = if k = str "plugins" then v else raw.Plugins := by
  simp only [routeKV, apply_ite MinecraftUDPRaw.Plugins, ite_self]
  by_cases h : k = str "plugins"
  · subst h; simp [str_inj]
  · simp [h]

theorem routeKV_Map (raw : MinecraftUDPRaw) (k v : List Nat) :
    (routeKV raw k v).Map = if k = str "map" then v else raw.Map := by
  simp only [routeKV, apply_ite MinecraftUDPRaw.Map, ite_self]
  by_cases h : k = str "map"
  · subst h; simp [str_inj]
  · simp [h]

theorem routeKV_HostIP (raw : MinecraftUDPRaw) (k v : List Nat) :
    (routeKV raw k v).HostIP = if k = str "hostip" then v else raw.HostIP := by
  simp only [routeKV, apply_ite MinecraftUDPRaw.HostIP, ite_self]
  by_cases h : k = str "hostip"
  · subst h; simp [str_inj]
  · simp [h]

theorem routeKV_NumPlayers (raw : MinecraftUDPRaw) (k v : List Nat) :
    (routeKV raw k v).NumPlayers =
      if k = str "numplayers" then toUint16 (ParseInt v 16).1 else raw.NumPlayers := by
  simp only [routeKV, apply_ite MinecraftUDPRaw.NumPlayers, ite_self]
  by_cases h : k = str "numplayers"
  · subst h; simp [str_inj]
  · simp [h]

theorem routeKV_MaxPlayers (raw : MinecraftUDPRaw) (k v : List Nat) :
    (routeKV raw k v).MaxPlayers =
      if k = str "maxplayers" then toUint16 (ParseInt v 16).1 else raw.MaxPlayers := by
  simp only [routeKV, apply_ite MinecraftUDPRaw.MaxPlayers, ite_self]
  by_cases h : k = str "maxplayers"
  · subst h; simp [str_inj]
  · simp [h]

theorem routeKV_HostPort (raw : MinecraftUDPRaw) (k v : List Nat) :
    (routeKV raw k v).HostPort =
      if k = str "hostport" then toUint16 (ParseInt v 16).1 else raw.HostPort := by
  simp only [routeKV, apply_ite MinecraftUDPRaw.HostPort, ite_self]
  by_cases h : k = str "hostport"
  · subst h; simp [str_inj]
  · simp [h]

theorem routeKV_Players (raw : MinecraftUDPRaw) (k v : List Nat) :
    (routeKV raw k v).Players = raw.Players := by
  simp only [routeKV, apply_ite MinecraftUDPRaw.Players, ite_self]

theorem length_encodeKV (pairs : List (List Nat × List Nat)) :
    pairs.length ≤ (encodeKV pairs).length := by
  induction pairs with
  | nil => simp
  | cons kv ps ih =>
    obtain ⟨k, v⟩ := kv
    simp [encodeKV]
    omega

theorem Packet.length_rest_le (p : Packet) : p.rest.length ≤ p.buffer.length := by
  simp [Packet.rest]

theorem kvLoop_encodeKV : ∀ (pairs : List (List Nat × List Nat)) (fuel : Nat) (p : Packet)
    (raw : MinecraftUDPRaw) (tail : List Nat), WellFormedKV pairs → pairs.length < fuel →
    p.rest = encodeKV pairs ++ 0 :: tail →
    ∃ p1, kvLoop fuel p raw = some (p1, routeAll raw pairs) ∧ p1.rest = tail ∧
      p1.buffer = p.buffer := by
  intro pairs
  induction pairs with
  | nil =>
    intro fuel p raw tail _ hf hp
    cases fuel with
    | zero => simp at hf
    | succ fuel =>
      have hr := Packet.ReadString_of_rest p [] tail (fun b hb => by simp at hb) (by simpa using hp)
      refine ⟨p.ReadString.2, ?_, hr.2, rfl⟩
      rw [kvLoop]
      simp [hr.1, routeAll]
  | cons kv ps ih =>
    intro fuel p raw tail hw hf hp
    obtain ⟨k, v⟩ := kv
    have hkv := hw (k, v) (by simp)
    have hps : WellFormedKV ps := fun x hx => hw x (by simp [hx])
    cases fuel with
    | zero => simp at hf
    | succ fuel =>
      have hp1 : p.rest = k ++ 0 :: (v ++ 0 :: (encodeKV ps ++ 0 :: tail)) := by
        rw [hp]; simp [encodeKV]
      have hr1 := Packet.ReadString_of_rest p k _ hkv.2.1 hp1
      have hr2 := Packet.ReadString_of_rest p.ReadString.2 v _ hkv.2.2 hr1.2
      obtain ⟨p1, q1, q2, q3⟩ := ih fuel p.ReadString.2.ReadString.2 (routeKV raw k v) tail hps
        (by simpa using hf) hr2.2
      refine ⟨p1, ?_, q2, q3⟩
      rw [kvLoop]
      have hk : p.ReadString.1 ≠ [] := by rw [hr1.1]; exact hkv.1
      simp only [hk, if_false]
      rw [hr1.1, hr2.1, q1]
      rfl

/-- A field that `routeKV` sets from the value of the key `key` alone holds,
after a key/value section, what the last pair with that key gives. -/
theorem routeAll_field {α : Type} (f : MinecraftUDPRaw → α) (key : List Nat) (g : List Nat → α)
    (hf : ∀ raw k v, f (routeKV raw k v) = if k = key then g v else f raw) :
    ∀ (pairs : List (List Nat × List Nat)) (raw : MinecraftUDPRaw),
      f (routeAll raw pairs) = ((lastValue pairs key).map g).getD (f raw) := by
  intro pairs
  induction pairs with
  | nil => intro raw; rfl
  | cons kv ps ih =>
    intro raw
    obtain ⟨k, v⟩ := kv
    have h := ih (routeKV raw k v)
    show f (routeAll (routeKV raw k v) ps) = _
    rw [h, hf, lastValue]
    cases hl : lastValue ps key with
    | some w => simp
    | none =>
      by_cases hk : k = key
      · simp [hk]
      · simp [hk]

theorem routeAll_Players (pairs : List (List Nat × List Nat)) :
    ∀ raw : MinecraftUDPRaw, (routeAll raw pairs).Players = raw.Players := by
  induction pairs with
  | nil => intro raw; rfl
  | cons kv ps ih =>
    intro raw
    show (routeAll (routeKV raw kv.1 kv.2) ps).Players = _
    rw [ih, routeKV_Players]

theorem decodeStat_encoded (p : Packet) (pad11 rest : List Nat)
    (pairs : List (List Nat × List Nat)) (h11 : pad11.length = 11) (hw : WellFormedKV pairs)
    (hp : p.rest = pad11 ++ (encodeKV pairs ++ 0 :: rest)) :
    decodeStat p = some { routeAll MinecraftUDPRaw.zero pairs with
      Players := (splitNull (rest.drop 10)).takeWhile (fun s => s ≠ []) } := by
  have hlen := Packet.length_rest_le p
  have hl2 := length_encodeKV pairs
  have hf : (p.Forward 11).rest = encodeKV pairs ++ 0 :: rest := by
    rw [Packet.rest_Forward, hp, ← h11]
    simp
  obtain ⟨p1, q1, q2, q3⟩ := kvLoop_encodeKV pairs (p.buffer.length + 1) (p.Forward 11)
    MinecraftUDPRaw.zero rest hw (by rw [hp] at hlen; simp at hlen; omega) hf
  have hf2 : (p1.Forward 10).rest = rest.drop 10 := by
    rw [Packet.rest_Forward, q2]
  obtain ⟨p2, q4⟩ := playerLoop_eq (p.buffer.length + 1) (p1.Forward 10)
    (routeAll MinecraftUDPRaw.zero pairs) (by
      have := Packet.length_rest_le (p1.Forward 10)
      rw [Packet.buffer_Forward, q3, Packet.buffer_Forward] at this
      omega)
  unfold decodeStat
  simp only [q1, q4, hf2, routeAll_Players]
  rfl

/-! ## `strconv.ParseInt` -/

theorem digitOf_of_isDigit (c : Nat) (h : IsDigit c) : digitOf c = some (c - 48) := by
  unfold IsDigit at h
  unfold digitOf
  rw [if_pos h]
  congr 1
  omega

theorem digitOf_of_not_isDigit (c : Nat) (h : ¬ IsDigit c) :
    digitOf c = none ∨ ∃ d, digitOf c = some d ∧ 10 ≤ d := by
  unfold IsDigit at h
  unfold digitOf
  rw [if_neg h]
  by_cases h2 : 97 ≤ lower c ∧ lower c ≤ 122
  · right
    rw [if_pos h2]
    refine ⟨_, rfl, ?_⟩
    generalize lower c = l at h2
    omega
  · left
    rw [if_neg h2]

theorem le_decimalFrom (ds : List Nat) : ∀ n, n ≤ decimalFrom n ds := by
  induction ds with
  | nil => intro n; exact Nat.le_refl n
  | cons c cs ih =>
    intro n
    have h := ih (10 * n + (c - 48))
    show n ≤ decimalFrom (10 * n + (c - 48)) cs
    omega

theorem decimalFrom_cons (n : Nat) (c : Nat) (cs : List Nat) :
    decimalFrom n (c :: cs) = decimalFrom (10 * n + (c - 48)) cs := rfl

/-- On digits whose value fits, the loop returns the value. -/
theorem parseUintLoop_digits (maxVal : Nat) (hmax : maxVal < 2 ^ 60) :
    ∀ (ds : List Nat) (n : Nat), (∀ d ∈ ds, IsDigit d) → decimalFrom n ds ≤ maxVal →
      parseUintLoop maxVal ds n = (decimalFrom n ds, none) := by
  intro ds
  induction ds with
  | nil => intro n _ _; rfl
  | cons c cs ih =>
    intro n hd hv
    have hc : IsDigit c := hd c (by simp)
    have hcs : ∀ d ∈ cs, IsDigit d := fun d hd1 => hd d (by simp [hd1])
    rw [decimalFrom_cons] at hv ⊢
    have hle := le_decimalFrom cs (10 * n + (c - 48))
    have hc1 := hc
    unfold IsDigit at hc1
    rw [parseUintLoop, digitOf_of_isDigit c hc]
    have e1 : ¬ (c - 48 ≥ 10) := by omega
    have e2 : ¬ (n ≥ cutoff10) := by unfold cutoff10; omega
    have e3 : (10 * n + (c - 48)) % 2 ^ 64 = 10 * n + (c - 48) := by omega
    have e4 : n * 10 % 2 ^ 64 = 10 * n := by omega
    simp only [e1, e2, e4, e3, if_false]
    rw [if_neg (by omega)]
    exact ih _ hcs hv

/-- A run of the loop that reports no error has read digits only, and their
value fits. -/
theorem parseUintLoop_none (maxVal : Nat) (hmax : maxVal < 2 ^ 60) :
    ∀ (s : List Nat) (n : Nat), n ≤ maxVal → (parseUintLoop maxVal s n).2 = none →
      (∀ d ∈ s, IsDigit d) ∧ decimalFrom n s ≤ maxVal := by
  intro s
  induction s with
  | nil => intro n hn _; exact ⟨by simp, hn⟩
  | cons c cs ih =>
    intro n hn h
    rw [parseUintLoop] at h
    by_cases hc : IsDigit c
    · have hc1 := hc
      unfold IsDigit at hc1
      rw [digitOf_of_isDigit c hc] at h
      have e1 : ¬ (c - 48 ≥ 10) := by omega
      have e2 : ¬ (n ≥ cutoff10) := by unfold cutoff10; omega
      have e3 : (10 * n + (c - 48)) % 2 ^ 64 = 10 * n + (c - 48) := by omega
      have e4 : n * 10 % 2 ^ 64 = 10 * n := by omega
      simp only [e1, e2, e4, e3, if_false] at h
      by_cases hr : 10 * n + (c - 48) < 10 * n ∨ 10 * n + (c - 48) > maxVal
      · rw [if_pos hr] at h
        simp at h
      · rw [if_neg hr] at h
        obtain ⟨h1, h2⟩ := ih _ (by omega) h
        refine ⟨?_, h2⟩
        intro d hd
        rcases List.mem_cons.mp hd with rfl | hd1
        · exact hc
        · exact h1 d hd1
    · rcases digitOf_of_not_isDigit c hc with h0 | ⟨d, h0, hd⟩
      · rw [h0] at h; simp at h
      · rw [h0] at h
        have : d ≥ 10 := hd
        simp [this] at h

/-- A range error of the loop comes with the value `maxVal`. -/
theorem parseUintLoop_range (maxVal : Nat) :
    ∀ (s : List Nat) (n : Nat), (parseUintLoop maxVal s n).2 = some .ErrRange →
      (parseUintLoop maxVal s n).1 = maxVal := by
  intro s
  induction s with
  | nil => intro n h; simp [parseUintLoop] at h
  | cons c cs ih =>
    intro n h
    rw [parseUintLoop] at h ⊢
    cases hd : digitOf c with
    | none => rw [hd] at h; simp at h
    | some d =>
      rw [hd] at h
      simp only at h ⊢
      by_cases e1 : d ≥ 10
      · simp [e1] at h
      · simp only [e1, if_false] at h ⊢
        by_cases e2 : n ≥ cutoff10
        · simp [e2]
        · simp only [e2, if_false] at h ⊢
          by_cases e3 : (n * 10 % 2 ^ 64 + d) % 2 ^ 64 < n * 10 % 2 ^ 64 ∨
              (n * 10 % 2 ^ 64 + d) % 2 ^ 64 > maxVal
          · rw [if_pos e3]
          · rw [if_neg e3] at h ⊢
            exact ih _ h

/-- On digits whose value does not fit, the loop reports a range error. -/
theorem parseUintLoop_overflow (maxVal : Nat) (hmax : maxVal < 2 ^ 60) :
    ∀ (ds : List Nat) (n : Nat), (∀ d ∈ ds, IsDigit d) → n ≤ maxVal → maxVal < decimalFrom n ds →
      parseUintLoop maxVal ds n = (maxVal, some .ErrRange) := by
  intro ds
  induction ds with
  | nil => intro n _ h1 h2; simp [decimalFrom] at h2; omega
  | cons c cs ih =>
    intro n hd hn hv
    have hc : IsDigit c := hd c (by simp)
    have hcs : ∀ d ∈ cs, IsDigit d := fun d hd1 => hd d (by simp [hd1])
    rw [decimalFrom_cons] at hv
    have hc1 := hc
    unfold IsDigit at hc1
    rw [parseUintLoop, digitOf_of_isDigit c hc]
    have e1 : ¬ (c - 48 ≥ 10) := by omega
    have e2 : ¬ (n ≥ cutoff10) := by unfold cutoff10; omega
    have e3 : (10 * n + (c - 48)) % 2 ^ 64 = 10 * n + (c - 48) := by omega
    have e4 : n * 10 % 2 ^ 64 = 10 * n := by omega
    simp only [e1, e2, e4, e3, if_false]
    by_cases hr : 10 * n + (c - 48) < 10 * n ∨ 10 * n + (c - 48) > maxVal
    · rw [if_pos hr]
    · rw [if_neg hr]
      exact ih _ hcs (by omega) hv

theorem ParseUint_digits (ds : List Nat) (b : Nat) (hb : b ≤ 32) (hne : ds ≠ [])
    (hd : ∀ d ∈ ds, IsDigit d) (hv : decimalValue ds ≤ 2 ^ b - 1) :
    ParseUint ds b = (decimalValue ds, none) := by
  have h1 : 2 ^ b ≤ 2 ^ 32 := Nat.pow_le_pow_right (by norm_num) hb
  rw [ParseUint, if_neg hne]
  exact parseUintLoop_digits _ (by omega) ds 0 hd hv

theorem ParseUint_overflow (ds : List Nat) (b : Nat) (hb : b ≤ 32) (hne : ds ≠ [])
    (hd : ∀ d ∈ ds, IsDigit d) (hv : 2 ^ b - 1 < decimalValue ds) :
    ParseUint ds b = (2 ^ b - 1, some .ErrRange) := by
  have h1 : 2 ^ b ≤ 2 ^ 32 := Nat.pow_le_pow_right (by norm_num) hb
  rw [ParseUint, if_neg hne]
  exact parseUintLoop_overflow _ (by omega) ds 0 hd (Nat.zero_le _) hv

theorem ParseUint_none (s : List Nat) (b : Nat) (hb : b ≤ 32) (h : (ParseUint s b).2 = none) :
    s ≠ [] ∧ (∀ d ∈ s, IsDigit d) ∧ decimalValue s ≤ 2 ^ b - 1 := by
  have h1 : 2 ^ b ≤ 2 ^ 32 := Nat.pow_le_pow_right (by norm_num) hb
  unfold ParseUint at h
  by_cases hs : s = []
  · rw [if_pos hs] at h; simp at h
  · rw [if_neg hs] at h
    exact ⟨hs, parseUintLoop_none _ (by omega) s 0 (Nat.zero_le _) h⟩

theorem ParseUint_range (s : List Nat) (b : Nat) (h : (ParseUint s b).2 = some .ErrRange) :
    (ParseUint s b).1 = 2 ^ b - 1 := by
  unfold ParseUint at h ⊢
  by_cases hs : s = []
  · rw [if_pos hs] at h; simp at h
  · rw [if_neg hs] at h ⊢
    exact parseUintLoop_range _ s 0 h

theorem toInt64_of_bounds (v : Int) (h1 : -2 ^ 63 ≤ v) (h2 : v < 2 ^ 63) : toInt64 v = v := by
  unfold toInt64
  omega

theorem pow_facts (b : Nat) (h1 : 2 ≤ b) (h2 : b ≤ 32) :
    2 ^ b = 2 * 2 ^ (b - 1) ∧ 2 ≤ 2 ^ (b - 1) ∧ 2 ^ (b - 1) ≤ 2 ^ 31 := by
  refine ⟨?_, ?_, Nat.pow_le_pow_right (by norm_num) (by omega)⟩
  swap
  · calc 2 = 2 ^ 1 := by norm_num
      _ ≤ 2 ^ (b - 1) := Nat.pow_le_pow_right (by norm_num) (by omega)
  have : b = (b - 1) + 1 := by omega
  conv_lhs => rw [this, Nat.pow_succ]
  omega

/-- The four outcomes of `parseIntBody` on a non-empty string of digits. -/
theorem parseIntBody_digits (s0 ds : List Nat) (neg : Bool) (b : Nat) (h1 : 2 ≤ b) (h2 : b ≤ 32)
    (hne : ds ≠ []) (hd : ∀ d ∈ ds, IsDigit d) :
    parseIntBody s0 neg ds b =
      if neg = false then
        (if decimalValue ds < 2 ^ (b - 1) then ((decimalValue ds : Int), none)
         else (((2 ^ (b - 1) : Nat) : Int) - 1, some ⟨"ParseInt", s0, .ErrRange⟩))
      else
        (if decimalValue ds ≤ 2 ^ (b - 1) then (-(decimalValue ds : Int), none)
         else (-((2 ^ (b - 1) : Nat) : Int), some ⟨"ParseInt", s0, .ErrRange⟩)) := by
  obtain ⟨p1, p2, p3⟩ := pow_facts b h1 h2
  have hM : ∀ m : Nat, m ≤ 2 ^ 32 → toInt64 (m : Int) = m ∧ toInt64 (-(m : Int)) = -(m : Int) ∧
      toInt64 ((m : Int) - 1) = (m : Int) - 1 := by
    intro m hm
    refine ⟨toInt64_of_bounds _ (by omega) (by omega), toInt64_of_bounds _ (by omega) (by omega),
      toInt64_of_bounds _ (by omega) (by omega)⟩
  by_cases hfit : decimalValue ds ≤ 2 ^ b - 1
  · have hp := ParseUint_digits ds b h2 hne hd hfit
    unfold parseIntBody
    rw [hp]
    generalize 2 ^ (b - 1) = M at *
    generalize decimalValue ds = v at *
    have hv := hM v (by omega)
    have hm := hM M (by omega)
    cases neg
    · by_cases hlt : v < M
      · simp [hlt, hv.1]
      · have hge : M ≤ v := by omega
        have hc : ((M - 1 : Nat) : Int) = (M : Int) - 1 := by omega
        simp [hlt, hm.2.2, hge, hc]
    · by_cases hle : v ≤ M
      · simp [hle, hv.1, hv.2.1]
      · simp [hle, hm.1, hm.2.1]
  · have hp := ParseUint_overflow ds b h2 hne hd (by omega)
    unfold parseIntBody
    rw [hp]
    generalize 2 ^ (b - 1) = M at *
    generalize decimalValue ds = v at *
    have hm := hM M (by omega)
    rw [p1]
    cases neg
    · have hlt : ¬ v < M := by omega
      have hge : M ≤ 2 * M - 1 := by omega
      have hc : ((M - 1 : Nat) : Int) = (M : Int) - 1 := by omega
      simp [hlt, hm.2.2, hge, hc]
    · have hle : ¬ v ≤ M := by omega
      have hgt : M < 2 * M - 1 := by omega
      simp [hle, hm.1, hm.2.1, hgt]

/-- If `parseIntBody` reports no error, the text after the sign is a non-empty
string of digits whose value is in range. -/
theorem parseIntBody_none (s0 s : List Nat) (neg : Bool) (b : Nat) (h1 : 2 ≤ b) (h2 : b ≤ 32)
    (h : (parseIntBody s0 neg s b).2 = none) :
    s ≠ [] ∧ (∀ d ∈ s, IsDigit d) ∧
      (if neg = false then decimalValue s < 2 ^ (b - 1) else decimalValue s ≤ 2 ^ (b - 1)) := by
  obtain ⟨p1, p2, p3⟩ := pow_facts b h1 h2
  have hnone : (ParseUint s b).2 = none := by
    cases he : (ParseUint s b).2 with
    | none => rfl
    | some e =>
      exfalso
      cases e with
      | ErrSyntax =>
        unfold parseIntBody at h
        rcases hp : ParseUint s b with ⟨un, err⟩
        rw [hp] at h he
        simp only at he
        subst he
        simp at h
      | ErrRange =>
        have hr := ParseUint_range s b he
        unfold parseIntBody at h
        rcases hp : ParseUint s b with ⟨un, err⟩
        rw [hp] at h he hr
        simp only at he hr
        subst he
        subst hr
        rw [p1] at h
        generalize 2 ^ (b - 1) = M at *
        cases neg
        · have hge : M ≤ 2 * M - 1 := by omega
          simp [hge] at h
        · have hgt : M < 2 * M - 1 := by omega
          simp [hgt] at h
  obtain ⟨q1, q2, q3⟩ := ParseUint_none s b h2 hnone
  refine ⟨q1, q2, ?_⟩
  have hb := parseIntBody_digits s0 s neg b h1 h2 q1 q2
  rw [hb] at h
  cases neg
  · by_cases hlt : decimalValue s < 2 ^ (b - 1)
    · simpa using hlt
    · simp [hlt] at h
  · by_cases hle : decimalValue s ≤ 2 ^ (b - 1)
    · simpa using hle
    · simp [hle] at h

/-- `ParseInt` on a signed decimal numeral whose value is in range. -/
theorem ParseInt_of_decimalInt (s : List Nat) (c : Int) (b : Nat) (h1 : 2 ≤ b) (h2 : b ≤ 32)
    (hs : DecimalInt s c) (hlo : -((2 ^ (b - 1) : Nat) : Int) ≤ c)
    (hhi : c < ((2 ^ (b - 1) : Nat) : Int)) : ParseInt s b = (c, none) := by
  obtain ⟨ds, hne, hd, hcase⟩ := hs
  rcases hcase with ⟨rfl, rfl⟩ | ⟨rfl, rfl⟩ | ⟨rfl, rfl⟩
  · cases s with
    | nil => exact absurd rfl hne
    | cons c0 t =>
      have hc0 : IsDigit c0 := hd c0 (by simp)
      unfold IsDigit at hc0
      have e1 : c0 ≠ 43 := by omega
      have e2 : c0 ≠ 45 := by omega
      rw [ParseInt]
      simp only [e1, e2, if_false]
      rw [parseIntBody_digits _ _ _ b h1 h2 hne hd]
      have : decimalValue (c0 :: t) < 2 ^ (b - 1) := by omega
      simp [this]
  · rw [ParseInt]
    simp only [if_true]
    rw [parseIntBody_digits _ _ _ b h1 h2 hne hd]
    have : decimalValue ds < 2 ^ (b - 1) := by omega
    simp [this]
  · rw [ParseInt]
    have e1 : (45 : Nat) ≠ 43 := by decide
    simp only [e1, if_true, if_false]
    rw [parseIntBody_digits _ _ _ b h1 h2 hne hd]
    have : decimalValue ds ≤ 2 ^ (b - 1) := by omega
    simp [this]

/-- If `ParseInt` reports no error, the text is a signed decimal numeral whose
value is in range. -/
theorem ParseInt_none (s : List Nat) (b : Nat) (h1 : 2 ≤ b) (h2 : b ≤ 32)
    (h : (ParseInt s b).2 = none) :
    ∃ c : Int, DecimalInt s c ∧ -((2 ^ (b - 1) : Nat) : Int) ≤ c ∧ c < ((2 ^ (b - 1) : Nat) : Int) := by
  obtain ⟨p1, p2, p3⟩ := pow_facts b h1 h2
  cases s with
  | nil => simp [ParseInt] at h
  | cons c0 t =>
    rw [ParseInt] at h
    by_cases e1 : c0 = 43
    · subst e1
      simp only [if_true] at h
      obtain ⟨q1, q2, q3⟩ := parseIntBody_none _ _ _ b h1 h2 h
      simp only [if_true] at q3
      exact ⟨(decimalValue t : Int), ⟨t, q1, q2, Or.inr (Or.inl ⟨rfl, rfl⟩)⟩, by omega, by omega⟩
    · by_cases e2 : c0 = 45
      · subst e2
        simp only [e1, if_true, if_false] at h
        obtain ⟨q1, q2, q3⟩ := parseIntBody_none _ _ _ b h1 h2 h
        simp only [Bool.true_eq_false, if_false] at q3
        exact ⟨-(decimalValue t : Int), ⟨t, q1, q2, Or.inr (Or.inr ⟨rfl, rfl⟩)⟩, by omega, by omega⟩
      · simp only [e1, e2, if_false] at h
        obtain ⟨q1, q2, q3⟩ := parseIntBody_none _ _ _ b h1 h2 h
        simp only [if_true] at q3
        exact ⟨(decimalValue (c0 :: t) : Int), ⟨c0 :: t, q1, q2, Or.inl ⟨rfl, rfl⟩⟩,
          by omega, by omega⟩

theorem parseChallengeToken_of_ParseInt (s : List Nat) (c : Int) (h : ParseInt s 32 = (c, none)) :
    parseChallengeToken s = (be32 c, none) := by
  unfold parseChallengeToken
  rw [h]
  simp only [be64, be32, List.length_cons, List.length_nil]
  have e : (c % 2 ^ 64).toNat % 2 ^ 32 = (c % 2 ^ 32).toNat := by omega
  simp only [List.drop, Prod.mk.injEq, and_true, List.cons.injEq]
  refine ⟨?_, ?_, ?_, ?_⟩ <;> omega

theorem parseChallengeToken_error_iff (s : List Nat) :
    (parseChallengeToken s).2 ≠ none ↔ (ParseInt s 32).2 ≠ none := by
  unfold parseChallengeToken
  rcases hp : ParseInt s 32 with ⟨v, err⟩
  cases err <;> simp

/-- The big-endian two's-complement reading of the four bytes of `be32 c`. -/
theorem be32_spec (c : Int) (hlo : -2 ^ 31 ≤ c) (hhi : c < 2 ^ 31) :
    ∃ b0 b1 b2 b3 : Nat, be32 c = [b0, b1, b2, b3] ∧ b0 < 256 ∧ b1 < 256 ∧ b2 < 256 ∧ b3 < 256 ∧
      ((b0 * 2 ^ 24 + b1 * 2 ^ 16 + b2 * 2 ^ 8 + b3 : Nat) : Int) = c % 2 ^ 32 ∧
      toInt32 (b0 * 2 ^ 24 + b1 * 2 ^ 16 + b2 * 2 ^ 8 + b3) = c := by
  refine ⟨_, _, _, _, rfl, ?_, ?_, ?_, ?_, ?_, ?_⟩
  · omega
  · omega
  · omega
  · omega
  · omega
  · unfold toInt32
    split_ifs <;> omega

/-- The loop stops with a syntax error at the first character that is not a
digit, if the digits before it have not overflowed. -/
theorem parseUintLoop_badChar (maxVal : Nat) (hmax : maxVal < 2 ^ 60) (c : Nat) (rest : List Nat)
    (hc : ¬ IsDigit c) :
    ∀ (ds : List Nat) (n : Nat), (∀ d ∈ ds, IsDigit d) → decimalFrom n ds ≤ maxVal →
      parseUintLoop maxVal (ds ++ c :: rest) n = (0, some .ErrSyntax) := by
  intro ds
  induction ds with
  | nil =>
    intro n _ _
    rw [List.nil_append, parseUintLoop]
    rcases digitOf_of_not_isDigit c hc with h0 | ⟨d, h0, hd⟩
    · rw [h0]
    · rw [h0]
      have : d ≥ 10 := hd
      simp [this]
  | cons a cs ih =>
    intro n hd hv
    have ha : IsDigit a := hd a (by simp)
    have hcs : ∀ d ∈ cs, IsDigit d := fun d hd1 => hd d (by simp [hd1])
    rw [decimalFrom_cons] at hv
    have hle := le_decimalFrom cs (10 * n + (a - 48))
    have ha1 := ha
    unfold IsDigit at ha1
    rw [List.cons_append, parseUintLoop, digitOf_of_isDigit a ha]
    have e1 : ¬ (a - 48 ≥ 10) := by omega
    have e2 : ¬ (n ≥ cutoff10) := by unfold cutoff10; omega
    have e3 : (10 * n + (a - 48)) % 2 ^ 64 = 10 * n + (a - 48) := by omega
    have e4 : n * 10 % 2 ^ 64 = 10 * n := by omega
    simp only [e1, e2, e4, e3, if_false]
    rw [if_neg (by omega)]
    exact ih _ hcs hv

/-- A text is all digits, or splits at its first character that is not one. -/
theorem leadingDigits_split (s : List Nat) :
    (∀ d ∈ s, IsDigit d) ∨ ∃ c rest, s = leadingDigits s ++ c :: rest ∧ ¬ IsDigit c := by
  induction s with
  | nil => left; simp
  | cons a t ih =>
    by_cases ha : IsDigit a
    · rcases ih with h | ⟨c, rest, h1, h2⟩
      · left
        intro d hd
        rcases List.mem_cons.mp hd with rfl | hd1
        · exact ha
        · exact h d hd1
      · right
        refine ⟨c, rest, ?_, h2⟩
        unfold leadingDigits at h1 ⊢
        rw [List.takeWhile_cons]
        simp only [ha, decide_True, if_true, List.cons_append]
        rw [← h1]
    · right
      refine ⟨a, t, ?_, ha⟩
      unfold leadingDigits
      rw [List.takeWhile_cons]
      simp [ha]

theorem leadingDigits_isDigit (s : List Nat) : ∀ d ∈ leadingDigits s, IsDigit d := by
  intro d hd
  have := List.mem_takeWhile_imp hd
  simpa using this

/-- `ParseUint` reports a syntax error on a text that is empty or has a
character that is not a digit, if the digits before it fit. -/
theorem ParseUint_badText (s : List Nat) (b : Nat) (hb : b ≤ 32)
    (hs : s = [] ∨ ¬ (∀ d ∈ s, IsDigit d)) (hv : decimalValue (leadingDigits s) ≤ 2 ^ b - 1) :
    ParseUint s b = (0, some .ErrSyntax) := by
  have h1 : 2 ^ b ≤ 2 ^ 32 := Nat.pow_le_pow_right (by norm_num) hb
  unfold ParseUint
  by_cases he : s = []
  · rw [if_pos he]
  · rw [if_neg he]
    rcases hs with hs | hs
    · exact absurd hs he
    · rcases leadingDigits_split s with h | ⟨c, rest, h2, h3⟩
      · exact absurd h hs
      · have h := parseUintLoop_badChar (2 ^ b - 1) (by omega) c rest h3 (leadingDigits s) 0
          (leadingDigits_isDigit s) hv
        rw [← h2] at h
        exact h

/-- `ParseInt` returns 0 and a syntax error on a text that is not a signed
decimal numeral, if the digits before the offending character fit
`bitSize` unsigned bits. -/
theorem ParseInt_badText (s : List Nat) (b : Nat) (hb : b ≤ 32)
    (hs : ¬ ∃ c, DecimalInt s c)
    (hv : decimalValue (leadingDigits (unsignedPart s)) ≤ 2 ^ b - 1) :
    ParseInt s b = (0, some ⟨"ParseInt", s, .ErrSyntax⟩) := by
  cases s with
  | nil => rfl
  | cons c0 t =>
    have key : ∀ (neg : Bool) (s1 : List Nat), unsignedPart (c0 :: t) = s1 →
        (s1 ≠ [] → (∀ d ∈ s1, IsDigit d) → ∃ c, DecimalInt (c0 :: t) c) →
        parseIntBody (c0 :: t) neg s1 b = (0, some ⟨"ParseInt", c0 :: t, .ErrSyntax⟩) := by
      intro neg s1 h1 h2
      rw [h1] at hv
      have h3 : s1 = [] ∨ ¬ (∀ d ∈ s1, IsDigit d) := by
        by_cases he : s1 = []
        · exact Or.inl he
        · exact Or.inr (fun h => hs (h2 he h))
      unfold parseIntBody
      rw [ParseUint_badText s1 b hb h3 hv]
      simp
    rw [ParseInt]
    by_cases e1 : c0 = 43
    · rw [if_pos e1]
      apply key
      · simp [unsignedPart, e1]
      · intro hne hd
        exact ⟨_, t, hne, hd, Or.inr (Or.inl ⟨by rw [e1], rfl⟩)⟩
    · rw [if_neg e1]
      by_cases e2 : c0 = 45
      · rw [if_pos e2]
        apply key
        · simp [unsignedPart, e2]
        · intro hne hd
          exact ⟨_, t, hne, hd, Or.inr (Or.inr ⟨by rw [e2], rfl⟩)⟩
      · rw [if_neg e2]
        apply key
        · simp [unsignedPart, e1, e2]
        · intro hne hd
          exact ⟨_, c0 :: t, hne, hd, Or.inl ⟨rfl, rfl⟩⟩

/-! ## The run of `Execute` -/

theorem generateSessionID_bounds (rnd : Nat) :
    0 ≤ generateSessionID rnd ∧ generateSessionID rnd ≤ 0x0F0F0F0F := by
  unfold generateSessionID
  have h : rnd &&& 0x0F0F0F0F ≤ 0x0F0F0F0F := Nat.and_le_right
  omega

/-- Reading the tag byte and the 32-bit integer at the head of a datagram. -/
theorem readHeader (tag : Nat) (v : Int) (body : List Nat) (hlo : -2 ^ 31 ≤ v) (hhi : v < 2 ^ 31) :
    (Packet.ofBytes (tag :: (be32 v ++ body))).ReadUint8.1 = tag ∧
    (Packet.ofBytes (tag :: (be32 v ++ body))).ReadUint8.2.ReadInt32.1 = v ∧
    (Packet.ofBytes (tag :: (be32 v ++ body))).ReadUint8.2.ReadInt32.2 =
      ⟨tag :: (be32 v ++ body), 5⟩ ∧
    (⟨tag :: (be32 v ++ body), 5⟩ : Packet).rest = body := by
  obtain ⟨b0, b1, b2, b3, hb, -, -, -, -, -, hv⟩ := be32_spec v hlo hhi
  rw [hb]
  refine ⟨rfl, ?_, rfl, rfl⟩
  exact hv

theorem kvLoop_buffer : ∀ (fuel : Nat) (p : Packet) (raw : MinecraftUDPRaw)
    (r : Packet × MinecraftUDPRaw), kvLoop fuel p raw = some r → r.1.buffer = p.buffer := by
  intro fuel
  induction fuel with
  | zero => intro p raw r h; simp [kvLoop] at h
  | succ fuel ih =>
    intro p raw r h
    rw [kvLoop] at h
    by_cases hk : p.ReadString.1 = []
    · simp [hk] at h
      rw [← h]
      rfl
    · simp only [hk, if_false] at h
      exact (ih _ _ _ h).trans rfl

/-- The decoding of a full-stat response always ends with a record. -/
theorem decodeStat_isSome (p : Packet) : ∃ raw, decodeStat p = some raw := by
  have h0 := Packet.length_rest_le (p.Forward 11)
  obtain ⟨r, hr⟩ := kvLoop_isSome (p.buffer.length + 1) (p.Forward 11) MinecraftUDPRaw.zero
    (by rw [Packet.buffer_Forward] at h0; omega)
  have hb := kvLoop_buffer _ _ _ _ hr
  have h1 := Packet.length_rest_le (r.1.Forward 10)
  obtain ⟨p2, hp2⟩ := playerLoop_eq (p.buffer.length + 1) (r.1.Forward 10) r.2
    (by rw [Packet.buffer_Forward, hb, Packet.buffer_Forward] at h1; omega)
  obtain ⟨r1, r2⟩ := r
  unfold decodeStat
  simp only [hr, hp2]
  exact ⟨_, rfl⟩

/-- The full-stat exchange always ends: it sends the second datagram and
performs at most one more transport operation, a `Receive`. -/
theorem fullStatExchange_ops {σ : Type} (helper : NetworkHelper σ) (st2 : σ) (sid : Int)
    (ct : List Nat) : ∃ run ops, fullStatExchange helper st2 sid ct = some run ∧
      run.ops = .send (handshakeRequest sid) :: .receive :: .send (fullStatRequest sid ct) :: ops ∧
      (ops = [] ∨ ops = [.receive]) := by
  rcases h1 : helper.Send st2 (fullStatRequest sid ct) with ⟨e1, st3⟩
  cases e1 with
  | some e =>
    simp only [fullStatExchange, h1]
    exact ⟨_, _, rfl, rfl, Or.inl rfl⟩
  | none =>
    rcases h2 : helper.Receive st3 with ⟨r2, st4⟩
    cases r2 with
    | error e =>
      simp only [fullStatExchange, h1, h2]
      exact ⟨_, _, rfl, rfl, Or.inr rfl⟩
    | ok data2 =>
      simp only [fullStatExchange, h1, h2]
      rcases h3 : (Packet.ofBytes data2).ReadUint8 with ⟨tag2, rp1⟩
      by_cases ht : tag2 ≠ 0
      · rw [if_pos ht]
        exact ⟨_, _, rfl, rfl, Or.inr rfl⟩
      · rw [if_neg ht]
        by_cases hs : rp1.ReadInt32.1 ≠ sid
        · rw [if_pos hs]
          exact ⟨_, _, rfl, rfl, Or.inr rfl⟩
        · rw [if_neg hs]
          obtain ⟨raw, hraw⟩ := decodeStat_isSome rp1.ReadInt32.2
          rw [hraw]
          exact ⟨_, _, rfl, rfl, Or.inr rfl⟩

/-- The full-stat exchange on a response that echoes the session identifier. -/
theorem fullStatExchange_statResponse {σ : Type} (helper : NetworkHelper σ) (st2 st3 st4 : σ)
    (sid : Int) (ct pad11 body : List Nat) (hlo : -2 ^ 31 ≤ sid) (hhi : sid < 2 ^ 31)
    (h1 : helper.Send st2 (fullStatRequest sid ct) = (none, st3))
    (h2 : helper.Receive st3 = (.ok (statResponse sid pad11 body), st4))
    (raw : MinecraftUDPRaw)
    (hd : decodeStat ⟨statResponse sid pad11 body, 5⟩ = some raw) :
    fullStatExchange helper st2 sid ct = some ⟨⟨some raw⟩, none,
      [.send (handshakeRequest sid), .receive, .send (fullStatRequest sid ct), .receive]⟩ := by
  obtain ⟨q1, q2, q3, -⟩ := readHeader 0 sid (pad11 ++ body) hlo hhi
  simp only [fullStatExchange, h1, h2]
  unfold statResponse at hd ⊢
  rcases h3 : (Packet.ofBytes (0 :: (be32 sid ++ (pad11 ++ body)))).ReadUint8 with ⟨tag2, rp1⟩
  rw [h3] at q1 q2 q3
  simp only at q1 q2 q3
  subst q1
  simp only [ne_eq, not_true_eq_false, if_false]
  rcases h4 : rp1.ReadInt32 with ⟨sid2, rp2⟩
  rw [h4] at q2 q3
  simp only at q2 q3
  subst q2
  subst q3
  simp only [ne_eq, not_true_eq_false, if_false, hd]

/-- The run of `Execute` after a handshake that went through. -/
theorem Execute_of_handshake {σ : Type} (helper : NetworkHelper σ) (st st2 : σ) (rnd : Nat)
    (token : List Nat) (hh : ReceivesHandshake helper st rnd token st2) :
    Execute helper st rnd =
      match parseChallengeToken token with
      | (_, some err) => some ⟨Response.zero, some err,
          [.send (handshakeRequest (generateSessionID rnd)), .receive]⟩
      | (challengeToken, none) =>
        fullStatExchange helper st2 (generateSessionID rnd) challengeToken := by
  obtain ⟨st1, data, h1, h2, h3, h4, h5⟩ := hh
  simp only [Execute, h1, h2]
  rcases hu : (Packet.ofBytes data).ReadUint8 with ⟨tag, hp1⟩
  rw [hu] at h3 h4 h5
  simp only at h3 h4 h5
  subst h3
  simp only [ne_eq, not_true_eq_false, if_false]
  rcases hv : hp1.ReadInt32 with ⟨sid, hp2⟩
  rw [hv] at h4 h5
  simp only at h4 h5
  simp only [h4, h5, ne_eq, not_true_eq_false, if_false]

theorem Execute_handshake_error {σ : Type} (helper : NetworkHelper σ) (st st2 : σ) (rnd : Nat)
    (token x : List Nat) (e : GoError) (hh : ReceivesHandshake helper st rnd token st2)
    (hp : parseChallengeToken token = (x, some e)) :
    Execute helper st rnd = some ⟨Response.zero, some e,
      [.send (handshakeRequest (generateSessionID rnd)), .receive]⟩ := by
  rw [Execute_of_handshake helper st st2 rnd token hh, hp]

theorem Execute_handshake_ok {σ : Type} (helper : NetworkHelper σ) (st st2 : σ) (rnd : Nat)
    (token ct : List Nat) (hh : ReceivesHandshake helper st rnd token st2)
    (hp : parseChallengeToken token = (ct, none)) :
    Execute helper st rnd = fullStatExchange helper st2 (generateSessionID rnd) ct := by
  rw [Execute_of_handshake helper st st2 rnd token hh, hp]

/-- A run that receives the full-stat response `statResponse sid pad11 body`
returns, without error, the record decoded from it. -/
theorem Execute_statResponse {σ : Type} (helper : NetworkHelper σ) (st : σ) (rnd : Nat)
    (pad11 body : List Nat)
    (hr : ReceivesStat helper st rnd (statResponse (generateSessionID rnd) pad11 body))
    (raw : MinecraftUDPRaw)
    (hd : decodeStat ⟨statResponse (generateSessionID rnd) pad11 body, 5⟩ = some raw) :
    ∃ ops, Execute helper st rnd = some ⟨⟨some raw⟩, none, ops⟩ := by
  obtain ⟨st2, st3, st4, token, ct, hh, hp, h1, h2⟩ := hr
  have hb := generateSessionID_bounds rnd
  rw [Execute_handshake_ok helper st st2 rnd token ct hh hp,
    fullStatExchange_statResponse helper st2 st3 st4 _ ct pad11 body (by omega) (by omega) h1 h2
      raw hd]
  exact ⟨_, rfl⟩

theorem exampleReceivesStat (token ct body : List Nat)
    (h1 : (Packet.ofBytes (exampleHandshake token)).ReadUint8.2.ReadInt32.2.ReadString.1 = token)
    (h2 : parseChallengeToken token = (ct, none)) :
    ReceivesStat (scriptedHelper (exampleHandshake token) (exampleStat body)) 0 exampleRnd
      (exampleStat body) :=
  ⟨2, 3, 4, token, ct, ⟨1, exampleHandshake token, rfl, rfl, rfl, rfl, h1⟩, h2, rfl, rfl⟩

/-- A run that receives a full-stat response with a well-formed key/value
section returns, without error, the record the pairs route to, with the players
read ten bytes after the section. -/
theorem Execute_encoded {σ : Type} (helper : NetworkHelper σ) (st : σ) (rnd : Nat)
    (pad11 rest : List Nat) (pairs : List (List Nat × List Nat)) (h11 : pad11.length = 11)
    (hw : WellFormedKV pairs)
    (hr : ReceivesStat helper st rnd
      (statResponse (generateSessionID rnd) pad11 (encodeKV pairs ++ 0 :: rest))) :
    ∃ ops, Execute helper st rnd = some ⟨⟨some { routeAll MinecraftUDPRaw.zero pairs with
      Players := (splitNull (rest.drop 10)).takeWhile (fun s => s ≠ []) }⟩, none, ops⟩ := by
  have hb := generateSessionID_bounds rnd
  apply Execute_statResponse helper st rnd pad11 _ hr
  apply decodeStat_encoded _ pad11 rest pairs h11 hw
  exact (readHeader 0 (generateSessionID rnd) _ (by omega) (by omega)).2.2.2


theorem not_decimalInt_notanumber : ¬ ∃ c, DecimalInt (str "notanumber") c := by
  rintro ⟨c, ds, -, hd, hcase⟩
  have hs : str "notanumber" = 110 :: str "otanumber" := by decide
  rw [hs] at hcase
  rcases hcase with ⟨h, -⟩ | ⟨h, -⟩ | ⟨h, -⟩
  · have := hd 110 (by rw [← h]; simp)
    exact absurd this (by decide)
  · simp at h
  · simp at h

theorem kvLoop_Players : ∀ (fuel : Nat) (p : Packet) (raw : MinecraftUDPRaw)
    (r : Packet × MinecraftUDPRaw), kvLoop fuel p raw = some r → r.2.Players = raw.Players := by
  intro fuel
  induction fuel with
  | zero => intro p raw r h; simp [kvLoop] at h
  | succ fuel ih =>
    intro p raw r h
    rw [kvLoop] at h
    by_cases hk : p.ReadString.1 = []
    · simp [hk] at h
      rw [← h]
    · simp only [hk, if_false] at h
      rw [ih _ _ _ h, routeKV_Players]

/-- The record `decodeStat` returns holds the players cut out of the bytes that
start ten bytes after the place where the key/value pass ended. -/
theorem decodeStat_players (p : Packet) :
    ∃ p1 raw1 raw, kvLoop (p.buffer.length + 1) (p.Forward 11) MinecraftUDPRaw.zero =
        some (p1, raw1) ∧ decodeStat p = some raw ∧
      raw.Players = (splitNull (p1.rest.drop 10)).takeWhile (fun s => s ≠ []) := by
  have h0 := Packet.length_rest_le (p.Forward 11)
  obtain ⟨r, hr⟩ := kvLoop_isSome (p.buffer.length + 1) (p.Forward 11) MinecraftUDPRaw.zero
    (by rw [Packet.buffer_Forward] at h0; omega)
  have hb := kvLoop_buffer _ _ _ _ hr
  have hpl := kvLoop_Players _ _ _ _ hr
  have h1 := Packet.length_rest_le (r.1.Forward 10)
  obtain ⟨p2, hp2⟩ := playerLoop_eq (p.buffer.length + 1) (r.1.Forward 10) r.2
    (by rw [Packet.buffer_Forward, hb, Packet.buffer_Forward] at h1; omega)
  obtain ⟨r1, r2⟩ := r
  refine ⟨r1, r2, { r2 with Players := r2.Players ++
    (splitNull (r1.Forward 10).rest).takeWhile (fun s => s ≠ []) }, hr, ?_, ?_⟩
  · unfold decodeStat
    simp only [hr, hp2]
  · simp only at hpl
    simp only [hpl, Packet.rest_Forward]
    rfl

theorem nil_not_mem_takeWhile (l : List (List Nat)) :
    [] ∉ l.takeWhile (fun s => s ≠ []) := by
  intro h
  have := List.mem_takeWhile_imp h
  simp at this

/-- The bytes of the first datagram, for a session identifier `s` below
`2^32`. -/
theorem handshakeRequest_bytes (s : Nat) (hs : s < 2 ^ 32) :
    handshakeRequest (s : Int) =
      [0xFE, 0xFD, 0x09, s / 2 ^ 24 % 256, s / 2 ^ 16 % 256, s / 2 ^ 8 % 256, s % 256] := by
  simp [handshakeRequest, Packet.GetBuffer, Packet.WriteInt32, Packet.WriteRaw, Packet.empty,
    be32]
  refine ⟨?_, ?_, ?_, ?_⟩ <;> omega

/-- The bytes of the second datagram, for a session identifier `s` below `2^32`
and the four challenge bytes of `c`. -/
theorem fullStatRequest_bytes (s : Nat) (hs : s < 2 ^ 32) (c : Int) :
    fullStatRequest (s : Int) (be32 c) =
      [0xFE, 0xFD, 0x00, s / 2 ^ 24 % 256, s / 2 ^ 16 % 256, s / 2 ^ 8 % 256, s % 256,
        (c % 2 ^ 32).toNat / 2 ^ 24 % 256, (c % 2 ^ 32).toNat / 2 ^ 16 % 256,
        (c % 2 ^ 32).toNat / 2 ^ 8 % 256, (c % 2 ^ 32).toNat % 256, 0, 0, 0, 0] := by
  simp [fullStatRequest, Packet.GetBuffer, Packet.WriteInt32, Packet.WriteRaw, Packet.empty,
    Packet.Clear, be32]
  refine ⟨?_, ?_, ?_, ?_⟩ <;> omega

/-- `Execute` always ends, and its first transport operation is the `Send` of
the handshake request. -/
theorem Execute_total {σ : Type} (helper : NetworkHelper σ) (st : σ) (rnd : Nat) :
    ∃ run ops, Execute helper st rnd = some run ∧
      run.ops = .send (handshakeRequest (generateSessionID rnd)) :: ops := by
  rcases h1 : helper.Send st (handshakeRequest (generateSessionID rnd)) with ⟨e1, st1⟩
  cases e1 with
  | some e =>
    simp only [Execute, h1]
    exact ⟨_, _, rfl, rfl⟩
  | none =>
    rcases h2 : helper.Receive st1 with ⟨r1, st2⟩
    cases r1 with
    | error e =>
      simp only [Execute, h1, h2]
      exact ⟨_, _, rfl, rfl⟩
    | ok data =>
      by_cases ht : (Packet.ofBytes data).ReadUint8.1 = 0x09
      · by_cases hs : (Packet.ofBytes data).ReadUint8.2.ReadInt32.1 = generateSessionID rnd
        · have hh : ReceivesHandshake helper st rnd
              (Packet.ofBytes data).ReadUint8.2.ReadInt32.2.ReadString.1 st2 :=
            ⟨st1, data, h1, h2, ht, hs, rfl⟩
          rcases hp : parseChallengeToken
            (Packet.ofBytes data).ReadUint8.2.ReadInt32.2.ReadString.1 with ⟨ct, e2⟩
          cases e2 with
          | some e =>
            rw [Execute_handshake_error helper st st2 rnd _ ct e hh hp]
            exact ⟨_, _, rfl, rfl⟩
          | none =>
            rw [Execute_handshake_ok helper st st2 rnd _ ct hh hp]
            obtain ⟨run, ops, q1, q2, -⟩ := fullStatExchange_ops helper st2 (generateSessionID rnd) ct
            exact ⟨run, _, q1, q2⟩
        · simp only [Execute, h1, h2]
          rw [if_neg (by simpa using ht), if_pos hs]
          exact ⟨_, _, rfl, rfl⟩
      · simp only [Execute, h1, h2]
        rw [if_pos ht]
        exact ⟨_, _, rfl, rfl⟩

/-- The full-stat exchange when the second `Send` fails. -/
theorem fullStatExchange_send_failed {σ : Type} (helper : NetworkHelper σ) (st2 st3 : σ)
    (sid : Int) (ct : List Nat) (e : GoError)
    (h1 : helper.Send st2 (fullStatRequest sid ct) = (some e, st3)) :
    fullStatExchange helper st2 sid ct = some ⟨Response.zero, some e,
      [.send (handshakeRequest sid), .receive, .send (fullStatRequest sid ct)]⟩ := by
  simp only [fullStatExchange, h1]

/-- The full-stat exchange when the second `Receive` fails. -/
theorem fullStatExchange_receive_failed {σ : Type} (helper : NetworkHelper σ) (st2 st3 st4 : σ)
    (sid : Int) (ct : List Nat) (e : GoError)
    (h1 : helper.Send st2 (fullStatRequest sid ct) = (none, st3))
    (h2 : helper.Receive st3 = (.error e, st4)) :
    fullStatExchange helper st2 sid ct = some ⟨Response.zero, some e,
      [.send (handshakeRequest sid), .receive, .send (fullStatRequest sid ct), .receive]⟩ := by
  simp only [fullStatExchange, h1, h2]

/-- The full-stat exchange on a response whose tag, as read, is not `0x00`. -/
theorem fullStatExchange_tag_mismatch {σ : Type} (helper : NetworkHelper σ) (st2 st3 st4 : σ)
    (sid : Int) (ct data2 : List Nat)
    (h1 : helper.Send st2 (fullStatRequest sid ct) = (none, st3))
    (h2 : helper.Receive st3 = (.ok data2, st4))
    (ht : (Packet.ofBytes data2).ReadUint8.1 ≠ 0x00) :
    fullStatExchange helper st2 sid ct = some ⟨Response.zero, some (.errorsNew msgNoStat),
      [.send (handshakeRequest sid), .receive, .send (fullStatRequest sid ct), .receive]⟩ := by
  simp only [fullStatExchange, h1, h2]
  rw [if_pos ht]

/-- The full-stat exchange on a response with the tag `0x00` whose session
identifier, as read, is not the one sent. -/
theorem fullStatExchange_wrong_session {σ : Type} (helper : NetworkHelper σ) (st2 st3 st4 : σ)
    (sid : Int) (ct data2 : List Nat)
    (h1 : helper.Send st2 (fullStatRequest sid ct) = (none, st3))
    (h2 : helper.Receive st3 = (.ok data2, st4))
    (ht : (Packet.ofBytes data2).ReadUint8.1 = 0x00)
    (hs : (Packet.ofBytes data2).ReadUint8.2.ReadInt32.1 ≠ sid) :
    fullStatExchange helper st2 sid ct = some ⟨Response.zero,
      some (.errorsNew msgWrongSession),
      [.send (handshakeRequest sid), .receive, .send (fullStatRequest sid ct), .receive]⟩ := by
  simp only [fullStatExchange, h1, h2]
  rw [if_neg (by simpa using ht), if_pos hs]

/-- The full-stat exchange on a response that passes both checks. -/
theorem fullStatExchange_decoded {σ : Type} (helper : NetworkHelper σ) (st2 st3 st4 : σ)
    (sid : Int) (ct data2 : List Nat)
    (h1 : helper.Send st2 (fullStatRequest sid ct) = (none, st3))
    (h2 : helper.Receive st3 = (.ok data2, st4))
    (ht : (Packet.ofBytes data2).ReadUint8.1 = 0x00)
    (hs : (Packet.ofBytes data2).ReadUint8.2.ReadInt32.1 = sid) :
    ∃ raw, decodeStat (Packet.ofBytes data2).ReadUint8.2.ReadInt32.2 = some raw ∧
      fullStatExchange helper st2 sid ct = some ⟨⟨some raw⟩, none,
        [.send (handshakeRequest sid), .receive, .send (fullStatRequest sid ct), .receive]⟩ := by
  obtain ⟨raw, hraw⟩ := decodeStat_isSome (Packet.ofBytes data2).ReadUint8.2.ReadInt32.2
  refine ⟨raw, hraw, ?_⟩
  simp only [fullStatExchange, h1, h2]
  rw [if_neg (by simpa using ht), if_neg (by simpa using hs), hraw]

/-- The two values a full-stat exchange returns: an error with the zero
`Response`, or a record with a nil error. -/
theorem fullStatExchange_shape {σ : Type} (helper : NetworkHelper σ) (st2 : σ) (sid : Int)
    (ct : List Nat) : ∃ run, fullStatExchange helper st2 sid ct = some run ∧
      ((∃ e, run.err = some e ∧ run.resp = Response.zero) ∨
        (∃ raw, run.err = none ∧ run.resp = ⟨some raw⟩)) := by
  rcases h1 : helper.Send st2 (fullStatRequest sid ct) with ⟨e1, st3⟩
  cases e1 with
  | some e =>
    exact ⟨_, fullStatExchange_send_failed helper st2 st3 sid ct e h1, Or.inl ⟨e, rfl, rfl⟩⟩
  | none =>
    rcases h2 : helper.Receive st3 with ⟨r2, st4⟩
    cases r2 with
    | error e =>
      exact ⟨_, fullStatExchange_receive_failed helper st2 st3 st4 sid ct e h1 h2,
        Or.inl ⟨e, rfl, rfl⟩⟩
    | ok data2 =>
      by_cases ht : (Packet.ofBytes data2).ReadUint8.1 = 0x00
      · by_cases hs : (Packet.ofBytes data2).ReadUint8.2.ReadInt32.1 = sid
        · obtain ⟨raw, -, hx⟩ := fullStatExchange_decoded helper st2 st3 st4 sid ct data2 h1 h2 ht hs
          exact ⟨_, hx, Or.inr ⟨raw, rfl, rfl⟩⟩
        · exact ⟨_, fullStatExchange_wrong_session helper st2 st3 st4 sid ct data2 h1 h2 ht hs,
            Or.inl ⟨_, rfl, rfl⟩⟩
      · exact ⟨_, fullStatExchange_tag_mismatch helper st2 st3 st4 sid ct data2 h1 h2 ht,
          Or.inl ⟨_, rfl, rfl⟩⟩

/-- The run when the first `Send` fails. -/
theorem Execute_send_failed {σ : Type} (helper : NetworkHelper σ) (st st1 : σ) (rnd : Nat)
    (e : GoError)
    (h1 : helper.Send st (handshakeRequest (generateSessionID rnd)) = (some e, st1)) :
    Execute helper st rnd = some ⟨Response.zero, some e,
      [.send (handshakeRequest (generateSessionID rnd))]⟩ := by
  simp only [Execute, h1]

/-- The run when the first `Receive` fails. -/
theorem Execute_receive_failed {σ : Type} (helper : NetworkHelper σ) (st st1 st2 : σ)
    (rnd : Nat) (e : GoError)
    (h1 : helper.Send st (handshakeRequest (generateSessionID rnd)) = (none, st1))
    (h2 : helper.Receive st1 = (.error e, st2)) :
    Execute helper st rnd = some ⟨Response.zero, some e,
      [.send (handshakeRequest (generateSessionID rnd)), .receive]⟩ := by
  simp only [Execute, h1, h2]

/-- The two values `Execute` returns: an error with the zero `Response`, or a
record with a nil error. -/
theorem Execute_shape {σ : Type} (helper : NetworkHelper σ) (st : σ) (rnd : Nat) :
    ∃ run, Execute helper st rnd = some run ∧
      ((∃ e, run.err = some e ∧ run.resp = Response.zero) ∨
        (∃ raw, run.err = none ∧ run.resp = ⟨some raw⟩)) := by
  rcases h1 : helper.Send st (handshakeRequest (generateSessionID rnd)) with ⟨e1, st1⟩
  cases e1 with
  | some e => exact ⟨_, Execute_send_failed helper st st1 rnd e h1, Or.inl ⟨e, rfl, rfl⟩⟩
  | none =>
    rcases h2 : helper.Receive st1 with ⟨r1, st2⟩
    cases r1 with
    | error e =>
      exact ⟨_, Execute_receive_failed helper st st1 st2 rnd e h1 h2, Or.inl ⟨e, rfl, rfl⟩⟩
    | ok data =>
      by_cases ht : (Packet.ofBytes data).ReadUint8.1 = 0x09
      · by_cases hs : (Packet.ofBytes data).ReadUint8.2.ReadInt32.1 = generateSessionID rnd
        · have hh : ReceivesHandshake helper st rnd
              (Packet.ofBytes data).ReadUint8.2.ReadInt32.2.ReadString.1 st2 :=
            ⟨st1, data, h1, h2, ht, hs, rfl⟩
          rcases hp : parseChallengeToken
            (Packet.ofBytes data).ReadUint8.2.ReadInt32.2.ReadString.1 with ⟨ct, e2⟩
          cases e2 with
          | some e =>
            exact ⟨_, Execute_handshake_error helper st st2 rnd _ ct e hh hp,
              Or.inl ⟨e, rfl, rfl⟩⟩
          | none =>
            rw [Execute_handshake_ok helper st st2 rnd _ ct hh hp]
            exact fullStatExchange_shape helper st2 (generateSessionID rnd) ct
        · refine ⟨⟨Response.zero, some (.errorsNew msgWrongSession),
            [.send (handshakeRequest (generateSessionID rnd)), .receive]⟩, ?_,
            Or.inl ⟨_, rfl, rfl⟩⟩
          simp only [Execute, h1, h2]
          rw [if_neg (by simpa using ht), if_pos hs]
      · refine ⟨⟨Response.zero, some (.errorsNew msgNoHandshake),
          [.send (handshakeRequest (generateSessionID rnd)), .receive]⟩, ?_,
          Or.inl ⟨_, rfl, rfl⟩⟩
        simp only [Execute, h1, h2]
        rw [if_pos ht]

/-- A byte of a masked value keeps the low nibble only: its bits 4 to 7 are
those of the mask. -/
theorem byte_of_masked_lt (r k : Nat) (hk : k = 0 ∨ k = 8 ∨ k = 16 ∨ k = 24) :
    (r &&& 0x0F0F0F0F) / 2 ^ k % 256 < 16 := by
  have h256 : (256 : Nat) = 2 ^ 8 := by norm_num
  have h16 : (16 : Nat) = 2 ^ 4 := by norm_num
  rw [h256, h16, ← Nat.shiftRight_eq_div_pow]
  apply Nat.lt_pow_two_of_testBit
  intro i hi
  rw [Nat.testBit_mod_two_pow, Nat.testBit_shiftRight, Nat.testBit_and]
  by_cases h8 : i < 8
  · have hm : Nat.testBit 0x0F0F0F0F (k + i) = false := by
      rcases hk with rfl | rfl | rfl | rfl <;> interval_cases i <;> decide
    simp [hm]
  · simp [h8]

/-- A pair whose key is not a `case` label leaves the record as it is. -/
theorem routeKV_unrecognised (raw : MinecraftUDPRaw) (key val : List Nat)
    (hk : key ∉ recognisedKeys) : routeKV raw key val = raw := by
  simp only [recognisedKeys, List.mem_cons, List.mem_singleton, List.not_mem_nil, or_false,
    not_or] at hk
  obtain ⟨h1, h2, h3, h4, h5, h6, h7, h8, h9, h10⟩ := hk
  simp only [routeKV, h1, h2, h3, h4, h5, h6, h7, h8, h9, h10, if_false]

theorem routeAll_append (raw : MinecraftUDPRaw) (p1 p2 : List (List Nat × List Nat)) :
    routeAll raw (p1 ++ p2) = routeAll (routeAll raw p1) p2 := by
  simp [routeAll, List.foldl_append]

theorem routeAll_cons (raw : MinecraftUDPRaw) (kv : List Nat × List Nat)
    (ps : List (List Nat × List Nat)) :
    routeAll raw (kv :: ps) = routeAll (routeKV raw kv.1 kv.2) ps := rfl

theorem WellFormedKV_remove (p1 p2 : List (List Nat × List Nat)) (kv : List Nat × List Nat)
    (h : WellFormedKV (p1 ++ kv :: p2)) : WellFormedKV (p1 ++ p2) := by
  intro x hx
  apply h x
  rcases List.mem_append.mp hx with h1 | h2
  · exact List.mem_append.mpr (Or.inl h1)
  · exact List.mem_append.mpr (Or.inr (List.mem_cons_of_mem _ h2))

/-- The key/value pass over a section that the end of the datagram ends, with
no empty key after the last pair. -/
theorem kvLoop_encodeKV_end : ∀ (pairs : List (List Nat × List Nat)) (fuel : Nat) (p : Packet)
    (raw : MinecraftUDPRaw), WellFormedKV pairs → pairs.length < fuel →
    p.rest = encodeKV pairs →
    ∃ p1, kvLoop fuel p raw = some (p1, routeAll raw pairs) ∧ p1.rest = [] ∧
      p1.buffer = p.buffer := by
  intro pairs
  induction pairs with
  | nil =>
    intro fuel p raw _ hf hp
    cases fuel with
    | zero => simp at hf
    | succ fuel =>
      have hp0 : p.rest = [] := hp
      have hk := Packet.ReadString_nil_of_rest_nil p hp0
      refine ⟨p.ReadString.2, ?_, ?_, rfl⟩
      · rw [kvLoop]
        simp [hk, routeAll]
      · rw [Packet.rest_ReadString, hp0]
        rfl
  | cons kv ps ih =>
    intro fuel p raw hw hf hp
    obtain ⟨k, v⟩ := kv
    have hkv := hw (k, v) (by simp)
    have hps : WellFormedKV ps := fun x hx => hw x (by simp [hx])
    cases fuel with
    | zero => simp at hf
    | succ fuel =>
      have hp1 : p.rest = k ++ 0 :: (v ++ 0 :: encodeKV ps) := by
        rw [hp]; simp [encodeKV]
      have hr1 := Packet.ReadString_of_rest p k _ hkv.2.1 hp1
      have hr2 := Packet.ReadString_of_rest p.ReadString.2 v _ hkv.2.2 hr1.2
      obtain ⟨p1, q1, q2, q3⟩ := ih fuel p.ReadString.2.ReadString.2 (routeKV raw k v) hps
        (by simpa using hf) hr2.2
      refine ⟨p1, ?_, q2, q3⟩
      rw [kvLoop]
      have hk : p.ReadString.1 ≠ [] := by rw [hr1.1]; exact hkv.1
      simp only [hk, if_false]
      rw [hr1.1, hr2.1, q1]
      rfl

/-- Cutting a player section that the end of the datagram ends, with no empty
string after the last name, gives the names back. -/
theorem takeWhile_splitNull_encodeNames_end (names : List (List Nat))
    (hn : ∀ n ∈ names, n ≠ [] ∧ NullFree n) :
    (splitNull (encodeNames names)).takeWhile (fun s => s ≠ []) = names := by
  induction names with
  | nil =>
    rw [takeWhile_splitNull]
    simp [encodeNames]
  | cons n ns ih =>
    have h1 := hn n (by simp)
    have h2 : ∀ m ∈ ns, m ≠ [] ∧ NullFree m := fun m hm => hn m (by simp [hm])
    have e : encodeNames (n :: ns) = n ++ 0 :: encodeNames ns := rfl
    rw [takeWhile_splitNull, e, takeWhile_nullFree n _ h1.2, if_neg h1.1]
    have e2 : (n ++ 0 :: encodeNames ns).drop (n.length + 1) = encodeNames ns := by
      rw [← List.drop_drop]
      simp
    rw [e2, ih h2]

/-- The decoding of a response whose key/value section runs to the end of the
datagram: the pairs are routed and there is no player. -/
theorem decodeStat_encoded_end (p : Packet) (pad11 : List Nat)
    (pairs : List (List Nat × List Nat)) (h11 : pad11.length = 11) (hw : WellFormedKV pairs)
    (hp : p.rest = pad11 ++ encodeKV pairs) :
    decodeStat p = some (routeAll MinecraftUDPRaw.zero pairs) := by
  have hlen := Packet.length_rest_le p
  have hl2 := length_encodeKV pairs
  have hf : (p.Forward 11).rest = encodeKV pairs := by
    rw [Packet.rest_Forward, hp, ← h11]
    simp
  obtain ⟨p1, q1, q2, q3⟩ := kvLoop_encodeKV_end pairs (p.buffer.length + 1) (p.Forward 11)
    MinecraftUDPRaw.zero hw (by rw [hp] at hlen; simp at hlen; omega) hf
  have hf2 : (p1.Forward 10).rest = [] := by
    rw [Packet.rest_Forward, q2]
    rfl
  obtain ⟨p2, q4⟩ := playerLoop_eq (p.buffer.length + 1) (p1.Forward 10)
    (routeAll MinecraftUDPRaw.zero pairs) (by rw [hf2]; simp)
  have hpl := routeAll_Players pairs MinecraftUDPRaw.zero
  unfold decodeStat
  simp only [q1, q4, hf2]
  rcases hr : routeAll MinecraftUDPRaw.zero pairs with ⟨a1, a2, a3, a4, a5, a6, a7, a8, a9, a10, a11⟩
  rw [hr] at hpl
  simp only at hpl
  subst hpl
  simp [splitNull, MinecraftUDPRaw.zero]

/-- The text fields of the record a key/value section routes to. -/
theorem routeAll_text_fields (pairs : List (List Nat × List Nat)) :
    (routeAll MinecraftUDPRaw.zero pairs).Hostname = (lastValue pairs (str "hostname")).getD [] ∧
    (routeAll MinecraftUDPRaw.zero pairs).GameType = (lastValue pairs (str "gametype")).getD [] ∧
    (routeAll MinecraftUDPRaw.zero pairs).GameID = (lastValue pairs (str "game_id")).getD [] ∧
    (routeAll MinecraftUDPRaw.zero pairs).Version = (lastValue pairs (str "version")).getD [] ∧
    (routeAll MinecraftUDPRaw.zero pairs).Plugins = (lastValue pairs (str "plugins")).getD [] ∧
    (routeAll MinecraftUDPRaw.zero pairs).Map = (lastValue pairs (str "map")).getD [] ∧
    (routeAll MinecraftUDPRaw.zero pairs).HostIP = (lastValue pairs (str "hostip")).getD [] := by
  refine ⟨?_, ?_, ?_, ?_, ?_, ?_, ?_⟩
  · simpa using routeAll_field MinecraftUDPRaw.Hostname _ id routeKV_Hostname pairs
      MinecraftUDPRaw.zero
  · simpa using routeAll_field MinecraftUDPRaw.GameType _ id routeKV_GameType pairs
      MinecraftUDPRaw.zero
  · simpa using routeAll_field MinecraftUDPRaw.GameID _ id routeKV_GameID pairs
      MinecraftUDPRaw.zero
  · simpa using routeAll_field MinecraftUDPRaw.Version _ id routeKV_Version pairs
      MinecraftUDPRaw.zero
  · simpa using routeAll_field MinecraftUDPRaw.Plugins _ id routeKV_Plugins pairs
      MinecraftUDPRaw.zero
  · simpa using routeAll_field MinecraftUDPRaw.Map _ id routeKV_Map pairs
      MinecraftUDPRaw.zero
  · simpa using routeAll_field MinecraftUDPRaw.HostIP _ id routeKV_HostIP pairs
      MinecraftUDPRaw.zero

theorem lastValue_cons (kv : List Nat × List Nat) (ps : List (List Nat × List Nat))
    (key : List Nat) :
    lastValue (kv :: ps) key =
      (lastValue ps key).orElse (fun _ => if kv.1 = key then some kv.2 else none) := by
  obtain ⟨k1, v1⟩ := kv
  rw [lastValue]
  cases lastValue ps key <;> rfl

theorem lastValue_append_cons (p1 p2 : List (List Nat × List Nat)) (k v key : List Nat) :
    lastValue (p1 ++ (k, v) :: p2) key =
      (lastValue p2 key).orElse (fun _ => if k = key then some v else lastValue p1 key) := by
  induction p1 with
  | nil =>
    rw [List.nil_append, lastValue_cons]
    rfl
  | cons kv ps ih =>
    rw [List.cons_append, lastValue_cons, ih, lastValue_cons]
    cases lastValue p2 key with
    | some w => rfl
    | none =>
      by_cases hk : k = key
      · simp [hk]
      · simp [hk]

/-- The last value of a key in a section cut at one of its pairs: a later pair
with the key wins, then the pair at the cut, then the earlier pairs. -/
theorem lastValue_split (p1 p2 : List (List Nat × List Nat)) (k v key : List Nat) :
    (lastValue (p1 ++ (k, v) :: p2) key).getD [] =
      (lastValue p2 key).getD (if k = key then v else (lastValue p1 key).getD []) := by
  rw [lastValue_append_cons]
  cases lastValue p2 key with
  | some w => rfl
  | none =>
    by_cases hk : k = key
    · simp [hk]
    · simp [hk]

/-- A run that receives a full-stat response passing both checks returns a
record without error. -/
theorem Execute_passes_checks {σ : Type} (helper : NetworkHelper σ) (st : σ) (rnd : Nat)
    (data2 : List Nat) (hr : ReceivesStat helper st rnd data2)
    (ht : (Packet.ofBytes data2).ReadUint8.1 = 0x00)
    (hs : (Packet.ofBytes data2).ReadUint8.2.ReadInt32.1 = generateSessionID rnd) :
    ∃ raw ops, Execute helper st rnd = some ⟨⟨some raw⟩, none, ops⟩ := by
  obtain ⟨st2, st3, st4, token, ct, hh, hp, h1, h2⟩ := hr
  rw [Execute_handshake_ok helper st st2 rnd token ct hh hp]
  obtain ⟨raw, -, hx⟩ := fullStatExchange_decoded helper st2 st3 st4 _ ct data2 h1 h2 ht hs
  exact ⟨raw, _, hx⟩

/-- Once the digits read have overflowed, the loop reports a range error
without looking at what follows them. -/
theorem parseUintLoop_overflow_then (maxVal : Nat) (hmax : maxVal < 2 ^ 60) (tail : List Nat) :
    ∀ (ds : List Nat) (n : Nat), (∀ d ∈ ds, IsDigit d) → n ≤ maxVal → maxVal < decimalFrom n ds →
      parseUintLoop maxVal (ds ++ tail) n = (maxVal, some .ErrRange) := by
  intro ds
  induction ds with
  | nil => intro n _ h1 h2; simp [decimalFrom] at h2; omega
  | cons c cs ih =>
    intro n hd hn hv
    have hc : IsDigit c := hd c (by simp)
    have hcs : ∀ d ∈ cs, IsDigit d := fun d hd1 => hd d (by simp [hd1])
    rw [decimalFrom_cons] at hv
    have hc1 := hc
    unfold IsDigit at hc1
    rw [List.cons_append, parseUintLoop, digitOf_of_isDigit c hc]
    have e1 : ¬ (c - 48 ≥ 10) := by omega
    have e2 : ¬ (n ≥ cutoff10) := by unfold cutoff10; omega
    have e3 : (10 * n + (c - 48)) % 2 ^ 64 = 10 * n + (c - 48) := by omega
    have e4 : n * 10 % 2 ^ 64 = 10 * n := by omega
    simp only [e1, e2, e4, e3, if_false]
    by_cases hr : 10 * n + (c - 48) < 10 * n ∨ 10 * n + (c - 48) > maxVal
    · rw [if_pos hr]
    · rw [if_neg hr]
      exact ih _ hcs (by omega) hv

/-- `ParseUint` reports a range error on a text whose leading digits do not
fit, whatever follows them. -/
theorem ParseUint_overflow_then (s : List Nat) (b : Nat) (hb : b ≤ 32)
    (hv : 2 ^ b - 1 < decimalValue (leadingDigits s)) :
    ParseUint s b = (2 ^ b - 1, some .ErrRange) := by
  have h1 : 2 ^ b ≤ 2 ^ 32 := Nat.pow_le_pow_right (by norm_num) hb
  have hne : s ≠ [] := by
    rintro rfl
    simp [leadingDigits, decimalValue, decimalFrom] at hv
  have hsplit : s = leadingDigits s ++ s.dropWhile (fun c => decide (IsDigit c)) :=
    (List.takeWhile_append_dropWhile _ s).symm
  rw [ParseUint, if_neg hne]
  have h := parseUintLoop_overflow_then (2 ^ b - 1) (by omega)
    (s.dropWhile (fun c => decide (IsDigit c))) (leadingDigits s) 0 (leadingDigits_isDigit s)
    (Nat.zero_le _) hv
  rw [← hsplit] at h
  exact h

/-- `parseIntBody` when `ParseUint` has reported a range error. -/
theorem parseIntBody_range (s0 s : List Nat) (neg : Bool) (b : Nat) (h1 : 2 ≤ b) (h2 : b ≤ 32)
    (hp : ParseUint s b = (2 ^ b - 1, some .ErrRange)) :
    parseIntBody s0 neg s b =
      (if neg = true then -((2 ^ (b - 1) : Nat) : Int) else ((2 ^ (b - 1) : Nat) : Int) - 1,
        some ⟨"ParseInt", s0, .ErrRange⟩) := by
  obtain ⟨p1, p2, p3⟩ := pow_facts b h1 h2
  unfold parseIntBody
  rw [hp, p1]
  generalize 2 ^ (b - 1) = M at *
  have hm1 : toInt64 (M : Int) = M := toInt64_of_bounds _ (by omega) (by omega)
  have hm2 : toInt64 (-(M : Int)) = -(M : Int) := toInt64_of_bounds _ (by omega) (by omega)
  have hm3 : toInt64 ((M : Int) - 1) = (M : Int) - 1 := toInt64_of_bounds _ (by omega) (by omega)
  have hc : ((M - 1 : Nat) : Int) = (M : Int) - 1 := by omega
  cases neg
  · have hge : M ≤ 2 * M - 1 := by omega
    simp [hge, hc, hm3]
  · have hgt : M < 2 * M - 1 := by omega
    simp [hgt, hm1, hm2]

/-- `ParseInt` on a text whose leading digits, after the sign if there is one,
do not fit `bitSize` unsigned bits: the nearest bound and a range error,
whatever follows the digits. -/
theorem ParseInt_overflow_then (s : List Nat) (b : Nat) (h1 : 2 ≤ b) (h2 : b ≤ 32)
    (hv : 2 ^ b - 1 < decimalValue (leadingDigits (unsignedPart s))) :
    ParseInt s b =
      (if s.head? = some 45 then -((2 ^ (b - 1) : Nat) : Int) else ((2 ^ (b - 1) : Nat) : Int) - 1,
        some ⟨"ParseInt", s, .ErrRange⟩) := by
  cases s with
  | nil => simp [unsignedPart, leadingDigits, decimalValue, decimalFrom] at hv
  | cons c0 t =>
    rw [ParseInt]
    by_cases e1 : c0 = 43
    · have hu : unsignedPart (c0 :: t) = t := by simp [unsignedPart, e1]
      rw [hu] at hv
      rw [if_pos e1, parseIntBody_range _ _ _ b h1 h2 (ParseUint_overflow_then t b h2 hv)]
      simp [e1]
    · by_cases e2 : c0 = 45
      · have hu : unsignedPart (c0 :: t) = t := by simp [unsignedPart, e2]
        rw [hu] at hv
        rw [if_neg e1, if_pos e2,
          parseIntBody_range _ _ _ b h1 h2 (ParseUint_overflow_then t b h2 hv)]
        simp [e2]
      · have hu : unsignedPart (c0 :: t) = c0 :: t := by simp [unsignedPart, e1, e2]
        rw [hu] at hv
        rw [if_neg e1, if_neg e2,
          parseIntBody_range _ _ _ b h1 h2 (ParseUint_overflow_then (c0 :: t) b h2 hv)]
        simp [e2]

/-- `ParseInt` on a signed decimal numeral, in range or not. -/
theorem ParseInt_decimalInt_cases (s : List Nat) (c : Int) (b : Nat) (h1 : 2 ≤ b) (h2 : b ≤ 32)
    (hs : DecimalInt s c) :
    ParseInt s b =
      if c < -((2 ^ (b - 1) : Nat) : Int) then
        (-((2 ^ (b - 1) : Nat) : Int), some ⟨"ParseInt", s, .ErrRange⟩)
      else if ((2 ^ (b - 1) : Nat) : Int) ≤ c then
        (((2 ^ (b - 1) : Nat) : Int) - 1, some ⟨"ParseInt", s, .ErrRange⟩)
      else (c, none) := by
  have p2 := (pow_facts b h1 h2).2.1
  by_cases hlo : c < -((2 ^ (b - 1) : Nat) : Int)
  · rw [if_pos hlo]
    obtain ⟨ds, hne, hd, hcase⟩ := hs
    rcases hcase with ⟨rfl, rfl⟩ | ⟨rfl, rfl⟩ | ⟨rfl, rfl⟩
    · omega
    · omega
    · rw [ParseInt]
      have e1 : (45 : Nat) ≠ 43 := by decide
      simp only [e1, if_true, if_false]
      rw [parseIntBody_digits _ _ _ b h1 h2 hne hd]
      have : ¬ decimalValue ds ≤ 2 ^ (b - 1) := by omega
      simp [this]
  · rw [if_neg hlo]
    by_cases hhi : ((2 ^ (b - 1) : Nat) : Int) ≤ c
    · rw [if_pos hhi]
      obtain ⟨ds, hne, hd, hcase⟩ := hs
      rcases hcase with ⟨rfl, rfl⟩ | ⟨rfl, rfl⟩ | ⟨rfl, rfl⟩
      · cases s with
        | nil => exact absurd rfl hne
        | cons c0 t =>
          have hc0 : IsDigit c0 := hd c0 (by simp)
          unfold IsDigit at hc0
          have e1 : c0 ≠ 43 := by omega
          have e2 : c0 ≠ 45 := by omega
          rw [ParseInt]
          simp only [e1, e2, if_false]
          rw [parseIntBody_digits _ _ _ b h1 h2 hne hd]
          have : ¬ decimalValue (c0 :: t) < 2 ^ (b - 1) := by omega
          simp [this]
      · rw [ParseInt]
        simp only [if_true]
        rw [parseIntBody_digits _ _ _ b h1 h2 hne hd]
        have : ¬ decimalValue ds < 2 ^ (b - 1) := by omega
        simp [this]
      · omega
    · rw [if_neg hhi]
      exact ParseInt_of_decimalInt s c b h1 h2 hs (by omega) (by omega)

theorem not_decimalInt_70000x : ¬ ∃ c, DecimalInt (str "70000x") c := by
  rintro ⟨c, ds, -, hd, hcase⟩
  have hs : str "70000x" = [55, 48, 48, 48, 48, 120] := by decide
  rw [hs] at hcase
  rcases hcase with ⟨h, -⟩ | ⟨h, -⟩ | ⟨h, -⟩
  · have := hd 120 (by rw [← h]; simp)
    exact absurd this (by decide)
  · simp at h
  · simp at h

/-- Two byte strings that agree on their first `n` bytes have the same
null-terminated string at their head, if that string and its terminator lie
within those bytes. -/
theorem takeWhile_eq_of_take_eq (f : Nat → Bool) :
    ∀ (l l1 : List Nat) (n : Nat), l.take n = l1.take n → (l.takeWhile f).length < n →
      l1.takeWhile f = l.takeWhile f := by
  intro l
  induction l with
  | nil =>
    intro l1 n h hl
    cases n with
    | zero => simp at hl
    | succ n =>
      cases l1 with
      | nil => rfl
      | cons b t1 => simp at h
  | cons a t ih =>
    intro l1 n h hl
    cases n with
    | zero => simp at hl
    | succ n =>
      cases l1 with
      | nil => simp at h
      | cons b t1 =>
        simp only [List.take_succ_cons, List.cons.injEq] at h
        obtain ⟨hab, ht⟩ := h
        subst hab
        by_cases hf : f a = true
        · simp only [List.takeWhile_cons, hf, if_true, List.length_cons] at hl ⊢
          rw [ih t1 n ht (by omega)]
        · simp [List.takeWhile_cons, hf]

/-- What is left after dropping `m` bytes agrees as far as the whole did. -/
theorem take_drop_eq_of_take_eq (l l1 : List Nat) (k m : Nat) (h : l.take k = l1.take k)
    (hm : m ≤ k) : (l.drop m).take (k - m) = (l1.drop m).take (k - m) := by
  rw [List.take_drop, List.take_drop]
  have e : m + (k - m) = k := by omega
  rw [e, h]

theorem Packet.pos_ReadString (p : Packet) :
    p.ReadString.2.pos = p.pos + p.ReadString.1.length + 1 := rfl

theorem Packet.ReadString_fst (p : Packet) :
    p.ReadString.1 = p.rest.takeWhile (fun b => b ≠ 0) := rfl

/-- The cursor moves forward in the key/value pass. -/
theorem kvLoop_pos : ∀ (fuel : Nat) (p : Packet) (raw : MinecraftUDPRaw)
    (r : Packet × MinecraftUDPRaw), kvLoop fuel p raw = some r → p.pos < r.1.pos := by
  intro fuel
  induction fuel with
  | zero => intro p raw r h; simp [kvLoop] at h
  | succ fuel ih =>
    intro p raw r h
    rw [kvLoop] at h
    by_cases hk : p.ReadString.1 = []
    · simp [hk] at h
      rw [← h, Packet.pos_ReadString]
      omega
    · simp only [hk, if_false] at h
      have h1 := ih _ _ _ h
      rw [Packet.pos_ReadString, Packet.pos_ReadString] at h1
      omega

/-- The key/value pass reads only the bytes it goes over: on a buffer of the
same length that agrees with the first on those bytes it routes the same pairs
and stops at the same distance from its start. -/
theorem kvLoop_local : ∀ (fuel : Nat) (p q : Packet) (raw : MinecraftUDPRaw)
    (r : Packet × MinecraftUDPRaw), kvLoop fuel p raw = some r →
    p.rest.length = q.rest.length →
    p.rest.take (r.1.pos - p.pos) = q.rest.take (r.1.pos - p.pos) →
    ∃ q1, kvLoop fuel q raw = some (q1, r.2) ∧ q1.pos = q.pos + (r.1.pos - p.pos) ∧
      q1.buffer = q.buffer := by
  intro fuel
  induction fuel with
  | zero => intro p q raw r h; simp [kvLoop] at h
  | succ fuel ih =>
    intro p q raw r h hlen htake
    have hpos := kvLoop_pos _ _ _ _ h
    rw [kvLoop] at h
    by_cases hk : p.ReadString.1 = []
    · simp only [hk, if_true, Option.some.injEq] at h
      subst h
      simp only [Packet.pos_ReadString, hk, List.length_nil] at htake ⊢
      have e1 : p.pos + 0 + 1 - p.pos = 1 := by omega
      rw [e1] at htake ⊢
      have hq : q.ReadString.1 = [] := by
        rw [Packet.ReadString_fst] at hk ⊢
        rw [takeWhile_eq_of_take_eq _ p.rest q.rest 1 htake (by rw [hk]; simp), hk]
      refine ⟨q.ReadString.2, ?_, ?_, rfl⟩
      · rw [kvLoop]
        simp [hq]
      · rw [Packet.pos_ReadString, hq]
        rfl
    · simp only [hk, if_false] at h
      have hpos2 := kvLoop_pos _ _ _ _ h
      rw [Packet.pos_ReadString, Packet.pos_ReadString] at hpos2
      have hq : q.ReadString.1 = p.ReadString.1 := by
        rw [Packet.ReadString_fst, Packet.ReadString_fst]
        apply takeWhile_eq_of_take_eq _ p.rest q.rest _ htake
        rw [← Packet.ReadString_fst]
        omega
      have hrest1 : p.ReadString.2.rest.take (r.1.pos - p.ReadString.2.pos) =
          q.ReadString.2.rest.take (r.1.pos - p.ReadString.2.pos) := by
        rw [Packet.rest_ReadString, Packet.rest_ReadString, ← Packet.ReadString_fst,
          ← Packet.ReadString_fst, hq, Packet.pos_ReadString]
        have e : r.1.pos - (p.pos + p.ReadString.1.length + 1) =
            (r.1.pos - p.pos) - (p.ReadString.1.length + 1) := by omega
        rw [e]
        exact take_drop_eq_of_take_eq _ _ _ _ htake (by omega)
      have hlen1 : p.ReadString.2.rest.length = q.ReadString.2.rest.length := by
        rw [Packet.rest_ReadString, Packet.rest_ReadString, ← Packet.ReadString_fst,
          ← Packet.ReadString_fst, hq]
        simp [hlen]
      have hq2 : q.ReadString.2.ReadString.1 = p.ReadString.2.ReadString.1 := by
        rw [Packet.ReadString_fst, Packet.ReadString_fst]
        apply takeWhile_eq_of_take_eq _ _ _ _ hrest1
        rw [← Packet.ReadString_fst, Packet.pos_ReadString]
        omega
      have hrest2 : p.ReadString.2.ReadString.2.rest.take
            (r.1.pos - p.ReadString.2.ReadString.2.pos) =
          q.ReadString.2.ReadString.2.rest.take
            (r.1.pos - p.ReadString.2.ReadString.2.pos) := by
        rw [Packet.rest_ReadString p.ReadString.2, Packet.rest_ReadString q.ReadString.2,
          ← Packet.ReadString_fst, ← Packet.ReadString_fst, hq2,
          Packet.pos_ReadString p.ReadString.2]
        have e : r.1.pos - (p.ReadString.2.pos + p.ReadString.2.ReadString.1.length + 1) =
            (r.1.pos - p.ReadString.2.pos) - (p.ReadString.2.ReadString.1.length + 1) := by
          omega
        rw [e]
        exact take_drop_eq_of_take_eq _ _ _ _ hrest1 (by rw [Packet.pos_ReadString]; omega)
      have hlen2 : p.ReadString.2.ReadString.2.rest.length =
          q.ReadString.2.ReadString.2.rest.length := by
        rw [Packet.rest_ReadString p.ReadString.2, Packet.rest_ReadString q.ReadString.2,
          ← Packet.ReadString_fst, ← Packet.ReadString_fst, hq2]
        simp [hlen1]
      obtain ⟨q1, g1, g2, g3⟩ := ih p.ReadString.2.ReadString.2 q.ReadString.2.ReadString.2 _ r h
        hlen2 hrest2
      refine ⟨q1, ?_, ?_, g3⟩
      · rw [kvLoop]
        have hqk : q.ReadString.1 ≠ [] := by rw [hq]; exact hk
        simp only [hqk, if_false]
        rw [hq, hq2]
        exact g1
      · rw [g2, Packet.pos_ReadString, Packet.pos_ReadString, Packet.pos_ReadString,
          Packet.pos_ReadString, hq, hq2]
        omega

/-- The decoding of a full-stat response reads the bytes the key/value pass
goes over and the bytes from ten past its end: on a buffer of the same length
that agrees with the first on those it returns the same record. -/
theorem decodeStat_local (p q : Packet) (r : Packet × MinecraftUDPRaw)
    (hbuf : p.buffer.length = q.buffer.length) (hpos : p.pos = q.pos)
    (hk : kvLoop (p.buffer.length + 1) (p.Forward 11) MinecraftUDPRaw.zero = some r)
    (h1 : (p.rest.drop 11).take (r.1.pos - (p.pos + 11)) =
      (q.rest.drop 11).take (r.1.pos - (p.pos + 11)))
    (h2 : (p.rest.drop 11).drop (r.1.pos - (p.pos + 11) + 10) =
      (q.rest.drop 11).drop (r.1.pos - (p.pos + 11) + 10)) :
    decodeStat q = decodeStat p := by
  have hposr := kvLoop_pos _ _ _ _ hk
  have hbr := kvLoop_buffer _ _ _ _ hk
  have hlen : (p.Forward 11).rest.length = (q.Forward 11).rest.length := by
    simp [Packet.rest, Packet.Forward, hbuf, hpos]
  obtain ⟨q1, g1, g2, g3⟩ := kvLoop_local _ (p.Forward 11) (q.Forward 11) _ r hk hlen (by
    rw [Packet.rest_Forward, Packet.rest_Forward]
    exact h1)
  have hp10 : (r.1.Forward 10).rest = (p.rest.drop 11).drop (r.1.pos - (p.pos + 11) + 10) := by
    have e : r.1.pos + 10 = p.pos + (11 + (r.1.pos - (p.pos + 11) + 10)) := by
      have : (p.Forward 11).pos = p.pos + 11 := rfl
      omega
    simp only [Packet.rest, Packet.Forward, List.drop_drop, hbr, e, Nat.add_assoc]
  have hq10 : (q1.Forward 10).rest = (q.rest.drop 11).drop (r.1.pos - (p.pos + 11) + 10) := by
    have e : q1.pos + 10 = q.pos + (11 + (r.1.pos - (p.pos + 11) + 10)) := by
      have e1 : (p.Forward 11).pos = p.pos + 11 := rfl
      have e2 : (q.Forward 11).pos = q.pos + 11 := rfl
      omega
    simp only [Packet.rest, Packet.Forward, List.drop_drop, g3, e, Nat.add_assoc]
  have hfp : (r.1.Forward 10).rest.length < p.buffer.length + 1 := by
    have := Packet.length_rest_le (r.1.Forward 10)
    rw [Packet.buffer_Forward, hbr, Packet.buffer_Forward] at this
    omega
  have hfq : (q1.Forward 10).rest.length < p.buffer.length + 1 := by
    have := Packet.length_rest_le (q1.Forward 10)
    rw [Packet.buffer_Forward, g3, Packet.buffer_Forward] at this
    omega
  obtain ⟨pe, hpe⟩ := playerLoop_eq (p.buffer.length + 1) (r.1.Forward 10) r.2 hfp
  obtain ⟨qe, hqe⟩ := playerLoop_eq (p.buffer.length + 1) (q1.Forward 10) r.2 hfq
  obtain ⟨r1, r2⟩ := r
  unfold decodeStat
  rw [← hbuf]
  simp only [hk, g1, hpe, hqe, hp10, hq10, h2]

/-- C1: for every full-stat response that passes the type-tag and session-id
checks and carries a well-formed key/value section `pairs`, `Execute` returns
without error a record in which each text field holds the value of the last
pair with its key (`hostname`, `gametype`, `game_id`, `version`, `plugins`,
`map`, `hostip`), or the empty string when the key never appears, and each
numeric field whose key never appears is 0. The response with the pairs
`hostname=MyServer`, `numplayers=5`, `maxplayers=20`, the padding and the
players `Alice`, `Bob` decodes to `Hostname = "MyServer"`, `NumPlayers = 5`,
`MaxPlayers = 20`, `Players = ["Alice", "Bob"]`. -/
theorem Execute_routes_text_keys :
    (∀ (σ : Type) (helper : NetworkHelper σ) (st : σ) (rnd : Nat) (pad11 rest : List Nat)
      (pairs : List (List Nat × List Nat)),
      pad11.length = 11 → WellFormedKV pairs →
      ReceivesStat helper st rnd
        (statResponse (generateSessionID rnd) pad11 (encodeKV pairs ++ 0 :: rest)) →
      ∃ run raw, Execute helper st rnd = some run ∧ run.err = none ∧
        run.resp.Raw = some raw ∧
        raw.Hostname = (lastValue pairs (str "hostname")).getD [] ∧
        raw.GameType = (lastValue pairs (str "gametype")).getD [] ∧
        raw.GameID = (lastValue pairs (str "game_id")).getD [] ∧
        raw.Version = (lastValue pairs (str "version")).getD [] ∧
        raw.Plugins = (lastValue pairs (str "plugins")).getD [] ∧
        raw.Map = (lastValue pairs (str "map")).getD [] ∧
        raw.HostIP = (lastValue pairs (str "hostip")).getD [] ∧
        (lastValue pairs (str "numplayers") = none → raw.NumPlayers = 0) ∧
        (lastValue pairs (str "maxplayers") = none → raw.MaxPlayers = 0) ∧
        (lastValue pairs (str "hostport") = none → raw.HostPort = 0)) ∧
    (∀ (σ : Type) (helper : NetworkHelper σ) (st : σ) (rnd : Nat)
      (pad11 pad10 trailing : List Nat),
      pad11.length = 11 → pad10.length = 10 →
      ReceivesStat helper st rnd
        (statResponse (generateSessionID rnd) pad11
          (encodeKV [(str "hostname", str "MyServer"), (str "numplayers", str "5"),
              (str "maxplayers", str "20")] ++
            0 :: (pad10 ++ (encodeNames [str "Alice", str "Bob"] ++ 0 :: trailing)))) →
      ∃ run raw, Execute helper st rnd = some run ∧ run.err = none ∧
        run.resp.Raw = some raw ∧ raw.Hostname = str "MyServer" ∧ raw.NumPlayers = 5 ∧
        raw.MaxPlayers = 20 ∧ raw.Players = [str "Alice", str "Bob"] ∧
        raw.GameType = [] ∧ raw.GameID = [] ∧ raw.Version = [] ∧ raw.Plugins = [] ∧
        raw.Map = [] ∧ raw.HostPort = 0 ∧ raw.HostIP = []) := by
  constructor
  · intro σ helper st rnd pad11 rest pairs h11 hw hr
    obtain ⟨ops, hex⟩ := Execute_encoded helper st rnd pad11 rest pairs h11 hw hr
    refine ⟨_, _, hex, rfl, rfl, ?_, ?_, ?_, ?_, ?_, ?_, ?_, ?_, ?_, ?_⟩
    · simpa using routeAll_field MinecraftUDPRaw.Hostname _ id routeKV_Hostname pairs
        MinecraftUDPRaw.zero
    · simpa using routeAll_field MinecraftUDPRaw.GameType _ id routeKV_GameType pairs
        MinecraftUDPRaw.zero
    · simpa using routeAll_field MinecraftUDPRaw.GameID _ id routeKV_GameID pairs
        MinecraftUDPRaw.zero
    · simpa using routeAll_field MinecraftUDPRaw.Version _ id routeKV_Version pairs
        MinecraftUDPRaw.zero
    · simpa using routeAll_field MinecraftUDPRaw.Plugins _ id routeKV_Plugins pairs
        MinecraftUDPRaw.zero
    · simpa using routeAll_field MinecraftUDPRaw.Map _ id routeKV_Map pairs
        MinecraftUDPRaw.zero
    · simpa using routeAll_field MinecraftUDPRaw.HostIP _ id routeKV_HostIP pairs
        MinecraftUDPRaw.zero
    · intro hn
      have h := routeAll_field MinecraftUDPRaw.NumPlayers _ _ routeKV_NumPlayers pairs
        MinecraftUDPRaw.zero
      rw [hn] at h
      exact h
    · intro hn
      have h := routeAll_field MinecraftUDPRaw.MaxPlayers _ _ routeKV_MaxPlayers pairs
        MinecraftUDPRaw.zero
      rw [hn] at h
      exact h
    · intro hn
      have h := routeAll_field MinecraftUDPRaw.HostPort _ _ routeKV_HostPort pairs
        MinecraftUDPRaw.zero
      rw [hn] at h
      exact h
  · intro σ helper st rnd pad11 pad10 trailing h11 h10 hr
    obtain ⟨ops, hex⟩ := Execute_encoded helper st rnd pad11 _ _ h11 (by decide) hr
    refine ⟨_, _, hex, rfl, rfl, ?_⟩
    have hd : (pad10 ++ (encodeNames [str "Alice", str "Bob"] ++ 0 :: trailing)).drop 10 =
        encodeNames [str "Alice", str "Bob"] ++ 0 :: trailing := by
      rw [← h10]; simp
    simp only [hd]
    refine ⟨by decide, by decide, by decide, ?_, by decide, by decide, by decide, by decide,
      by decide, by decide, by decide⟩
    exact takeWhile_splitNull_encodeNames _ trailing (by decide)

theorem Execute_routes_text_keys_witness :
    examplePad11.length = 11 ∧
    WellFormedKV [(str "version", str "1.20"), (str "map", str "old"), (str "map", str "world")] ∧
    ReceivesStat (scriptedHelper (exampleHandshake (str "12345"))
        (exampleStat (encodeKV [(str "version", str "1.20"), (str "map", str "old"),
          (str "map", str "world")] ++ 0 :: examplePad10)))
      0 exampleRnd
      (statResponse (generateSessionID exampleRnd) examplePad11
        (encodeKV [(str "version", str "1.20"), (str "map", str "old"),
          (str "map", str "world")] ++ 0 :: examplePad10)) ∧
    ∃ run raw, Execute (scriptedHelper (exampleHandshake (str "12345"))
        (exampleStat (encodeKV [(str "version", str "1.20"), (str "map", str "old"),
          (str "map", str "world")] ++ 0 :: examplePad10))) 0 exampleRnd = some run ∧
      run.err = none ∧ run.resp.Raw = some raw ∧
      raw.Hostname = (lastValue [(str "version", str "1.20"), (str "map", str "old"),
        (str "map", str "world")] (str "hostname")).getD [] ∧
      raw.GameType = (lastValue [(str "version", str "1.20"), (str "map", str "old"),
        (str "map", str "world")] (str "gametype")).getD [] ∧
      raw.GameID = (lastValue [(str "version", str "1.20"), (str "map", str "old"),
        (str "map", str "world")] (str "game_id")).getD [] ∧
      raw.Version = (lastValue [(str "version", str "1.20"), (str "map", str "old"),
        (str "map", str "world")] (str "version")).getD [] ∧
      raw.Plugins = (lastValue [(str "version", str "1.20"), (str "map", str "old"),
        (str "map", str "world")] (str "plugins")).getD [] ∧
      raw.Map = (lastValue [(str "version", str "1.20"), (str "map", str "old"),
        (str "map", str "world")] (str "map")).getD [] ∧
      raw.HostIP = (lastValue [(str "version", str "1.20"), (str "map", str "old"),
        (str "map", str "world")] (str "hostip")).getD [] ∧
      (lastValue [(str "version", str "1.20"), (str "map", str "old"),
        (str "map", str "world")] (str "numplayers") = none → raw.NumPlayers = 0) ∧
      (lastValue [(str "version", str "1.20"), (str "map", str "old"),
        (str "map", str "world")] (str "maxplayers") = none → raw.MaxPlayers = 0) ∧
      (lastValue [(str "version", str "1.20"), (str "map", str "old"),
        (str "map", str "world")] (str "hostport") = none → raw.HostPort = 0) :=
  ⟨by decide, by decide, exampleReceivesStat (str "12345") [0, 0, 48, 57] _ (by decide) (by decide),
    Execute_routes_text_keys.1 Nat _ 0 exampleRnd examplePad11 examplePad10 _ (by decide)
      (by decide) (exampleReceivesStat (str "12345") [0, 0, 48, 57] _ (by decide) (by decide))⟩

/-- C2 (the code at the failing input): `40000` is the decimal text of an
integer between 0 and 65535, yet a response with `hostport=40000` decodes,
without error, to `HostPort = 32767`. -/
theorem hostport_40000_decodes_to_32767 :
    DecimalInt (str "40000") 40000 ∧
    ∃ run raw, Execute (scriptedHelper (exampleHandshake (str "12345"))
        (exampleStat (encodeKV [(str "hostport", str "40000")] ++ 0 :: examplePad10)))
        0 exampleRnd = some run ∧
      run.err = none ∧ run.resp.Raw = some raw ∧ raw.HostPort = 32767 := by
  refine ⟨⟨str "40000", by decide, by decide, Or.inl ⟨rfl, by decide⟩⟩, ?_⟩
  obtain ⟨ops, hex⟩ := Execute_encoded (scriptedHelper (exampleHandshake (str "12345"))
    (exampleStat (encodeKV [(str "hostport", str "40000")] ++ 0 :: examplePad10))) 0 exampleRnd
    examplePad11 examplePad10 [(str "hostport", str "40000")] (by decide) (by decide)
    (exampleReceivesStat (str "12345") [0, 0, 48, 57] _ (by decide) (by decide))
  exact ⟨_, _, hex, rfl, rfl, by decide⟩

/-- C3 (counterexample): the text `70000` is not a base-10 integer that fits in
16 unsigned bits, yet a response with `numplayers=70000` decodes, without
error, to `NumPlayers = 32767`, not 0. -/
theorem numplayers_70000_not_zero :
    (¬ ∃ c : Int, DecimalInt (str "70000") c ∧ 0 ≤ c ∧ c ≤ 65535) ∧
    ∃ run raw, Execute (scriptedHelper (exampleHandshake (str "12345"))
        (exampleStat (encodeKV [(str "numplayers", str "70000")] ++ 0 :: examplePad10)))
        0 exampleRnd = some run ∧
      run.err = none ∧ run.resp.Raw = some raw ∧ raw.NumPlayers = 32767 ∧
      raw.NumPlayers ≠ 0 := by
  constructor
  · rintro ⟨c, ⟨ds, -, -, hcase⟩, h0, h1⟩
    have hs : str "70000" = [55, 48, 48, 48, 48] := by decide
    rw [hs] at hcase
    rcases hcase with ⟨h, hc⟩ | ⟨h, hc⟩ | ⟨h, hc⟩
    · subst h
      have hv : decimalValue [55, 48, 48, 48, 48] = 70000 := by decide
      rw [hv] at hc
      omega
    · simp at h
    · simp at h
  · obtain ⟨ops, hex⟩ := Execute_encoded (scriptedHelper (exampleHandshake (str "12345"))
      (exampleStat (encodeKV [(str "numplayers", str "70000")] ++ 0 :: examplePad10))) 0
      exampleRnd examplePad11 examplePad10 [(str "numplayers", str "70000")] (by decide)
      (by decide) (exampleReceivesStat (str "12345") [0, 0, 48, 57] _ (by decide) (by decide))
    exact ⟨_, _, hex, rfl, rfl, by decide, by decide⟩

/-- C3 (amended): for every full-stat response that passes the checks and
carries a well-formed key/value section, whatever the value texts are, the run
succeeds (no error is returned); and a numeric field (`NumPlayers`,
`MaxPlayers`, `HostPort`) is 0 when the value text `v` of its key is not a
base-10 integer, signed or not (it is empty, a sign alone, or holds a character
that is not a decimal digit), provided the digits before its first offending
character do not denote more than 65535. -/
theorem Execute_numeric_syntax_error :
    ∀ (σ : Type) (helper : NetworkHelper σ) (st : σ) (rnd : Nat) (pad11 rest : List Nat)
      (pairs : List (List Nat × List Nat)),
      pad11.length = 11 → WellFormedKV pairs →
      ReceivesStat helper st rnd
        (statResponse (generateSessionID rnd) pad11 (encodeKV pairs ++ 0 :: rest)) →
      ∃ run raw, Execute helper st rnd = some run ∧ run.err = none ∧
        run.resp.Raw = some raw ∧
        ∀ v : List Nat, (¬ ∃ c, DecimalInt v c) →
          decimalValue (leadingDigits (unsignedPart v)) ≤ 65535 →
          (lastValue pairs (str "numplayers") = some v → raw.NumPlayers = 0) ∧
          (lastValue pairs (str "maxplayers") = some v → raw.MaxPlayers = 0) ∧
          (lastValue pairs (str "hostport") = some v → raw.HostPort = 0) := by
  intro σ helper st rnd pad11 rest pairs h11 hw hr
  obtain ⟨ops, hex⟩ := Execute_encoded helper st rnd pad11 rest pairs h11 hw hr
  refine ⟨_, _, hex, rfl, rfl, ?_⟩
  intro v hv hl
  have hp : toUint16 (ParseInt v 16).1 = 0 := by
    rw [ParseInt_badText v 16 (by norm_num) hv (by simpa using hl)]
    rfl
  refine ⟨?_, ?_, ?_⟩
  · intro hn
    have h := routeAll_field MinecraftUDPRaw.NumPlayers _ _ routeKV_NumPlayers pairs
      MinecraftUDPRaw.zero
    rw [hn] at h
    exact h.trans hp
  · intro hn
    have h := routeAll_field MinecraftUDPRaw.MaxPlayers _ _ routeKV_MaxPlayers pairs
      MinecraftUDPRaw.zero
    rw [hn] at h
    exact h.trans hp
  · intro hn
    have h := routeAll_field MinecraftUDPRaw.HostPort _ _ routeKV_HostPort pairs
      MinecraftUDPRaw.zero
    rw [hn] at h
    exact h.trans hp

theorem Execute_numeric_syntax_error_witness :
    examplePad11.length = 11 ∧ WellFormedKV [(str "numplayers", str "notanumber")] ∧
    ReceivesStat (scriptedHelper (exampleHandshake (str "12345"))
        (exampleStat (encodeKV [(str "numplayers", str "notanumber")] ++ 0 :: examplePad10)))
      0 exampleRnd
      (statResponse (generateSessionID exampleRnd) examplePad11
        (encodeKV [(str "numplayers", str "notanumber")] ++ 0 :: examplePad10)) ∧
    ∃ run raw, Execute (scriptedHelper (exampleHandshake (str "12345"))
        (exampleStat (encodeKV [(str "numplayers", str "notanumber")] ++ 0 :: examplePad10)))
        0 exampleRnd = some run ∧
      run.err = none ∧ run.resp.Raw = some raw ∧ raw.NumPlayers = 0 := by
  refine ⟨by decide, by decide, exampleReceivesStat (str "12345") [0, 0, 48, 57] _ (by decide) (by decide), ?_⟩
  obtain ⟨run, raw, h1, h2, h3, h4⟩ := Execute_numeric_syntax_error Nat _ 0 exampleRnd
    examplePad11 examplePad10 [(str "numplayers", str "notanumber")] (by decide) (by decide)
    (exampleReceivesStat (str "12345") [0, 0, 48, 57] _ (by decide) (by decide))
  exact ⟨run, raw, h1, h2, h3,
    (h4 (str "notanumber") not_decimalInt_notanumber (by decide)).1 (by decide)⟩

/-- C4: in a run that receives a full-stat response passing the checks, which
always succeeds, `Players` is the sequence of strings cut at the null bytes of
what follows the ten bytes skipped after the key/value pass, up to the first
empty string, which is never a member. When the key/value section is well formed
and the player section holds the non-empty names `names` followed by an empty
string, `Players = names`: order and duplicates are kept. -/
theorem Execute_players :
    ∀ (σ : Type) (helper : NetworkHelper σ) (st : σ) (rnd : Nat) (pad11 body : List Nat),
      ReceivesStat helper st rnd (statResponse (generateSessionID rnd) pad11 body) →
      ∃ run raw p1 raw1, Execute helper st rnd = some run ∧ run.err = none ∧
        run.resp.Raw = some raw ∧
        kvLoop ((statResponse (generateSessionID rnd) pad11 body).length + 1)
          ⟨statResponse (generateSessionID rnd) pad11 body, 5 + 11⟩ MinecraftUDPRaw.zero =
          some (p1, raw1) ∧
        raw.Players = (splitNull (p1.rest.drop 10)).takeWhile (fun s => s ≠ []) ∧
        [] ∉ raw.Players ∧
        ∀ (pairs : List (List Nat × List Nat)) (pad10 trailing : List Nat)
          (names : List (List Nat)),
          pad11.length = 11 → pad10.length = 10 → WellFormedKV pairs →
          (∀ n ∈ names, n ≠ [] ∧ NullFree n) →
          body = encodeKV pairs ++ 0 :: (pad10 ++ (encodeNames names ++ 0 :: trailing)) →
          raw.Players = names := by
  intro σ helper st rnd pad11 body hr
  obtain ⟨p1, raw1, raw, q1, q2, q3⟩ :=
    decodeStat_players ⟨statResponse (generateSessionID rnd) pad11 body, 5⟩
  obtain ⟨ops, hex⟩ := Execute_statResponse helper st rnd pad11 body hr raw q2
  refine ⟨_, raw, p1, raw1, hex, rfl, rfl, q1, q3, ?_, ?_⟩
  · rw [q3]
    exact nil_not_mem_takeWhile _
  · intro pairs pad10 trailing names h11 h10 hw hn hbody
    have hb := generateSessionID_bounds rnd
    have hd := decodeStat_encoded ⟨statResponse (generateSessionID rnd) pad11 body, 5⟩ pad11
      (pad10 ++ (encodeNames names ++ 0 :: trailing)) pairs h11 hw (by
        rw [hbody]
        exact (readHeader 0 (generateSessionID rnd) _ (by omega) (by omega)).2.2.2)
    rw [q2] at hd
    have hd1 := Option.some.inj hd
    rw [hd1]
    show (splitNull ((pad10 ++ (encodeNames names ++ 0 :: trailing)).drop 10)).takeWhile
      (fun s => s ≠ []) = names
    have e : (pad10 ++ (encodeNames names ++ 0 :: trailing)).drop 10 =
        encodeNames names ++ 0 :: trailing := by
      rw [← h10]; simp
    rw [e]
    exact takeWhile_splitNull_encodeNames names trailing hn

theorem Execute_players_witness :
    ReceivesStat (scriptedHelper (exampleHandshake (str "12345"))
        (exampleStat (encodeKV [(str "map", str "world")] ++ 0 :: (examplePad10 ++
          (encodeNames [str "Alice", str "Bob", str "Alice"] ++ 0 :: [0])))))
      0 exampleRnd
      (statResponse (generateSessionID exampleRnd) examplePad11
        (encodeKV [(str "map", str "world")] ++ 0 :: (examplePad10 ++
          (encodeNames [str "Alice", str "Bob", str "Alice"] ++ 0 :: [0])))) ∧
    ∃ run raw, Execute (scriptedHelper (exampleHandshake (str "12345"))
        (exampleStat (encodeKV [(str "map", str "world")] ++ 0 :: (examplePad10 ++
          (encodeNames [str "Alice", str "Bob", str "Alice"] ++ 0 :: [0])))))
        0 exampleRnd = some run ∧
      run.err = none ∧ run.resp.Raw = some raw ∧
      raw.Players = [str "Alice", str "Bob", str "Alice"] := by
  refine ⟨exampleReceivesStat (str "12345") [0, 0, 48, 57] _ (by decide) (by decide), ?_⟩
  obtain ⟨run, raw, p1, raw1, h1, h2, h3, -, -, -, h4⟩ := Execute_players Nat _ 0 exampleRnd
    examplePad11 _ (exampleReceivesStat (str "12345") [0, 0, 48, 57]
      (encodeKV [(str "map", str "world")] ++ 0 :: (examplePad10 ++
          (encodeNames [str "Alice", str "Bob", str "Alice"] ++ 0 :: [0]))) (by decide) (by decide))
  exact ⟨run, raw, h1, h2, h3,
    h4 [(str "map", str "world")] examplePad10 [0] [str "Alice", str "Bob", str "Alice"]
      (by decide) (by decide) (by decide) (by decide) rfl⟩

/-- C5: whatever the transport does, `Execute` ends and its first transport
operation is the `Send` of the 7 bytes `0xFE 0xFD 0x09` followed by the session
identifier `s` as a 4-byte big-endian integer. -/
theorem Execute_first_datagram :
    ∀ (σ : Type) (helper : NetworkHelper σ) (st : σ) (rnd : Nat),
      ∃ (s : Nat) (run : Run) (ops : List TransportOp),
        generateSessionID rnd = (s : Int) ∧ Execute helper st rnd = some run ∧
        run.ops = .send [0xFE, 0xFD, 0x09, s / 2 ^ 24 % 256, s / 2 ^ 16 % 256,
          s / 2 ^ 8 % 256, s % 256] :: ops ∧
        (sentDatagrams run.ops).head? = some [0xFE, 0xFD, 0x09, s / 2 ^ 24 % 256,
          s / 2 ^ 16 % 256, s / 2 ^ 8 % 256, s % 256] := by
  intro σ helper st rnd
  obtain ⟨run, ops, h1, h2⟩ := Execute_total helper st rnd
  have hb : rnd &&& 0x0F0F0F0F ≤ 0x0F0F0F0F := Nat.and_le_right
  have hs : generateSessionID rnd = ((rnd &&& 0x0F0F0F0F : Nat) : Int) := rfl
  rw [hs, handshakeRequest_bytes _ (by omega)] at h2
  refine ⟨rnd &&& 0x0F0F0F0F, run, ops, hs, h1, h2, ?_⟩
  rw [h2]
  rfl

/-- C6: after a handshake response that passes the checks and carries a
challenge text denoting the 32-bit integer `c`, `Execute` sends as its second
datagram exactly the 15 bytes `0xFE 0xFD 0x00`, the session identifier `s` as a
4-byte big-endian integer, the four big-endian bytes of `c`, and four null
bytes; the two datagrams are all it sends. -/
theorem Execute_second_datagram :
    ∀ (σ : Type) (helper : NetworkHelper σ) (st st2 : σ) (rnd : Nat) (token : List Nat)
      (c : Int),
      ReceivesHandshake helper st rnd token st2 → DecimalInt token c → -2 ^ 31 ≤ c →
      c < 2 ^ 31 →
      ∃ (s u : Nat) (run : Run),
        generateSessionID rnd = (s : Int) ∧ (u : Int) = c % 2 ^ 32 ∧
        Execute helper st rnd = some run ∧
        sentDatagrams run.ops =
          [[0xFE, 0xFD, 0x09, s / 2 ^ 24 % 256, s / 2 ^ 16 % 256, s / 2 ^ 8 % 256, s % 256],
           [0xFE, 0xFD, 0x00, s / 2 ^ 24 % 256, s / 2 ^ 16 % 256, s / 2 ^ 8 % 256, s % 256,
            u / 2 ^ 24 % 256, u / 2 ^ 16 % 256, u / 2 ^ 8 % 256, u % 256, 0, 0, 0, 0]] := by
  intro σ helper st st2 rnd token c hh hd hlo hhi
  have hb : rnd &&& 0x0F0F0F0F ≤ 0x0F0F0F0F := Nat.and_le_right
  have hs : generateSessionID rnd = ((rnd &&& 0x0F0F0F0F : Nat) : Int) := rfl
  have hp := parseChallengeToken_of_ParseInt token c
    (ParseInt_of_decimalInt token c 32 (by norm_num) (by norm_num) hd (by simpa using hlo)
      (by simpa using hhi))
  obtain ⟨run, ops, q1, q2, q3⟩ := fullStatExchange_ops helper st2 (generateSessionID rnd) (be32 c)
  refine ⟨rnd &&& 0x0F0F0F0F, (c % 2 ^ 32).toNat, run, hs, by omega, ?_, ?_⟩
  · rw [Execute_handshake_ok helper st st2 rnd token (be32 c) hh hp]
    exact q1
  · rw [q2, hs, handshakeRequest_bytes _ (by omega), fullStatRequest_bytes _ (by omega)]
    rcases q3 with rfl | rfl <;> rfl

theorem Execute_second_datagram_witness :
    ReceivesHandshake (scriptedHelper (exampleHandshake (str "-2")) []) 0 exampleRnd
      (str "-2") 2 ∧ DecimalInt (str "-2") (-2) ∧ (-2 ^ 31 : Int) ≤ -2 ∧ (-2 : Int) < 2 ^ 31 ∧
    ∃ (s u : Nat) (run : Run),
      generateSessionID exampleRnd = (s : Int) ∧ (u : Int) = (-2) % 2 ^ 32 ∧
      Execute (scriptedHelper (exampleHandshake (str "-2")) []) 0 exampleRnd = some run ∧
      sentDatagrams run.ops =
        [[0xFE, 0xFD, 0x09, s / 2 ^ 24 % 256, s / 2 ^ 16 % 256, s / 2 ^ 8 % 256, s % 256],
         [0xFE, 0xFD, 0x00, s / 2 ^ 24 % 256, s / 2 ^ 16 % 256, s / 2 ^ 8 % 256, s % 256,
          u / 2 ^ 24 % 256, u / 2 ^ 16 % 256, u / 2 ^ 8 % 256, u % 256, 0, 0, 0, 0]] :=
  ⟨⟨1, exampleHandshake (str "-2"), rfl, rfl, rfl, rfl, by decide⟩,
    ⟨[50], by decide, by decide, Or.inr (Or.inr ⟨by decide, by decide⟩)⟩, by decide, by decide,
    Execute_second_datagram Nat _ 0 2 exampleRnd (str "-2") (-2)
      ⟨1, exampleHandshake (str "-2"), rfl, rfl, rfl, rfl, by decide⟩
      ⟨[50], by decide, by decide, Or.inr (Or.inr ⟨by decide, by decide⟩)⟩ (by decide)
      (by decide)⟩

/-- C7: for every challenge text that is a base-10 signed integer denoting a
32-bit value `c` (negative values included), `parseChallengeToken` returns,
without error, exactly four bytes, the big-endian two's-complement encoding of
`c`: read back as a big-endian signed 32-bit integer they give `c`. The text
`12345` gives `0x00 0x00 0x30 0x39`. -/
theorem parseChallengeToken_big_endian :
    (∀ (s : List Nat) (c : Int), DecimalInt s c → -2 ^ 31 ≤ c → c < 2 ^ 31 →
      ∃ b0 b1 b2 b3 : Nat, parseChallengeToken s = ([b0, b1, b2, b3], none) ∧
        b0 < 256 ∧ b1 < 256 ∧ b2 < 256 ∧ b3 < 256 ∧
        ((b0 * 2 ^ 24 + b1 * 2 ^ 16 + b2 * 2 ^ 8 + b3 : Nat) : Int) = c % 2 ^ 32 ∧
        toInt32 (b0 * 2 ^ 24 + b1 * 2 ^ 16 + b2 * 2 ^ 8 + b3) = c) ∧
    parseChallengeToken (str "12345") = ([0x00, 0x00, 0x30, 0x39], none) := by
  refine ⟨?_, by decide⟩
  intro s c hd hlo hhi
  have hp := parseChallengeToken_of_ParseInt s c
    (ParseInt_of_decimalInt s c 32 (by norm_num) (by norm_num) hd (by simpa using hlo)
      (by simpa using hhi))
  obtain ⟨b0, b1, b2, b3, hb, r0, r1, r2, r3, r4, r5⟩ := be32_spec c hlo hhi
  rw [hb] at hp
  exact ⟨b0, b1, b2, b3, hp, r0, r1, r2, r3, r4, r5⟩

theorem parseChallengeToken_big_endian_witness :
    DecimalInt (str "-2147483648") (-2147483648) ∧ (-2 ^ 31 : Int) ≤ -2147483648 ∧
    (-2147483648 : Int) < 2 ^ 31 ∧
    ∃ b0 b1 b2 b3 : Nat, parseChallengeToken (str "-2147483648") = ([b0, b1, b2, b3], none) ∧
      b0 < 256 ∧ b1 < 256 ∧ b2 < 256 ∧ b3 < 256 ∧
      ((b0 * 2 ^ 24 + b1 * 2 ^ 16 + b2 * 2 ^ 8 + b3 : Nat) : Int) = (-2147483648) % 2 ^ 32 ∧
      toInt32 (b0 * 2 ^ 24 + b1 * 2 ^ 16 + b2 * 2 ^ 8 + b3) = -2147483648 :=
  ⟨⟨str "2147483648", by decide, by decide, Or.inr (Or.inr ⟨by decide, by decide⟩)⟩,
    by decide, by decide,
    parseChallengeToken_big_endian.1 (str "-2147483648") (-2147483648)
      ⟨str "2147483648", by decide, by decide, Or.inr (Or.inr ⟨by decide, by decide⟩)⟩
      (by decide) (by decide)⟩

/-- C8: `parseChallengeToken` returns an error exactly when the challenge text
is not a base-10 signed integer representable in 32 bits; and when it does
after a handshake response that passed the checks, `Execute` returns that
error with the zero `Response`, the handshake request being the only datagram
sent. -/
theorem parseChallengeToken_error_iff_not_int32 :
    (∀ s : List Nat, (parseChallengeToken s).2 ≠ none ↔
      ¬ ∃ c : Int, DecimalInt s c ∧ -2 ^ 31 ≤ c ∧ c < 2 ^ 31) ∧
    (∀ (σ : Type) (helper : NetworkHelper σ) (st st2 : σ) (rnd : Nat) (token x : List Nat)
      (e : GoError),
      ReceivesHandshake helper st rnd token st2 → parseChallengeToken token = (x, some e) →
      ∃ run, Execute helper st rnd = some run ∧ run.resp = Response.zero ∧
        run.err = some e ∧
        sentDatagrams run.ops = [handshakeRequest (generateSessionID rnd)] ∧
        (sentDatagrams run.ops).length = 1) := by
  constructor
  · intro s
    rw [parseChallengeToken_error_iff]
    constructor
    · rintro h ⟨c, hd, hlo, hhi⟩
      have hp := ParseInt_of_decimalInt s c 32 (by norm_num) (by norm_num) hd
        (by simpa using hlo) (by simpa using hhi)
      rw [hp] at h
      exact h rfl
    · intro h hn
      obtain ⟨c, hd, hlo, hhi⟩ := ParseInt_none s 32 (by norm_num) (by norm_num) hn
      exact h ⟨c, hd, by simpa using hlo, by simpa using hhi⟩
  · intro σ helper st st2 rnd token x e hh hp
    exact ⟨_, Execute_handshake_error helper st st2 rnd token x e hh hp, rfl, rfl, rfl, rfl⟩

theorem parseChallengeToken_error_iff_not_int32_witness :
    ReceivesHandshake (scriptedHelper (exampleHandshake (str "2147483648")) []) 0 exampleRnd
      (str "2147483648") 2 ∧
    parseChallengeToken (str "2147483648") =
      ([], some (.numError ⟨"ParseInt", str "2147483648", .ErrRange⟩)) ∧
    ∃ run, Execute (scriptedHelper (exampleHandshake (str "2147483648")) []) 0 exampleRnd =
        some run ∧ run.resp = Response.zero ∧
      run.err = some (.numError ⟨"ParseInt", str "2147483648", .ErrRange⟩) ∧
      sentDatagrams run.ops = [handshakeRequest (generateSessionID exampleRnd)] ∧
      (sentDatagrams run.ops).length = 1 :=
  ⟨⟨1, exampleHandshake (str "2147483648"), rfl, rfl, rfl, rfl, by decide⟩, by decide,
    parseChallengeToken_error_iff_not_int32.2 Nat _ 0 2 exampleRnd (str "2147483648") []
      (.numError ⟨"ParseInt", str "2147483648", .ErrRange⟩)
      ⟨1, exampleHandshake (str "2147483648"), rfl, rfl, rfl, rfl, by decide⟩ (by decide)⟩

/-- C9: when the first `Send` succeeds and the handshake response starts with a
byte other than `0x09`, whatever follows it, `Execute` fails with the error
"sent a handshake, but didn't receive handshake response back" and the zero
`Response`, and the handshake request is the only datagram sent. -/
theorem Execute_handshake_type_mismatch :
    ∀ (σ : Type) (helper : NetworkHelper σ) (st st1 st2 : σ) (rnd : Nat) (b : Nat)
      (rest : List Nat),
      helper.Send st (handshakeRequest (generateSessionID rnd)) = (none, st1) →
      helper.Receive st1 = (.ok (b :: rest), st2) → b ≠ 0x09 →
      ∃ run, Execute helper st rnd = some run ∧ run.resp = Response.zero ∧
        run.err = some (.errorsNew
          "sent a handshake, but didn't receive handshake response back") ∧
        run.ops = [.send (handshakeRequest (generateSessionID rnd)), .receive] ∧
        sentDatagrams run.ops = [handshakeRequest (generateSessionID rnd)] := by
  intro σ helper st st1 st2 rnd b rest h1 h2 hb
  have ht : (Packet.ofBytes (b :: rest)).ReadUint8.1 ≠ 0x09 := hb
  simp only [Execute, h1, h2]
  rw [if_pos ht]
  exact ⟨_, rfl, rfl, rfl, rfl, rfl⟩

theorem Execute_handshake_type_mismatch_witness :
    (scriptedHelper (0x00 :: (be32 (generateSessionID exampleRnd) ++ str "12345" ++ [0])) []).Send
      0 (handshakeRequest (generateSessionID exampleRnd)) = (none, 1) ∧
    (scriptedHelper (0x00 :: (be32 (generateSessionID exampleRnd) ++ str "12345" ++ [0]))
      []).Receive 1 =
      (.ok (0x00 :: (be32 (generateSessionID exampleRnd) ++ str "12345" ++ [0])), 2) ∧
    (0x00 : Nat) ≠ 0x09 ∧
    ∃ run, Execute (scriptedHelper
        (0x00 :: (be32 (generateSessionID exampleRnd) ++ str "12345" ++ [0])) []) 0 exampleRnd =
        some run ∧ run.resp = Response.zero ∧
      run.err = some (.errorsNew
        "sent a handshake, but didn't receive handshake response back") ∧
      run.ops = [.send (handshakeRequest (generateSessionID exampleRnd)), .receive] ∧
      sentDatagrams run.ops = [handshakeRequest (generateSessionID exampleRnd)] :=
  ⟨rfl, rfl, by decide,
    Execute_handshake_type_mismatch Nat _ 0 1 2 exampleRnd 0x00
      (be32 (generateSessionID exampleRnd) ++ str "12345" ++ [0]) rfl rfl (by decide)⟩

/-- C10: when the first `Send` succeeds and the handshake response starts with
`0x09` followed by four bytes whose big-endian 32-bit value is not the session
identifier that was sent, `Execute` fails with the error "received handshake
for wrong session id", a message other than that of the type mismatch, and the
handshake request is the only datagram sent. -/
theorem Execute_handshake_wrong_session :
    ∀ (σ : Type) (helper : NetworkHelper σ) (st st1 st2 : σ) (rnd : Nat) (b0 b1 b2 b3 : Nat)
      (rest : List Nat),
      helper.Send st (handshakeRequest (generateSessionID rnd)) = (none, st1) →
      helper.Receive st1 = (.ok (0x09 :: b0 :: b1 :: b2 :: b3 :: rest), st2) →
      toInt32 (b0 * 2 ^ 24 + b1 * 2 ^ 16 + b2 * 2 ^ 8 + b3) ≠ generateSessionID rnd →
      ∃ run, Execute helper st rnd = some run ∧ run.resp = Response.zero ∧
        run.err = some (.errorsNew "received handshake for wrong session id") ∧
        run.err ≠ some (.errorsNew
          "sent a handshake, but didn't receive handshake response back") ∧
        run.ops = [.send (handshakeRequest (generateSessionID rnd)), .receive] ∧
        sentDatagrams run.ops = [handshakeRequest (generateSessionID rnd)] := by
  intro σ helper st st1 st2 rnd b0 b1 b2 b3 rest h1 h2 hs
  have ht : ¬ (Packet.ofBytes (0x09 :: b0 :: b1 :: b2 :: b3 :: rest)).ReadUint8.1 ≠ 0x09 :=
    fun h => h rfl
  have hs1 : (Packet.ofBytes (0x09 :: b0 :: b1 :: b2 :: b3 :: rest)).ReadUint8.2.ReadInt32.1 ≠
      generateSessionID rnd := hs
  simp only [Execute, h1, h2]
  rw [if_neg ht, if_pos hs1]
  exact ⟨_, rfl, rfl, rfl,
    fun h => absurd (GoError.errorsNew.inj (Option.some.inj h)) (by decide), rfl, rfl⟩

theorem Execute_handshake_wrong_session_witness :
    (scriptedHelper [0x09, 0x02, 0x04, 0x06, 0x09, 0x31, 0x00] []).Send
      0 (handshakeRequest (generateSessionID exampleRnd)) = (none, 1) ∧
    (scriptedHelper [0x09, 0x02, 0x04, 0x06, 0x09, 0x31, 0x00] []).Receive 1 =
      (.ok [0x09, 0x02, 0x04, 0x06, 0x09, 0x31, 0x00], 2) ∧
    toInt32 (0x02 * 2 ^ 24 + 0x04 * 2 ^ 16 + 0x06 * 2 ^ 8 + 0x09) ≠
      generateSessionID exampleRnd ∧
    ∃ run, Execute (scriptedHelper [0x09, 0x02, 0x04, 0x06, 0x09, 0x31, 0x00] []) 0
        exampleRnd = some run ∧ run.resp = Response.zero ∧
      run.err = some (.errorsNew "received handshake for wrong session id") ∧
      run.err ≠ some (.errorsNew
        "sent a handshake, but didn't receive handshake response back") ∧
      run.ops = [.send (handshakeRequest (generateSessionID exampleRnd)), .receive] ∧
      sentDatagrams run.ops = [handshakeRequest (generateSessionID exampleRnd)] :=
  ⟨rfl, rfl, by decide,
    Execute_handshake_wrong_session Nat _ 0 1 2 exampleRnd 0x02 0x04 0x06 0x09 [0x31, 0x00]
      rfl rfl (by decide)⟩

/-- C12: for every value `rnd` of the random source, the session identifier
`rnd AND 0x0F0F0F0F` has `id AND 0xF0F0F0F0 = 0`, the high nibble of each of
its four bytes is zero (each byte is below 16), and it is a non-negative
32-bit signed integer no greater than `0x0F0F0F0F`. -/
theorem generateSessionID_masked :
    ∀ rnd : Nat, ∃ s : Nat, generateSessionID rnd = (s : Int) ∧ s = rnd &&& 0x0F0F0F0F ∧
      s &&& 0xF0F0F0F0 = 0 ∧
      s / 2 ^ 24 % 256 < 16 ∧ s / 2 ^ 16 % 256 < 16 ∧ s / 2 ^ 8 % 256 < 16 ∧ s % 256 < 16 ∧
      0 ≤ generateSessionID rnd ∧ generateSessionID rnd ≤ 0x0F0F0F0F ∧
      generateSessionID rnd < 2 ^ 31 := by
  intro rnd
  have hb := generateSessionID_bounds rnd
  refine ⟨rnd &&& 0x0F0F0F0F, rfl, rfl, ?_, byte_of_masked_lt rnd 24 (by simp),
    byte_of_masked_lt rnd 16 (by simp), byte_of_masked_lt rnd 8 (by simp), ?_, hb.1, hb.2,
    by omega⟩
  · rw [Nat.and_assoc]
    have : (0x0F0F0F0F : Nat) &&& 0xF0F0F0F0 = 0 := by decide
    rw [this, Nat.and_zero]
  · simpa using byte_of_masked_lt rnd 0 (by simp)

/-- C13: if one of the four transport operations of a run fails with the error
`e` (the first `Send`, the first `Receive`, the second `Send` or the second
`Receive`), `Execute` returns exactly `e`, with the zero `Response`, and the
failed operation is the last transport operation of the run; after a failed
first `Send` or first `Receive` the handshake request is the only datagram
sent. -/
theorem Execute_transport_failure :
    (∀ (σ : Type) (helper : NetworkHelper σ) (st st1 : σ) (rnd : Nat) (e : GoError),
      helper.Send st (handshakeRequest (generateSessionID rnd)) = (some e, st1) →
      ∃ run, Execute helper st rnd = some run ∧ run.err = some e ∧
        run.resp = Response.zero ∧
        run.ops = [.send (handshakeRequest (generateSessionID rnd))] ∧
        sentDatagrams run.ops = [handshakeRequest (generateSessionID rnd)]) ∧
    (∀ (σ : Type) (helper : NetworkHelper σ) (st st1 st2 : σ) (rnd : Nat) (e : GoError),
      helper.Send st (handshakeRequest (generateSessionID rnd)) = (none, st1) →
      helper.Receive st1 = (.error e, st2) →
      ∃ run, Execute helper st rnd = some run ∧ run.err = some e ∧
        run.resp = Response.zero ∧
        run.ops = [.send (handshakeRequest (generateSessionID rnd)), .receive] ∧
        sentDatagrams run.ops = [handshakeRequest (generateSessionID rnd)]) ∧
    (∀ (σ : Type) (helper : NetworkHelper σ) (st st2 st3 : σ) (rnd : Nat)
      (token ct : List Nat) (e : GoError),
      ReceivesHandshake helper st rnd token st2 → parseChallengeToken token = (ct, none) →
      helper.Send st2 (fullStatRequest (generateSessionID rnd) ct) = (some e, st3) →
      ∃ run, Execute helper st rnd = some run ∧ run.err = some e ∧
        run.resp = Response.zero ∧
        run.ops = [.send (handshakeRequest (generateSessionID rnd)), .receive,
          .send (fullStatRequest (generateSessionID rnd) ct)]) ∧
    (∀ (σ : Type) (helper : NetworkHelper σ) (st st2 st3 st4 : σ) (rnd : Nat)
      (token ct : List Nat) (e : GoError),
      ReceivesHandshake helper st rnd token st2 → parseChallengeToken token = (ct, none) →
      helper.Send st2 (fullStatRequest (generateSessionID rnd) ct) = (none, st3) →
      helper.Receive st3 = (.error e, st4) →
      ∃ run, Execute helper st rnd = some run ∧ run.err = some e ∧
        run.resp = Response.zero ∧
        run.ops = [.send (handshakeRequest (generateSessionID rnd)), .receive,
          .send (fullStatRequest (generateSessionID rnd) ct), .receive]) := by
  refine ⟨?_, ?_, ?_, ?_⟩
  · intro σ helper st st1 rnd e h1
    exact ⟨_, Execute_send_failed helper st st1 rnd e h1, rfl, rfl, rfl, rfl⟩
  · intro σ helper st st1 st2 rnd e h1 h2
    exact ⟨_, Execute_receive_failed helper st st1 st2 rnd e h1 h2, rfl, rfl, rfl, rfl⟩
  · intro σ helper st st2 st3 rnd token ct e hh hp h1
    rw [Execute_handshake_ok helper st st2 rnd token ct hh hp]
    exact ⟨_, fullStatExchange_send_failed helper st2 st3 _ ct e h1, rfl, rfl, rfl⟩
  · intro σ helper st st2 st3 st4 rnd token ct e hh hp h1 h2
    rw [Execute_handshake_ok helper st st2 rnd token ct hh hp]
    exact ⟨_, fullStatExchange_receive_failed helper st2 st3 st4 _ ct e h1 h2, rfl, rfl, rfl⟩

theorem Execute_transport_failure_witness :
    (failingHelper 0 (.transport 110) (exampleHandshake (str "12345")) []).Send 0
      (handshakeRequest (generateSessionID exampleRnd)) = (some (.transport 110), 1) ∧
    (∃ run, Execute (failingHelper 0 (.transport 110) (exampleHandshake (str "12345")) []) 0
        exampleRnd = some run ∧ run.err = some (.transport 110) ∧
      run.resp = Response.zero ∧
      run.ops = [.send (handshakeRequest (generateSessionID exampleRnd))] ∧
      sentDatagrams run.ops = [handshakeRequest (generateSessionID exampleRnd)]) ∧
    ReceivesHandshake (failingHelper 3 (.transport 110) (exampleHandshake (str "12345")) []) 0
      exampleRnd (str "12345") 2 ∧
    parseChallengeToken (str "12345") = ([0, 0, 48, 57], none) ∧
    (failingHelper 3 (.transport 110) (exampleHandshake (str "12345")) []).Send 2
      (fullStatRequest (generateSessionID exampleRnd) [0, 0, 48, 57]) = (none, 3) ∧
    (failingHelper 3 (.transport 110) (exampleHandshake (str "12345")) []).Receive 3 =
      (.error (.transport 110), 4) ∧
    (∃ run, Execute (failingHelper 3 (.transport 110) (exampleHandshake (str "12345")) []) 0
        exampleRnd = some run ∧ run.err = some (.transport 110) ∧
      run.resp = Response.zero ∧
      run.ops = [.send (handshakeRequest (generateSessionID exampleRnd)), .receive,
        .send (fullStatRequest (generateSessionID exampleRnd) [0, 0, 48, 57]), .receive]) :=
  ⟨rfl,
    Execute_transport_failure.1 Nat _ 0 1 exampleRnd (.transport 110) rfl,
    ⟨1, exampleHandshake (str "12345"), rfl, rfl, rfl, rfl, by decide⟩, by decide, rfl, rfl,
    Execute_transport_failure.2.2.2 Nat _ 0 2 3 4 exampleRnd (str "12345") [0, 0, 48, 57]
      (.transport 110) ⟨1, exampleHandshake (str "12345"), rfl, rfl, rfl, rfl, by decide⟩
      (by decide) rfl rfl⟩

/-- C14: whenever `Execute` returns a non-nil error the `Response` it returns
is the zero value, and a `Response` other than the zero value comes with a nil
error only; `Execute` always returns. -/
theorem Execute_no_partial_result :
    ∀ (σ : Type) (helper : NetworkHelper σ) (st : σ) (rnd : Nat),
      (∃ run, Execute helper st rnd = some run) ∧
      ∀ run, Execute helper st rnd = some run →
        (run.err ≠ none → run.resp = Response.zero) ∧
        (run.resp ≠ Response.zero → run.err = none) := by
  intro σ helper st rnd
  obtain ⟨run0, h0, hshape⟩ := Execute_shape helper st rnd
  refine ⟨⟨run0, h0⟩, ?_⟩
  intro run hrun
  rw [h0] at hrun
  have hr : run0 = run := Option.some.inj hrun
  subst hr
  rcases hshape with ⟨e, h1, h2⟩ | ⟨raw, h1, h2⟩
  · exact ⟨fun _ => h2, fun h => absurd h2 h⟩
  · exact ⟨fun h => absurd h1 h, fun _ => h1⟩

theorem Execute_no_partial_result_witness :
    Execute (failingHelper 1 (.transport 110) (exampleHandshake (str "12345")) []) 0
      exampleRnd = some ⟨Response.zero, some (.transport 110),
        [.send (handshakeRequest (generateSessionID exampleRnd)), .receive]⟩ ∧
    ((some (GoError.transport 110) ≠ none → Response.zero = Response.zero) ∧
      (Response.zero ≠ Response.zero → some (GoError.transport 110) = none)) :=
  ⟨rfl, (Execute_no_partial_result Nat
    (failingHelper 1 (.transport 110) (exampleHandshake (str "12345")) []) 0 exampleRnd).2
    ⟨Response.zero, some (.transport 110),
      [.send (handshakeRequest (generateSessionID exampleRnd)), .receive]⟩ rfl⟩

/-- C15: a key/value pair whose key is not, byte for byte, one of `hostname`,
`gametype`, `game_id`, `version`, `plugins`, `map`, `numplayers`,
`maxplayers`, `hostport`, `hostip` changes no field of the record, and both its
strings are passed over: the run on a response holding the pair and the run on
the response without it both succeed and return the same `Response`. `Hostname`
and `motd` are such keys. -/
theorem Execute_unrecognised_key :
    (∀ (raw : MinecraftUDPRaw) (key val : List Nat), key ∉ recognisedKeys →
      routeKV raw key val = raw) ∧
    (∀ (σ τ : Type) (helper : NetworkHelper σ) (st : σ) (rnd : Nat) (helper1 : NetworkHelper τ)
      (st1 : τ) (rnd1 : Nat) (pad11 pad11b rest : List Nat)
      (pairs1 pairs2 : List (List Nat × List Nat)) (key val : List Nat),
      key ∉ recognisedKeys → pad11.length = 11 → pad11b.length = 11 →
      WellFormedKV (pairs1 ++ (key, val) :: pairs2) →
      ReceivesStat helper st rnd (statResponse (generateSessionID rnd) pad11
        (encodeKV (pairs1 ++ (key, val) :: pairs2) ++ 0 :: rest)) →
      ReceivesStat helper1 st1 rnd1 (statResponse (generateSessionID rnd1) pad11b
        (encodeKV (pairs1 ++ pairs2) ++ 0 :: rest)) →
      ∃ run run1 raw, Execute helper st rnd = some run ∧
        Execute helper1 st1 rnd1 = some run1 ∧ run.err = none ∧ run1.err = none ∧
        run.resp = ⟨some raw⟩ ∧ run1.resp = ⟨some raw⟩) ∧
    str "Hostname" ∉ recognisedKeys ∧ str "motd" ∉ recognisedKeys := by
  refine ⟨routeKV_unrecognised, ?_, by decide, by decide⟩
  intro σ τ helper st rnd helper1 st1 rnd1 pad11 pad11b rest pairs1 pairs2 key val hk h11 h11b
    hw hr hr1
  obtain ⟨ops, hex⟩ := Execute_encoded helper st rnd pad11 rest _ h11 hw hr
  obtain ⟨ops1, hex1⟩ := Execute_encoded helper1 st1 rnd1 pad11b rest _ h11b
    (WellFormedKV_remove pairs1 pairs2 (key, val) hw) hr1
  have e : routeAll MinecraftUDPRaw.zero (pairs1 ++ (key, val) :: pairs2) =
      routeAll MinecraftUDPRaw.zero (pairs1 ++ pairs2) := by
    rw [routeAll_append, routeAll_cons, routeKV_unrecognised _ key val hk, ← routeAll_append]
  rw [e] at hex
  exact ⟨_, _, _, hex, hex1, rfl, rfl, rfl, rfl⟩

theorem Execute_unrecognised_key_witness :
    str "motd" ∉ recognisedKeys ∧ examplePad11.length = 11 ∧
    WellFormedKV ([(str "hostname", str "A")] ++ (str "motd", str "hi") ::
      [(str "map", str "world")]) ∧
    ∃ run run1 raw,
      Execute (scriptedHelper (exampleHandshake (str "12345"))
        (exampleStat (encodeKV ([(str "hostname", str "A")] ++ (str "motd", str "hi") ::
          [(str "map", str "world")]) ++ 0 :: examplePad10))) 0 exampleRnd = some run ∧
      Execute (scriptedHelper (exampleHandshake (str "12345"))
        (exampleStat (encodeKV ([(str "hostname", str "A")] ++
          [(str "map", str "world")]) ++ 0 :: examplePad10))) 0 exampleRnd = some run1 ∧
      run.err = none ∧ run1.err = none ∧ run.resp = ⟨some raw⟩ ∧ run1.resp = ⟨some raw⟩ :=
  ⟨by decide, by decide, by decide,
    Execute_unrecognised_key.2.1 Nat Nat _ 0 exampleRnd _ 0 exampleRnd examplePad11 examplePad11
      examplePad10 [(str "hostname", str "A")] [(str "map", str "world")] (str "motd")
      (str "hi") (by decide) (by decide) (by decide) (by decide)
      (exampleReceivesStat (str "12345") [0, 0, 48, 57] _ (by decide) (by decide))
      (exampleReceivesStat (str "12345") [0, 0, 48, 57] _ (by decide) (by decide))⟩

/-- C16: every run that receives a full-stat response passing the type-tag and
session-id checks ends with a record and a nil error, both loops having
stopped. When the key/value section runs to the very end of the datagram (no
empty key, no padding after the last pair) the record is the one all its pairs
route to, with no player; when the last player name ends the datagram (no empty
string after it) `Players` holds all the names. -/
theorem Execute_decoding_terminates :
    (∀ (σ : Type) (helper : NetworkHelper σ) (st : σ) (rnd : Nat) (data2 : List Nat),
      ReceivesStat helper st rnd data2 → (Packet.ofBytes data2).ReadUint8.1 = 0x00 →
      (Packet.ofBytes data2).ReadUint8.2.ReadInt32.1 = generateSessionID rnd →
      ∃ run raw, Execute helper st rnd = some run ∧ run.err = none ∧
        run.resp = ⟨some raw⟩) ∧
    (∀ (σ : Type) (helper : NetworkHelper σ) (st : σ) (rnd : Nat) (pad11 : List Nat)
      (pairs : List (List Nat × List Nat)),
      pad11.length = 11 → WellFormedKV pairs →
      ReceivesStat helper st rnd
        (statResponse (generateSessionID rnd) pad11 (encodeKV pairs)) →
      ∃ run raw, Execute helper st rnd = some run ∧ run.err = none ∧
        run.resp = ⟨some raw⟩ ∧ raw = routeAll MinecraftUDPRaw.zero pairs ∧
        raw.Players = [] ∧
        raw.Hostname = (lastValue pairs (str "hostname")).getD [] ∧
        raw.GameType = (lastValue pairs (str "gametype")).getD [] ∧
        raw.GameID = (lastValue pairs (str "game_id")).getD [] ∧
        raw.Version = (lastValue pairs (str "version")).getD [] ∧
        raw.Plugins = (lastValue pairs (str "plugins")).getD [] ∧
        raw.Map = (lastValue pairs (str "map")).getD [] ∧
        raw.HostIP = (lastValue pairs (str "hostip")).getD []) ∧
    (∀ (σ : Type) (helper : NetworkHelper σ) (st : σ) (rnd : Nat) (pad11 pad10 : List Nat)
      (pairs : List (List Nat × List Nat)) (names : List (List Nat)),
      pad11.length = 11 → pad10.length = 10 → WellFormedKV pairs →
      (∀ n ∈ names, n ≠ [] ∧ NullFree n) →
      ReceivesStat helper st rnd
        (statResponse (generateSessionID rnd) pad11
          (encodeKV pairs ++ 0 :: (pad10 ++ encodeNames names))) →
      ∃ run raw, Execute helper st rnd = some run ∧ run.err = none ∧
        run.resp = ⟨some raw⟩ ∧
        raw = { routeAll MinecraftUDPRaw.zero pairs with Players := names }) := by
  refine ⟨?_, ?_, ?_⟩
  · intro σ helper st rnd data2 hr ht hs
    obtain ⟨raw, ops, hex⟩ := Execute_passes_checks helper st rnd data2 hr ht hs
    exact ⟨_, raw, hex, rfl, rfl⟩
  · intro σ helper st rnd pad11 pairs h11 hw hr
    have hb := generateSessionID_bounds rnd
    have hd := decodeStat_encoded_end
      ⟨statResponse (generateSessionID rnd) pad11 (encodeKV pairs), 5⟩ pad11 pairs h11 hw
      (readHeader 0 (generateSessionID rnd) _ (by omega) (by omega)).2.2.2
    obtain ⟨ops, hex⟩ := Execute_statResponse helper st rnd pad11 _ hr _ hd
    obtain ⟨f1, f2, f3, f4, f5, f6, f7⟩ := routeAll_text_fields pairs
    exact ⟨_, _, hex, rfl, rfl, rfl, routeAll_Players pairs MinecraftUDPRaw.zero,
      f1, f2, f3, f4, f5, f6, f7⟩
  · intro σ helper st rnd pad11 pad10 pairs names h11 h10 hw hn hr
    obtain ⟨ops, hex⟩ := Execute_encoded helper st rnd pad11 _ pairs h11 hw hr
    refine ⟨_, _, hex, rfl, rfl, ?_⟩
    have e : (pad10 ++ encodeNames names).drop 10 = encodeNames names := by
      rw [← h10]; simp
    rw [e, takeWhile_splitNull_encodeNames_end names hn]

theorem Execute_decoding_terminates_witness :
    examplePad11.length = 11 ∧
    WellFormedKV [(str "hostname", str "A"), (str "map", str "world")] ∧
    ∃ run raw, Execute (scriptedHelper (exampleHandshake (str "12345"))
        (exampleStat (encodeKV [(str "hostname", str "A"), (str "map", str "world")])))
        0 exampleRnd = some run ∧
      run.err = none ∧ run.resp = ⟨some raw⟩ ∧ raw.Players = [] ∧
      raw.Hostname = str "A" ∧ raw.Map = str "world" := by
  obtain ⟨run, raw, h1, h2, h3, -, h4, h5, -, -, -, -, h6, -⟩ :=
    Execute_decoding_terminates.2.1 Nat _ 0 exampleRnd examplePad11
      [(str "hostname", str "A"), (str "map", str "world")] (by decide) (by decide)
      (exampleReceivesStat (str "12345") [0, 0, 48, 57]
        (encodeKV [(str "hostname", str "A"), (str "map", str "world")]) (by decide)
        (by decide))
  exact ⟨by decide, by decide, run, raw, h1, h2, h3, h4, h5.trans (by decide),
    h6.trans (by decide)⟩

/-- C17: an empty value does not end the key/value pass. For a text key `key`
followed at once by a null byte, the pairs after it are still routed: each text
field holds the value of the last later pair with its key, or else the empty
string if its key is `key`, or else what the earlier pairs gave it. With
`plugins` empty and `map=world` after it, `Plugins` is empty and `Map` is
`world`. -/
theorem Execute_empty_value_continues :
    (∀ (σ : Type) (helper : NetworkHelper σ) (st : σ) (rnd : Nat) (pad11 rest : List Nat)
      (pairs1 pairs2 : List (List Nat × List Nat)) (key : List Nat),
      pad11.length = 11 → WellFormedKV (pairs1 ++ (key, []) :: pairs2) →
      ReceivesStat helper st rnd (statResponse (generateSessionID rnd) pad11
        (encodeKV (pairs1 ++ (key, []) :: pairs2) ++ 0 :: rest)) →
      ∃ run raw, Execute helper st rnd = some run ∧ run.err = none ∧
        run.resp = ⟨some raw⟩ ∧
        raw = { routeAll (routeKV (routeAll MinecraftUDPRaw.zero pairs1) key []) pairs2 with
          Players := (splitNull (rest.drop 10)).takeWhile (fun s => s ≠ []) } ∧
        raw.Hostname = (lastValue pairs2 (str "hostname")).getD
          (if key = str "hostname" then [] else (lastValue pairs1 (str "hostname")).getD []) ∧
        raw.GameType = (lastValue pairs2 (str "gametype")).getD
          (if key = str "gametype" then [] else (lastValue pairs1 (str "gametype")).getD []) ∧
        raw.GameID = (lastValue pairs2 (str "game_id")).getD
          (if key = str "game_id" then [] else (lastValue pairs1 (str "game_id")).getD []) ∧
        raw.Version = (lastValue pairs2 (str "version")).getD
          (if key = str "version" then [] else (lastValue pairs1 (str "version")).getD []) ∧
        raw.Plugins = (lastValue pairs2 (str "plugins")).getD
          (if key = str "plugins" then [] else (lastValue pairs1 (str "plugins")).getD []) ∧
        raw.Map = (lastValue pairs2 (str "map")).getD
          (if key = str "map" then [] else (lastValue pairs1 (str "map")).getD []) ∧
        raw.HostIP = (lastValue pairs2 (str "hostip")).getD
          (if key = str "hostip" then [] else (lastValue pairs1 (str "hostip")).getD [])) ∧
    (∀ (σ : Type) (helper : NetworkHelper σ) (st : σ) (rnd : Nat) (pad11 rest : List Nat),
      pad11.length = 11 →
      ReceivesStat helper st rnd (statResponse (generateSessionID rnd) pad11
        (encodeKV [(str "plugins", str "old"), (str "plugins", []), (str "map", str "world")]
          ++ 0 :: rest)) →
      ∃ run raw, Execute helper st rnd = some run ∧ run.err = none ∧
        run.resp = ⟨some raw⟩ ∧ raw.Plugins = [] ∧ raw.Map = str "world") := by
  constructor
  · intro σ helper st rnd pad11 rest pairs1 pairs2 key h11 hw hr
    obtain ⟨ops, hex⟩ := Execute_encoded helper st rnd pad11 rest _ h11 hw hr
    obtain ⟨f1, f2, f3, f4, f5, f6, f7⟩ := routeAll_text_fields (pairs1 ++ (key, []) :: pairs2)
    refine ⟨_, _, hex, rfl, rfl, ?_, ?_, ?_, ?_, ?_, ?_, ?_, ?_⟩
    · rw [routeAll_append, routeAll_cons]
    · exact f1.trans (lastValue_split _ _ _ _ _)
    · exact f2.trans (lastValue_split _ _ _ _ _)
    · exact f3.trans (lastValue_split _ _ _ _ _)
    · exact f4.trans (lastValue_split _ _ _ _ _)
    · exact f5.trans (lastValue_split _ _ _ _ _)
    · exact f6.trans (lastValue_split _ _ _ _ _)
    · exact f7.trans (lastValue_split _ _ _ _ _)
  · intro σ helper st rnd pad11 rest h11 hr
    obtain ⟨ops, hex⟩ := Execute_encoded helper st rnd pad11 rest _ h11 (by decide) hr
    have e1 : (routeAll MinecraftUDPRaw.zero
        [(str "plugins", str "old"), (str "plugins", []), (str "map", str "world")]).Plugins =
        [] := by decide
    have e2 : (routeAll MinecraftUDPRaw.zero
        [(str "plugins", str "old"), (str "plugins", []), (str "map", str "world")]).Map =
        str "world" := by decide
    exact ⟨_, _, hex, rfl, rfl, e1, e2⟩

theorem Execute_empty_value_continues_witness :
    examplePad11.length = 11 ∧
    WellFormedKV ([(str "version", str "1.20")] ++ (str "version", []) ::
      [(str "hostip", str "10.0.0.1")]) ∧
    ∃ run raw, Execute (scriptedHelper (exampleHandshake (str "12345"))
        (exampleStat (encodeKV ([(str "version", str "1.20")] ++ (str "version", []) ::
          [(str "hostip", str "10.0.0.1")]) ++ 0 :: examplePad10))) 0 exampleRnd = some run ∧
      run.err = none ∧ run.resp = ⟨some raw⟩ ∧ raw.Version = [] ∧
      raw.HostIP = str "10.0.0.1" := by
  obtain ⟨run, raw, h1, h2, h3, -, -, -, -, h4, -, -, h5⟩ :=
    Execute_empty_value_continues.1 Nat _ 0 exampleRnd examplePad11 examplePad10
      [(str "version", str "1.20")] [(str "hostip", str "10.0.0.1")] (str "version")
      (by decide) (by decide)
      (exampleReceivesStat (str "12345") [0, 0, 48, 57] _ (by decide) (by decide))
  exact ⟨by decide, by decide, run, raw, h1, h2, h3, h4.trans (by decide),
    h5.trans (by decide)⟩

/-- C19 (counterexample): the text `70000x` is not a base-10 integer, yet a
response with `numplayers=70000x` decodes, without error, to
`NumPlayers = 32767`, not 0. -/
theorem numplayers_70000x_not_zero :
    (¬ ∃ n : Int, DecimalInt (str "70000x") n) ∧
    ∃ run raw, Execute (scriptedHelper (exampleHandshake (str "12345"))
        (exampleStat (encodeKV [(str "numplayers", str "70000x")] ++ 0 :: examplePad10)))
        0 exampleRnd = some run ∧
      run.err = none ∧ run.resp.Raw = some raw ∧ raw.NumPlayers = 32767 ∧
      raw.NumPlayers ≠ 0 := by
  refine ⟨not_decimalInt_70000x, ?_⟩
  obtain ⟨ops, hex⟩ := Execute_encoded (scriptedHelper (exampleHandshake (str "12345"))
    (exampleStat (encodeKV [(str "numplayers", str "70000x")] ++ 0 :: examplePad10))) 0
    exampleRnd examplePad11 examplePad10 [(str "numplayers", str "70000x")] (by decide)
    (by decide) (exampleReceivesStat (str "12345") [0, 0, 48, 57] _ (by decide) (by decide))
  exact ⟨_, _, hex, rfl, rfl, by decide, by decide⟩

/-- C19 (amended): in a run that receives a full-stat response with a
well-formed key/value section, which never fails, each of `NumPlayers`,
`MaxPlayers`, `HostPort` is `uint16` of the value `ParseInt` returns for the
last value text `v` of its key, and that number is: `n mod 65536` when `v` is
an optionally signed base-10 integer `n` with `-32768 ≤ n ≤ 32767`; 32767 when
it is a base-10 integer `n > 32767`; 32768 when it is a base-10 integer
`n < -32768`; and for a text that is not a base-10 integer, 0 when the digits
before its first offending character denote at most 65535, and otherwise
32768 if the text starts with `-` and 32767 if it does not. -/
theorem Execute_numeric_conversion :
    (∀ (σ : Type) (helper : NetworkHelper σ) (st : σ) (rnd : Nat) (pad11 rest : List Nat)
      (pairs : List (List Nat × List Nat)),
      pad11.length = 11 → WellFormedKV pairs →
      ReceivesStat helper st rnd
        (statResponse (generateSessionID rnd) pad11 (encodeKV pairs ++ 0 :: rest)) →
      ∃ run raw, Execute helper st rnd = some run ∧ run.err = none ∧
        run.resp.Raw = some raw ∧
        (∀ v, lastValue pairs (str "numplayers") = some v →
          raw.NumPlayers = toUint16 (ParseInt v 16).1) ∧
        (∀ v, lastValue pairs (str "maxplayers") = some v →
          raw.MaxPlayers = toUint16 (ParseInt v 16).1) ∧
        (∀ v, lastValue pairs (str "hostport") = some v →
          raw.HostPort = toUint16 (ParseInt v 16).1)) ∧
    (∀ (v : List Nat) (n : Int), DecimalInt v n → -32768 ≤ n → n ≤ 32767 →
      toUint16 (ParseInt v 16).1 = (n % 65536).toNat) ∧
    (∀ (v : List Nat) (n : Int), DecimalInt v n → 32767 < n →
      toUint16 (ParseInt v 16).1 = 32767) ∧
    (∀ (v : List Nat) (n : Int), DecimalInt v n → n < -32768 →
      toUint16 (ParseInt v 16).1 = 32768) ∧
    (∀ v : List Nat, (¬ ∃ n, DecimalInt v n) →
      decimalValue (leadingDigits (unsignedPart v)) ≤ 65535 →
      toUint16 (ParseInt v 16).1 = 0) ∧
    (∀ v : List Nat, (¬ ∃ n, DecimalInt v n) →
      65535 < decimalValue (leadingDigits (unsignedPart v)) →
      toUint16 (ParseInt v 16).1 = if v.head? = some 45 then 32768 else 32767) := by
  refine ⟨?_, ?_, ?_, ?_, ?_, ?_⟩
  · intro σ helper st rnd pad11 rest pairs h11 hw hr
    obtain ⟨ops, hex⟩ := Execute_encoded helper st rnd pad11 rest pairs h11 hw hr
    refine ⟨_, _, hex, rfl, rfl, ?_, ?_, ?_⟩
    · intro v hn
      have h := routeAll_field MinecraftUDPRaw.NumPlayers _ _ routeKV_NumPlayers pairs
        MinecraftUDPRaw.zero
      rw [hn] at h
      exact h
    · intro v hn
      have h := routeAll_field MinecraftUDPRaw.MaxPlayers _ _ routeKV_MaxPlayers pairs
        MinecraftUDPRaw.zero
      rw [hn] at h
      exact h
    · intro v hn
      have h := routeAll_field MinecraftUDPRaw.HostPort _ _ routeKV_HostPort pairs
        MinecraftUDPRaw.zero
      rw [hn] at h
      exact h
  · intro v n hd hlo hhi
    rw [ParseInt_of_decimalInt v n 16 (by norm_num) (by norm_num) hd (by simpa using hlo)
      (by norm_num; omega)]
    rfl
  · intro v n hd hhi
    rw [ParseInt_decimalInt_cases v n 16 (by norm_num) (by norm_num) hd]
    have e1 : ¬ n < -((2 ^ (16 - 1) : Nat) : Int) := by norm_num; omega
    have e2 : ((2 ^ (16 - 1) : Nat) : Int) ≤ n := by norm_num; omega
    rw [if_neg e1, if_pos e2]
    rfl
  · intro v n hd hlo
    rw [ParseInt_decimalInt_cases v n 16 (by norm_num) (by norm_num) hd]
    have e1 : n < -((2 ^ (16 - 1) : Nat) : Int) := by norm_num; omega
    rw [if_pos e1]
    rfl
  · intro v hv hl
    rw [ParseInt_badText v 16 (by norm_num) hv (by simpa using hl)]
    rfl
  · intro v _ hl
    rw [ParseInt_overflow_then v 16 (by norm_num) (by norm_num) (by simpa using hl)]
    by_cases h45 : v.head? = some 45
    · rw [if_pos h45, if_pos h45]
      rfl
    · rw [if_neg h45, if_neg h45]
      rfl

theorem Execute_numeric_conversion_witness :
    DecimalInt (str "-1") (-1) ∧ (-32768 : Int) ≤ -1 ∧ (-1 : Int) ≤ 32767 ∧
    toUint16 (ParseInt (str "-1") 16).1 = ((-1 : Int) % 65536).toNat ∧
    ((-1 : Int) % 65536).toNat = 65535 ∧
    (¬ ∃ n, DecimalInt (str "70000x") n) ∧
    65535 < decimalValue (leadingDigits (unsignedPart (str "70000x"))) ∧
    toUint16 (ParseInt (str "70000x") 16).1 =
      if (str "70000x").head? = some 45 then 32768 else 32767 :=
  ⟨⟨[49], by decide, by decide, Or.inr (Or.inr ⟨by decide, by decide⟩)⟩, by decide, by decide,
    Execute_numeric_conversion.2.1 (str "-1") (-1)
      ⟨[49], by decide, by decide, Or.inr (Or.inr ⟨by decide, by decide⟩)⟩ (by decide)
      (by decide),
    by decide, not_decimalInt_70000x, by decide,
    Execute_numeric_conversion.2.2.2.2.2 (str "70000x") not_decimalInt_70000x (by decide)⟩

/-- C18: the record does not depend on the session identifier, on the challenge
token or on the bytes skipped. Take two runs, each with its own transport,
session identifier and challenge token, that receive full-stat responses `0x00`,
the echoed session identifier and payloads of the same length; let the
key/value pass of the first run stop at cursor `r.1.pos`. If the payloads agree
past their first eleven bytes on the bytes that pass went over and on the bytes
from ten past its end, both runs succeed and return the same `Response`. In
particular two responses with the same well-formed key/value section and the
same player section return the same `Response`, whatever their two padding
blocks hold. -/
theorem Execute_record_independent :
    (∀ (σ τ : Type) (helper : NetworkHelper σ) (st : σ) (rnd : Nat) (helper1 : NetworkHelper τ)
      (st1 : τ) (rnd1 : Nat) (payload payload1 : List Nat) (r : Packet × MinecraftUDPRaw),
      ReceivesStat helper st rnd (0x00 :: (be32 (generateSessionID rnd) ++ payload)) →
      ReceivesStat helper1 st1 rnd1 (0x00 :: (be32 (generateSessionID rnd1) ++ payload1)) →
      payload.length = payload1.length →
      kvLoop ((0x00 :: (be32 (generateSessionID rnd) ++ payload)).length + 1)
        ⟨0x00 :: (be32 (generateSessionID rnd) ++ payload), 5 + 11⟩ MinecraftUDPRaw.zero =
        some r →
      (payload.drop 11).take (r.1.pos - (5 + 11)) =
        (payload1.drop 11).take (r.1.pos - (5 + 11)) →
      (payload.drop 11).drop (r.1.pos - (5 + 11) + 10) =
        (payload1.drop 11).drop (r.1.pos - (5 + 11) + 10) →
      ∃ run run1 raw, Execute helper st rnd = some run ∧
        Execute helper1 st1 rnd1 = some run1 ∧ run.err = none ∧ run1.err = none ∧
        run.resp = ⟨some raw⟩ ∧ run1.resp = ⟨some raw⟩) ∧
    (∀ (σ τ : Type) (helper : NetworkHelper σ) (st : σ) (rnd : Nat) (helper1 : NetworkHelper τ)
      (st1 : τ) (rnd1 : Nat) (pad11 pad11b pad10 pad10b tail : List Nat)
      (pairs : List (List Nat × List Nat)),
      pad11.length = 11 → pad11b.length = 11 → pad10.length = 10 → pad10b.length = 10 →
      WellFormedKV pairs →
      ReceivesStat helper st rnd (statResponse (generateSessionID rnd) pad11
        (encodeKV pairs ++ 0 :: (pad10 ++ tail))) →
      ReceivesStat helper1 st1 rnd1 (statResponse (generateSessionID rnd1) pad11b
        (encodeKV pairs ++ 0 :: (pad10b ++ tail))) →
      ∃ run run1 raw, Execute helper st rnd = some run ∧
        Execute helper1 st1 rnd1 = some run1 ∧ run.err = none ∧ run1.err = none ∧
        run.resp = ⟨some raw⟩ ∧ run1.resp = ⟨some raw⟩) := by
  constructor
  · intro σ τ helper st rnd helper1 st1 rnd1 payload payload1 r hr hr1 hlen hk h1 h2
    have hb := generateSessionID_bounds rnd
    have hb1 := generateSessionID_bounds rnd1
    have hrest := (readHeader 0 (generateSessionID rnd) payload (by omega) (by omega)).2.2.2
    have hrest1 := (readHeader 0 (generateSessionID rnd1) payload1 (by omega) (by omega)).2.2.2
    have hloc := decodeStat_local ⟨0x00 :: (be32 (generateSessionID rnd) ++ payload), 5⟩
      ⟨0x00 :: (be32 (generateSessionID rnd1) ++ payload1), 5⟩ r
      (by simp [be32, hlen]) rfl hk (by rw [hrest, hrest1]; exact h1)
      (by rw [hrest, hrest1]; exact h2)
    obtain ⟨raw, hraw⟩ := decodeStat_isSome
      ⟨0x00 :: (be32 (generateSessionID rnd) ++ payload), 5⟩
    obtain ⟨ops, hex⟩ := Execute_statResponse helper st rnd [] payload hr raw hraw
    obtain ⟨ops1, hex1⟩ := Execute_statResponse helper1 st1 rnd1 [] payload1 hr1 raw
      (hloc.trans hraw)
    exact ⟨_, _, raw, hex, hex1, rfl, rfl, rfl, rfl⟩
  · intro σ τ helper st rnd helper1 st1 rnd1 pad11 pad11b pad10 pad10b tail pairs h11 h11b h10
      h10b hw hr hr1
    obtain ⟨ops, hex⟩ := Execute_encoded helper st rnd pad11 _ pairs h11 hw hr
    obtain ⟨ops1, hex1⟩ := Execute_encoded helper1 st1 rnd1 pad11b _ pairs h11b hw hr1
    have e : (pad10 ++ tail).drop 10 = tail := by rw [← h10]; simp
    have e1 : (pad10b ++ tail).drop 10 = tail := by rw [← h10b]; simp
    rw [e] at hex
    rw [e1] at hex1
    exact ⟨_, _, _, hex, hex1, rfl, rfl, rfl, rfl⟩

theorem Execute_record_independent_witness :
    ReceivesStat (scriptedHelper (exampleHandshake (str "12345"))
        (0x00 :: (be32 (generateSessionID exampleRnd) ++ (examplePad11 ++
          (encodeKV [(str "map", str "world")] ++ 0 :: (examplePad10 ++
            (encodeNames [str "Alice"] ++ [0])))))))
      0 exampleRnd
      (0x00 :: (be32 (generateSessionID exampleRnd) ++ (examplePad11 ++
        (encodeKV [(str "map", str "world")] ++ 0 :: (examplePad10 ++
          (encodeNames [str "Alice"] ++ [0])))))) ∧
    ReceivesStat (scriptedHelper (0x09 :: (be32 (generateSessionID 7) ++ (str "99" ++ [0])))
        (0x00 :: (be32 (generateSessionID 7) ++ (List.replicate 11 0xAA ++
          (encodeKV [(str "map", str "world")] ++ 0 :: (List.replicate 10 0xBB ++
            (encodeNames [str "Alice"] ++ [0])))))))
      0 7
      (0x00 :: (be32 (generateSessionID 7) ++ (List.replicate 11 0xAA ++
        (encodeKV [(str "map", str "world")] ++ 0 :: (List.replicate 10 0xBB ++
          (encodeNames [str "Alice"] ++ [0])))))) ∧
    generateSessionID exampleRnd ≠ generateSessionID 7 ∧
    ∃ run run1 raw,
      Execute (scriptedHelper (exampleHandshake (str "12345"))
        (0x00 :: (be32 (generateSessionID exampleRnd) ++ (examplePad11 ++
          (encodeKV [(str "map", str "world")] ++ 0 :: (examplePad10 ++
            (encodeNames [str "Alice"] ++ [0]))))))) 0 exampleRnd = some run ∧
      Execute (scriptedHelper (0x09 :: (be32 (generateSessionID 7) ++ (str "99" ++ [0])))
        (0x00 :: (be32 (generateSessionID 7) ++ (List.replicate 11 0xAA ++
          (encodeKV [(str "map", str "world")] ++ 0 :: (List.replicate 10 0xBB ++
            (encodeNames [str "Alice"] ++ [0]))))))) 0 7 = some run1 ∧
      run.err = none ∧ run1.err = none ∧ run.resp = ⟨some raw⟩ ∧ run1.resp = ⟨some raw⟩ :=
  ⟨exampleReceivesStat (str "12345") [0, 0, 48, 57] _ (by decide) (by decide),
    ⟨2, 3, 4, str "99", [0, 0, 0, 99],
      ⟨1, 0x09 :: (be32 (generateSessionID 7) ++ (str "99" ++ [0])), rfl, rfl, rfl, rfl,
        by decide⟩, by decide, rfl, rfl⟩,
    by decide,
    Execute_record_independent.1 Nat Nat _ 0 exampleRnd _ 0 7
      (examplePad11 ++ (encodeKV [(str "map", str "world")] ++ 0 :: (examplePad10 ++
        (encodeNames [str "Alice"] ++ [0]))))
      (List.replicate 11 0xAA ++ (encodeKV [(str "map", str "world")] ++ 0 ::
        (List.replicate 10 0xBB ++ (encodeNames [str "Alice"] ++ [0]))))
      (⟨0x00 :: (be32 (generateSessionID exampleRnd) ++ (examplePad11 ++
        (encodeKV [(str "map", str "world")] ++ 0 :: (examplePad10 ++
          (encodeNames [str "Alice"] ++ [0]))))), 27⟩,
        { MinecraftUDPRaw.zero with Map := str "world" })
      (exampleReceivesStat (str "12345") [0, 0, 48, 57] _ (by decide) (by decide))
      ⟨2, 3, 4, str "99", [0, 0, 0, 99],
        ⟨1, 0x09 :: (be32 (generateSessionID 7) ++ (str "99" ++ [0])), rfl, rfl, rfl, rfl,
          by decide⟩, by decide, rfl, rfl⟩
      (by decide) (by decide) (by decide) (by decide)⟩

end GameQuery
